import Mathlib

/-!
The etcd bootstrapper: cluster-state decision, reconciliation and rendering.

A shallow embedding of `bootstrap/bootstrap.go`.  The two collaborators of the
`Bootstrapper` (the cloud provider and the etcd cluster client) are Go
interfaces, so they are embedded as an arbitrary deterministic state machine
`World σ`: every interface method is a function of the collaborator state that
returns its Go result together with the next state.  A run of the bootstrapper
is a function from the initial collaborator state to its Go result, the final
collaborator state, and the list of collaborator calls it issued (with the
values they returned), in program order.  Log statements have no effect on
results or calls and are left out.

The file also embeds the argument check and the choice of the bootstrapper of
`main.go`, and `findAllInstances` of `lib/gcp/gcp.go` over an abstract compute
client, with Go's `fmt.Sprintf` as a parameter.
-/

namespace Bootstrap

/-- Go `error` values are represented by their message; `none` is `nil`. -/
abbrev Error := String

/-- The `cloud.Instance` record. -/
structure Instance where
  InstanceID : String
  PrivateIP : String
  deriving DecidableEq, Repr

/-- The `etcd.Member` record. -/
structure Member where
  Name : String
  PeerURL : String
  deriving DecidableEq, Repr

/-- The `clusterState` string type of the source. -/
abbrev clusterState := String

/-- The constant `newCluster`. -/
def newCluster : clusterState := "new"

/-- The constant `existingCluster`. -/
def existingCluster : clusterState := "existing"

/-- One collaborator call together with the values it returned. -/
inductive Event where
  | GetInstances (out : List Instance)
  | GetLocalInstance (out : Instance)
  | Members (out : List Member) (err : Option Error)
  | AddMember (url : String) (err : Option Error)
  | RemoveMember (url : String) (err : Option Error)
  deriving DecidableEq, Repr

/-- The `CloudProvider` and `etcdCluster` interfaces over a collaborator state `σ`. -/
structure World (σ : Type) where
  GetInstances : σ → List Instance × σ
  GetLocalInstance : σ → Instance × σ
  Members : σ → (List Member × Option Error) × σ
  AddMember : String → σ → Option Error × σ
  RemoveMember : String → σ → Option Error × σ

/-- A computation over the collaborators: from a collaborator state to a result,
the next state and the calls issued. -/
def Prog (σ α : Type) : Type := σ → α × σ × List Event

/-- Running a computation from a collaborator state. -/
def Prog.run {σ α : Type} (p : Prog σ α) (s : σ) : α × σ × List Event := p s

/-- The returned value of a run. -/
def Prog.result {σ α : Type} (p : Prog σ α) (s : σ) : α := (p.run s).1

/-- The collaborator state after a run. -/
def Prog.final {σ α : Type} (p : Prog σ α) (s : σ) : σ := (p.run s).2.1

/-- The collaborator calls of a run, in program order. -/
def Prog.trace {σ α : Type} (p : Prog σ α) (s : σ) : List Event := (p.run s).2.2

/-- Returning a value issues no call. -/
def Prog.pure {σ α : Type} (a : α) : Prog σ α := fun s => (a, s, [])

/-- Sequencing: the second computation starts in the state left by the first,
and the calls are concatenated. -/
def Prog.bind {σ α β : Type} (p : Prog σ α) (f : α → Prog σ β) : Prog σ β := fun s =>
  match p s with
  | (a, s1, t1) =>
    match f a s1 with
    | (b, s2, t2) => (b, s2, t1 ++ t2)

instance {σ : Type} : Monad (Prog σ) where
  pure := Prog.pure
  bind := Prog.bind

section Calls

variable {σ : Type}

/-- Call of `b.cloud.GetInstances()`. -/
def getInstances (w : World σ) : Prog σ (List Instance) := fun s =>
  match w.GetInstances s with
  | (out, s1) => (out, s1, [Event.GetInstances out])

/-- Call of `b.cloud.GetLocalInstance()`. -/
def getLocalInstance (w : World σ) : Prog σ Instance := fun s =>
  match w.GetLocalInstance s with
  | (out, s1) => (out, s1, [Event.GetLocalInstance out])

/-- Call of `b.cluster.Members()`. -/
def members (w : World σ) : Prog σ (List Member × Option Error) := fun s =>
  match w.Members s with
  | ((out, err), s1) => ((out, err), s1, [Event.Members out err])

/-- Call of `b.cluster.AddMember(url)`. -/
def addMember (w : World σ) (url : String) : Prog σ (Option Error) := fun s =>
  match w.AddMember url s with
  | (err, s1) => (err, s1, [Event.AddMember url err])

/-- Call of `b.cluster.RemoveMember(url)`. -/
def removeMember (w : World σ) (url : String) : Prog σ (Option Error) := fun s =>
  match w.RemoveMember url s with
  | (err, s1) => (err, s1, [Event.RemoveMember url err])

end Calls

/-- The function `peerURL`: `fmt.Sprintf("http://%s:2380", ip)`. -/
def peerURL (ip : String) : String := "http://" ++ ip ++ ":2380"

/-- The function `clientURL`: `fmt.Sprintf("http://%s:2379", ip)`. -/
def clientURL (ip : String) : String := "http://" ++ ip ++ ":2379"

/-- The function `contains`: linear search for `value`. -/
def contains : List String → String → Bool
  | [], _ => false
  | s :: rest, value => if value = s then true else contains rest value

section Bootstrapper

variable {σ : Type}

/-- The method `clusterExists`. -/
def clusterExists (w : World σ) : Prog σ (Bool × Option Error) := do
  let (m, err) ← members w
  if err.isSome then
    return (false, err)
  return (decide (m.length > 0), none)

/-- The loop of `nodeExistsInCluster` over the member list. -/
def nodeExistsLoop (localInstanceURL : String) : List Member → Bool
  | [] => false
  | member :: rest =>
    if member.PeerURL = localInstanceURL ∧ member.Name.length > 0 then true
    else nodeExistsLoop localInstanceURL rest

/-- The method `nodeExistsInCluster`. -/
def nodeExistsInCluster (w : World σ) : Prog σ (Bool × Option Error) := do
  let (ms, err) ← members w
  if err.isSome then
    return (false, err)
  let loc ← getLocalInstance w
  let localInstanceURL := peerURL loc.PrivateIP
  return (nodeExistsLoop localInstanceURL ms, none)

/-- The method `getInstancePeerURLs`. -/
def getInstancePeerURLs (w : World σ) : Prog σ (List String) := do
  let instances ← getInstances w
  return instances.map (fun i => peerURL i.PrivateIP)

/-- The loop of `constructInitialCluster` over the instances. -/
def initialClusterEntries (availablePeerURLs : List String) : List Instance → List String
  | [] => []
  | inst :: rest =>
    let instancePeerURL := peerURL inst.PrivateIP
    if contains availablePeerURLs instancePeerURL then
      (inst.InstanceID ++ "=" ++ instancePeerURL) :: initialClusterEntries availablePeerURLs rest
    else initialClusterEntries availablePeerURLs rest

/-- The method `constructInitialCluster`. -/
def constructInitialCluster (w : World σ) (availablePeerURLs : List String) : Prog σ String := do
  let instances ← getInstances w
  return String.intercalate "," (initialClusterEntries availablePeerURLs instances)

/-- The method `createEtcdConfig`. -/
def createEtcdConfig (w : World σ) (state : clusterState) (availablePeerURLs : List String) :
    Prog σ String := do
  let initialCluster ← constructInitialCluster w availablePeerURLs
  let loc ← getLocalInstance w
  let envs : List String :=
    [ "ETCD_INITIAL_CLUSTER_STATE=" ++ state,
      "ETCD_INITIAL_CLUSTER=" ++ initialCluster,
      "ETCD_NAME=" ++ loc.InstanceID,
      "ETCD_INITIAL_ADVERTISE_PEER_URLS=" ++ peerURL loc.PrivateIP,
      "ETCD_LISTEN_PEER_URLS=" ++ peerURL loc.PrivateIP,
      "ETCD_LISTEN_CLIENT_URLS=" ++ clientURL loc.PrivateIP ++ "," ++ clientURL "127.0.0.1",
      "ETCD_ADVERTISE_CLIENT_URLS=" ++ clientURL loc.PrivateIP ]
  return String.intercalate "\n" envs ++ "\n"

/-- The method `bootstrapNewCluster`. -/
def bootstrapNewCluster (w : World σ) : Prog σ String := do
  let instanceURLs ← getInstancePeerURLs w
  createEtcdConfig w newCluster instanceURLs

/-- The method `etcdMemberPeerURLs`. -/
def etcdMemberPeerURLs (w : World σ) : Prog σ (List String × Option Error) := do
  let (ms, err) ← members w
  if err.isSome then
    return ([], err)
  return (ms.map (fun member => member.PeerURL), none)

/-- The loop of `removeOldEtcdMembers` over the member URLs; an error of
`RemoveMember` is only logged. -/
def removeLoop (w : World σ) (instanceURLs : List String) : List String → Prog σ Unit
  | [] => pure ()
  | memberURL :: rest => do
    if !contains instanceURLs memberURL then
      let _ ← removeMember w memberURL
    removeLoop w instanceURLs rest

/-- The method `removeOldEtcdMembers`. -/
def removeOldEtcdMembers (w : World σ) : Prog σ (Option Error) := do
  let (memberURLs, err) ← etcdMemberPeerURLs w
  if err.isSome then
    return err
  let instanceURLs ← getInstancePeerURLs w
  removeLoop w instanceURLs memberURLs
  return none

/-- The method `addLocalInstanceToEtcd`. -/
def addLocalInstanceToEtcd (w : World σ) : Prog σ (Option Error) := do
  let (memberURLs, err) ← etcdMemberPeerURLs w
  if err.isSome then
    return err
  let loc ← getLocalInstance w
  let localInstanceURL := peerURL loc.PrivateIP
  if !contains memberURLs localInstanceURL then
    let err ← addMember w localInstanceURL
    match err with
    | some e =>
      return some ("unexpected error when adding new member URL " ++ localInstanceURL ++ ": " ++ e)
    | none => pure ()
  return none

/-- The method `reconcileMembers`. -/
def reconcileMembers (w : World σ) : Prog σ (Option Error) := do
  let err ← removeOldEtcdMembers w
  if err.isSome then
    return err
  addLocalInstanceToEtcd w

/-- The method `bootstrapNewNode`. -/
def bootstrapNewNode (w : World σ) : Prog σ (String × Option Error) := do
  let err ← reconcileMembers w
  if err.isSome then
    return ("", err)
  let (clusterURLs, err) ← etcdMemberPeerURLs w
  if err.isSome then
    return ("", err)
  let text ← createEtcdConfig w existingCluster clusterURLs
  return (text, none)

/-- The method `GenerateEtcdFlags`. -/
def GenerateEtcdFlags (w : World σ) : Prog σ (String × Option Error) := do
  let (exists_, err) ← clusterExists w
  if err.isSome then
    return ("", err)
  if !exists_ then
    let text ← bootstrapNewCluster w
    return (text, none)
  let (nodeExists, err) ← nodeExistsInCluster w
  if err.isSome then
    return ("", err)
  if nodeExists then
    let text ← bootstrapNewCluster w
    return (text, none)
  bootstrapNewNode w

end Bootstrapper

/-- State of the in-memory collaborators: a fixed inventory and local instance,
the current member list, and the error (if any) that each cluster call returns. -/
structure FakeState where
  instances : List Instance
  localInstance : Instance
  members : List Member
  membersErr : Option Error
  addErr : Option Error
  removeErr : Option Error
  deriving DecidableEq, Repr

/-- In-memory collaborators in the manner of the test doubles: `Members` returns
the current list, a successful `AddMember` appends a member with that peer URL
and an empty name, a successful `RemoveMember` deletes the members with that
peer URL, and a failing call leaves the list unchanged. -/
def fakeWorld : World FakeState where
  GetInstances s := (s.instances, s)
  GetLocalInstance s := (s.localInstance, s)
  Members s := ((s.members, s.membersErr), s)
  AddMember url s :=
    match s.addErr with
    | some e => (some e, s)
    | none => (none, { s with members := s.members ++ [{ Name := "", PeerURL := url }] })
  RemoveMember url s :=
    match s.removeErr with
    | some e => (some e, s)
    | none => (none, { s with members := s.members.filter (fun m => m.PeerURL ≠ url) })

/-- The inventory of the tests: e1, e2, e3. -/
def testInstances : List Instance :=
  [ { InstanceID := "e1", PrivateIP := "10.50.99.1" },
    { InstanceID := "e2", PrivateIP := "10.50.199.1" },
    { InstanceID := "e3", PrivateIP := "10.50.155.1" } ]

/-- The founding case of `TestCreateNewCluster`: local e2, no members. -/
def foundingState : FakeState :=
  { instances := testInstances,
    localInstance := { InstanceID := "e2", PrivateIP := "10.50.199.1" },
    members := [], membersErr := none, addErr := none, removeErr := none }

/-- The members of `TestExistingCluster`: e1, e2, e3, all named. -/
def namedMembers : List Member :=
  [ { Name := "e1", PeerURL := "http://10.50.99.1:2380" },
    { Name := "e2", PeerURL := "http://10.50.199.1:2380" },
    { Name := "e3", PeerURL := "http://10.50.155.1:2380" } ]

/-- The case of `TestExistingCluster`: local e2, members e1, e2, e3 all named. -/
def registeredState : FakeState :=
  { foundingState with members := namedMembers }

/-- The members of `TestJoinAnExistingCluster`: e1 and the unknown ea, eb. -/
def staleMembers : List Member :=
  [ { Name := "e1", PeerURL := "http://10.50.99.1:2380" },
    { Name := "ea", PeerURL := "http://10.50.65.2:2380" },
    { Name := "eb", PeerURL := "http://10.50.44.44:2380" } ]

/-- The case of `TestJoinAnExistingCluster`: local e2, members e1, ea, eb. -/
def joinState : FakeState :=
  { foundingState with members := staleMembers }

/-- The join case on a cluster whose `RemoveMember` always fails. -/
def joinRemoveFailsState : FakeState :=
  { joinState with removeErr := some "failed to remove etcd members" }

/-- The join case on a cluster whose `AddMember` fails. -/
def joinAddFailsState : FakeState :=
  { joinState with addErr := some "failed to add etcd member" }

/-- The join case on a cluster whose `Members` fails. -/
def queryFailsState : FakeState :=
  { joinState with membersErr := some "failed to get etcd members" }

/-- The case of `TestJoinAnExistingClusterWhenPartiallyInitialised`: local e3,
registered with its peer URL and an empty name. -/
def partialState : FakeState :=
  { instances := testInstances,
    localInstance := { InstanceID := "e3", PrivateIP := "10.50.155.1" },
    members :=
      [ { Name := "e1", PeerURL := "http://10.50.99.1:2380" },
        { Name := "e2", PeerURL := "http://10.50.199.1:2380" },
        { Name := "", PeerURL := "http://10.50.155.1:2380" } ],
    membersErr := none, addErr := none, removeErr := none }

/-- The peer URLs passed to `RemoveMember` in a list of calls, in call order. -/
def removeCalls : List Event → List String
  | [] => []
  | Event.RemoveMember url _ :: rest => url :: removeCalls rest
  | _ :: rest => removeCalls rest

/-- The peer URLs passed to `AddMember` in a list of calls, in call order. -/
def addCalls : List Event → List String
  | [] => []
  | Event.AddMember url _ :: rest => url :: addCalls rest
  | _ :: rest => addCalls rest

/-- The lists returned by the `GetInstances` calls in a list of calls, in call order. -/
def getInstancesCalls : List Event → List (List Instance)
  | [] => []
  | Event.GetInstances out :: rest => out :: getInstancesCalls rest
  | _ :: rest => getInstancesCalls rest

/-- One call of `ioutil.WriteFile(filename, data, perm)`. -/
structure FileWrite where
  filename : String
  data : String
  perm : Nat
  deriving DecidableEq, Repr

/-- The file system behind `ioutil.WriteFile`, over a file-system state `φ`. -/
structure FileSystem (φ : Type) where
  WriteFile : String → String → Nat → φ → Option Error × φ

/-- The function `writeToFile`: `ioutil.WriteFile(outputFilename, []byte(data), 0644)`.
Returns the error, the next file-system state and the write issued. -/
def writeToFile {φ : Type} (fs : FileSystem φ) (outputFilename : String) (data : String)
    (f : φ) : Option Error × φ × List FileWrite :=
  match fs.WriteFile outputFilename data 0o644 f with
  | (err, f1) => (err, f1, [{ filename := outputFilename, data := data, perm := 0o644 }])

/-- The method `GenerateEtcdFlagsFile`.  Returns the error, the collaborator
state and calls of `GenerateEtcdFlags`, the file-system state and the writes. -/
def GenerateEtcdFlagsFile {σ φ : Type} (w : World σ) (fs : FileSystem φ)
    (outputFilename : String) (s : σ) (f : φ) :
    Option Error × σ × List Event × φ × List FileWrite :=
  match (GenerateEtcdFlags w).run s with
  | ((etcdFLags, err), s1, t) =>
    if err.isSome then (err, s1, t, f, [])
    else
      match writeToFile fs outputFilename etcdFLags f with
      | (werr, f1, ws) => (werr, s1, t, f1, ws)

/-- A file system that keeps the last content written to each file name and
never fails. -/
def fakeFileSystem : FileSystem (List (String × String)) where
  WriteFile filename data _ f := (none, (filename, data) :: f.filter (fun e => e.1 ≠ filename))

/-- A faithful in-memory cluster behind fixed cloud data: `mem` is the current
member list, `inv` the inventory and `lcl` the local instance of a collaborator
state.  The cloud calls return `inv` and `lcl` and change none of the three; a
successful `Members` returns `mem`; a successful `AddMember(u)` appends a
member with peer URL `u` and an empty name; a successful `RemoveMember(u)`
deletes the members with peer URL `u`; failing calls leave `mem` unchanged. -/
structure FaithfulCluster {σ : Type} (w : World σ) (mem : σ → List Member)
    (inv : σ → List Instance) (lcl : σ → Instance) : Prop where
  getInstances_out : ∀ s, (w.GetInstances s).1 = inv s
  getLocalInstance_out : ∀ s, (w.GetLocalInstance s).1 = lcl s
  members_out : ∀ s, (w.Members s).1.2 = none → (w.Members s).1.1 = mem s
  getInstances_mem : ∀ s, mem (w.GetInstances s).2 = mem s
  getLocalInstance_mem : ∀ s, mem (w.GetLocalInstance s).2 = mem s
  members_mem : ∀ s, mem (w.Members s).2 = mem s
  addMember_mem : ∀ u s, mem (w.AddMember u s).2 =
    if (w.AddMember u s).1 = none then mem s ++ [{ Name := "", PeerURL := u }] else mem s
  removeMember_mem : ∀ u s, mem (w.RemoveMember u s).2 =
    if (w.RemoveMember u s).1 = none then (mem s).filter (fun m => m.PeerURL ≠ u) else mem s
  getInstances_cloud : ∀ s, inv (w.GetInstances s).2 = inv s ∧ lcl (w.GetInstances s).2 = lcl s
  getLocalInstance_cloud : ∀ s,
    inv (w.GetLocalInstance s).2 = inv s ∧ lcl (w.GetLocalInstance s).2 = lcl s
  members_cloud : ∀ s, inv (w.Members s).2 = inv s ∧ lcl (w.Members s).2 = lcl s
  addMember_cloud : ∀ u s, inv (w.AddMember u s).2 = inv s ∧ lcl (w.AddMember u s).2 = lcl s
  removeMember_cloud : ∀ u s,
    inv (w.RemoveMember u s).2 = inv s ∧ lcl (w.RemoveMember u s).2 = lcl s

/-- The bootstrapper constructors between which `main` chooses:
`bootstrap.LocalVMWare(config)` and `bootstrap.LocalASG()`. -/
inductive BootstrapperKind where
  | LocalVMWare
  | LocalASG
  deriving DecidableEq, Repr

/-- The function `validateArguments` of `main.go` on the `cloud` flag; an
error is the abort of the process by `log.Fatal`. -/
def validateArguments (cloud : String) : Except String Unit :=
  if cloud = "" ∨ (cloud ≠ "aws" ∧ cloud ≠ "vmware") then
    Except.error "Cloud argument must be one of 'aws' or 'vmware'"
  else Except.ok ()

/-- The head of `main`: `validateArguments()` and then the choice of the
bootstrapper constructor by the `cloud` flag. -/
def mainBootstrapper (cloud : String) : Except String BootstrapperKind :=
  match validateArguments cloud with
  | Except.error msg => Except.error msg
  | Except.ok () =>
    if cloud = "vmware" then Except.ok BootstrapperKind.LocalVMWare
    else Except.ok BootstrapperKind.LocalASG

/-- The `Config` record of the GCP provider. -/
structure Config where
  ProjectID : String
  Environment : String
  Role : String
  deriving DecidableEq, Repr

/-- The `compute.NetworkInterface` record, with the field the code reads. -/
structure NetworkInterface where
  NetworkIP : String
  deriving DecidableEq, Repr

/-- The `compute.Instance` record, with the fields the code reads. -/
structure ComputeInstance where
  Name : String
  NetworkInterfaces : List NetworkInterface
  deriving DecidableEq, Repr

/-- The `compute.Zone` record, with the field the code reads. -/
structure Zone where
  Name : String
  deriving DecidableEq, Repr

/-- One call of the compute API with its arguments. -/
inductive GcpCall where
  | ZonesList (project : String)
  | InstancesList (project : String) (zone : String) (filter : String)
  deriving DecidableEq, Repr

/-- The failures of `findAllInstances`: the three `fmt.Errorf` returns, recorded
with their operands, and the run-time panic of an index out of range. -/
inductive GcpError where
  | listZones (project : String) (err : Error)
  | listInstances (project : String) (zone : Zone) (err : Error)
  | noNetworkInterfaces (name : String)
  | indexOutOfRange
  deriving DecidableEq, Repr

/-- The compute API client over a state `γ`: `Zones.List(project).Do()` and
`Instances.List(project, zone).Filter(filter).Do()`. -/
structure ComputeService (γ : Type) where
  ZonesList : String → γ → Except Error (List Zone) × γ
  InstancesList : String → String → String → γ → Except Error (List ComputeInstance) × γ

/-- The inner loop of `findAllInstances` over the instances listed in a zone. -/
def appendInstances : List Instance → List ComputeInstance → Except GcpError (List Instance)
  | instances, [] => Except.ok instances
  | instances, inst :: rest =>
    if inst.NetworkInterfaces.length > 0 then
      match inst.NetworkInterfaces[0]? with
      | some networkInterface =>
        appendInstances
          (instances ++ [{ InstanceID := inst.Name, PrivateIP := networkInterface.NetworkIP }])
          rest
      | none => Except.error GcpError.indexOutOfRange
    else Except.error (GcpError.noNetworkInterfaces inst.Name)

/-- The outer loop of `findAllInstances` over the zones.  `sprintf` is Go's
`fmt.Sprintf` applied to a format string without operands. -/
def zonesLoop {γ : Type} (sprintf : String → String) (client : ComputeService γ) (cfg : Config) :
    List Zone → List Instance → γ → Except GcpError (List Instance) × γ × List GcpCall
  | [], instances, g => (Except.ok instances, g, [])
  | zone :: rest, instances, g =>
    let filters := ["labels.environment=" ++ cfg.Environment, "labels.role=" ++ cfg.Role,
      "status != TERMINATED"]
    let byEnvironmentAndRole := sprintf (String.intercalate " AND " filters)
    match client.InstancesList cfg.ProjectID zone.Name byEnvironmentAndRole g with
    | (Except.error err, g1) =>
      (Except.error (GcpError.listInstances cfg.ProjectID zone err), g1,
        [GcpCall.InstancesList cfg.ProjectID zone.Name byEnvironmentAndRole])
    | (Except.ok items, g1) =>
      match appendInstances instances items with
      | Except.error e =>
        (Except.error e, g1, [GcpCall.InstancesList cfg.ProjectID zone.Name byEnvironmentAndRole])
      | Except.ok instances1 =>
        match zonesLoop sprintf client cfg rest instances1 g1 with
        | (r, g2, t) =>
          (r, g2, GcpCall.InstancesList cfg.ProjectID zone.Name byEnvironmentAndRole :: t)

/-- The function `findAllInstances` of the GCP provider: the result, the next
client state and the API calls issued. -/
def findAllInstances {γ : Type} (sprintf : String → String) (client : ComputeService γ)
    (cfg : Config) (g : γ) : Except GcpError (List Instance) × γ × List GcpCall :=
  match client.ZonesList cfg.ProjectID g with
  | (Except.error err, g1) =>
    (Except.error (GcpError.listZones cfg.ProjectID err), g1, [GcpCall.ZonesList cfg.ProjectID])
  | (Except.ok zones, g1) =>
    match zonesLoop sprintf client cfg zones [] g1 with
    | (r, g2, t) => (r, g2, GcpCall.ZonesList cfg.ProjectID :: t)

/-- The filters passed to `Instances.List` in a list of API calls. -/
def filtersOf : List GcpCall → List String
  | [] => []
  | GcpCall.InstancesList _ _ filter :: rest => filter :: filtersOf rest
  | _ :: rest => filtersOf rest

/-- A compute API that never fails: the zone listing returns `zones` and the
instance listing of the zone named `zone` returns `L` of that zone. -/
def fixedCompute (zones : List Zone) (L : Zone → List ComputeInstance) : ComputeService Unit where
  ZonesList _ g := (Except.ok zones, g)
  InstancesList _ zone _ g := (Except.ok (L { Name := zone }), g)

/-- Listings by zone: `a` with two interfaces in `z1`, `b` with one interface
in every other zone. -/
def fakeListing (z : Zone) : List ComputeInstance :=
  if z.Name = "z1" then
    [{ Name := "a", NetworkInterfaces := [{ NetworkIP := "10.0.0.1" }, { NetworkIP := "10.0.9.9" }] }]
  else [{ Name := "b", NetworkInterfaces := [{ NetworkIP := "10.0.0.2" }] }]

/-- Listings by zone: `a` with one interface in `z1`, and in every other zone
`c` without interfaces followed by `b` with one interface. -/
def bareListing (z : Zone) : List ComputeInstance :=
  if z.Name = "z1" then [{ Name := "a", NetworkInterfaces := [{ NetworkIP := "10.0.0.1" }] }]
  else [{ Name := "c", NetworkInterfaces := [] },
    { Name := "b", NetworkInterfaces := [{ NetworkIP := "10.0.0.2" }] }]

/-- The zones of the fixed compute APIs used below. -/
def fakeZones : List Zone := [{ Name := "z1" }, { Name := "z2" }]

/-- A configuration without percent signs. -/
def plainConfig : Config :=
  { ProjectID := "p", Environment := "dev", Role := "etcd" }

/-- A configuration whose environment holds a percent sign. -/
def percentConfig : Config :=
  { ProjectID := "p", Environment := "100%", Role := "etcd" }

/-- Go's `fmt.Sprintf(format)` called without operands, on the characters of
the format.  With `inVerb` false the text is copied up to the next `%`; with
`inVerb` true the characters after a `%` are read: the flags `#0+- ` are
skipped, the verb `%` gives `%`, any other verb `v` gives `%!v(MISSING)`, and
the end of the format gives `%!(NOVERB)`.  A width, a precision or an argument
index (a digit, `.`, `*` or `[` after the flags) is not covered: `none`. -/
def sprintfChars : Bool → List Char → Option (List Char)
  | false, [] => some []
  | false, c :: rest =>
    if c = '%' then sprintfChars true rest
    else (sprintfChars false rest).map (fun out => c :: out)
  | true, [] => some "%!(NOVERB)".data
  | true, c :: rest =>
    if c = '#' ∨ c = '0' ∨ c = '+' ∨ c = '-' ∨ c = ' ' then sprintfChars true rest
    else if c.isDigit = true ∨ c = '.' ∨ c = '*' ∨ c = '[' then none
    else if c = '%' then (sprintfChars false rest).map (fun out => '%' :: out)
    else (sprintfChars false rest).map (fun out => "%!".data ++ c :: ("(MISSING)".data ++ out))

/-- Go's `fmt.Sprintf(format)` called without operands, where covered by
`sprintfChars`. -/
def goSprintf (format : String) : Option String :=
  (sprintfChars false format.data).map String.mk

/-- A total `fmt.Sprintf(format)` without operands that follows `goSprintf`
where it is defined. -/
def sprintfNoOperands (format : String) : String :=
  (goSprintf format).getD format

/-- The in-memory collaborators of `fakeWorld` with a `Members` query that
never fails: it returns the current member list. -/
def steadyWorld : World FakeState where
  GetInstances s := fakeWorld.GetInstances s
  GetLocalInstance s := fakeWorld.GetLocalInstance s
  Members s := ((s.members, none), s)
  AddMember url s := fakeWorld.AddMember url s
  RemoveMember url s := fakeWorld.RemoveMember url s

section RunLemmas

variable {σ : Type}

theorem Prog.run_pure {α : Type} (a : α) (s : σ) :
    (Pure.pure a : Prog σ α).run s = (a, s, []) := rfl

theorem Prog.run_bind {α β : Type} (p : Prog σ α) (f : α → Prog σ β) (s : σ) :
    (p >>= f).run s =
      (((f (p.run s).1).run (p.run s).2.1).1,
       ((f (p.run s).1).run (p.run s).2.1).2.1,
       (p.run s).2.2 ++ ((f (p.run s).1).run (p.run s).2.1).2.2) := rfl

theorem Prog.result_of_run {α : Type} {p : Prog σ α} {s s1 : σ} {a : α} {t : List Event}
    (h : p.run s = (a, s1, t)) : p.result s = a := by
  simp only [Prog.result, h]

theorem Prog.final_of_run {α : Type} {p : Prog σ α} {s s1 : σ} {a : α} {t : List Event}
    (h : p.run s = (a, s1, t)) : p.final s = s1 := by
  simp only [Prog.final, h]

theorem Prog.trace_of_run {α : Type} {p : Prog σ α} {s s1 : σ} {a : α} {t : List Event}
    (h : p.run s = (a, s1, t)) : p.trace s = t := by
  simp only [Prog.trace, h]

theorem members_run (w : World σ) (s : σ) :
    (members w).run s =
      ((w.Members s).1, (w.Members s).2, [Event.Members (w.Members s).1.1 (w.Members s).1.2]) :=
  rfl

theorem getInstances_run (w : World σ) (s : σ) :
    (getInstances w).run s =
      ((w.GetInstances s).1, (w.GetInstances s).2, [Event.GetInstances (w.GetInstances s).1]) :=
  rfl

theorem getLocalInstance_run (w : World σ) (s : σ) :
    (getLocalInstance w).run s =
      ((w.GetLocalInstance s).1, (w.GetLocalInstance s).2,
        [Event.GetLocalInstance (w.GetLocalInstance s).1]) :=
  rfl

theorem addMember_run (w : World σ) (url : String) (s : σ) :
    (addMember w url).run s =
      ((w.AddMember url s).1, (w.AddMember url s).2,
        [Event.AddMember url (w.AddMember url s).1]) :=
  rfl

theorem removeMember_run (w : World σ) (url : String) (s : σ) :
    (removeMember w url).run s =
      ((w.RemoveMember url s).1, (w.RemoveMember url s).2,
        [Event.RemoveMember url (w.RemoveMember url s).1]) :=
  rfl

end RunLemmas

section TextLemmas

theorem intercalate_go_eq (sep : String) (l : List String) (acc : String) :
    String.intercalate.go acc sep l = acc ++ String.intercalate.go "" sep l := by
  induction l generalizing acc with
  | nil => simp [String.intercalate.go]
  | cons a rest ih =>
    simp only [String.intercalate.go]
    rw [ih (acc ++ sep ++ a), ih ("" ++ sep ++ a)]
    simp [String.append_assoc]

theorem intercalate_cons_cons (sep a b : String) (l : List String) :
    sep.intercalate (a :: b :: l) = a ++ sep ++ sep.intercalate (b :: l) := by
  simp only [String.intercalate, String.intercalate.go]
  rw [intercalate_go_eq sep l (a ++ sep ++ b), intercalate_go_eq sep l b]
  simp [String.append_assoc]

end TextLemmas

section CallLists

theorem removeCalls_nil : removeCalls [] = [] := rfl

theorem removeCalls_cons_getInstances (out : List Instance) (rest : List Event) :
    removeCalls (Event.GetInstances out :: rest) = removeCalls rest := rfl

theorem removeCalls_cons_getLocalInstance (out : Instance) (rest : List Event) :
    removeCalls (Event.GetLocalInstance out :: rest) = removeCalls rest := rfl

theorem removeCalls_cons_members (out : List Member) (err : Option Error) (rest : List Event) :
    removeCalls (Event.Members out err :: rest) = removeCalls rest := rfl

theorem removeCalls_cons_addMember (url : String) (err : Option Error) (rest : List Event) :
    removeCalls (Event.AddMember url err :: rest) = removeCalls rest := rfl

theorem removeCalls_cons_removeMember (url : String) (err : Option Error) (rest : List Event) :
    removeCalls (Event.RemoveMember url err :: rest) = url :: removeCalls rest := rfl

theorem addCalls_nil : addCalls [] = [] := rfl

theorem addCalls_cons_getInstances (out : List Instance) (rest : List Event) :
    addCalls (Event.GetInstances out :: rest) = addCalls rest := rfl

theorem addCalls_cons_getLocalInstance (out : Instance) (rest : List Event) :
    addCalls (Event.GetLocalInstance out :: rest) = addCalls rest := rfl

theorem addCalls_cons_members (out : List Member) (err : Option Error) (rest : List Event) :
    addCalls (Event.Members out err :: rest) = addCalls rest := rfl

theorem addCalls_cons_addMember (url : String) (err : Option Error) (rest : List Event) :
    addCalls (Event.AddMember url err :: rest) = url :: addCalls rest := rfl

theorem addCalls_cons_removeMember (url : String) (err : Option Error) (rest : List Event) :
    addCalls (Event.RemoveMember url err :: rest) = addCalls rest := rfl

theorem removeCalls_append (a b : List Event) :
    removeCalls (a ++ b) = removeCalls a ++ removeCalls b := by
  induction a with
  | nil => rfl
  | cons ev rest ih => cases ev <;> simp [removeCalls, ih]

theorem addCalls_append (a b : List Event) :
    addCalls (a ++ b) = addCalls a ++ addCalls b := by
  induction a with
  | nil => rfl
  | cons ev rest ih => cases ev <;> simp [addCalls, ih]

theorem contains_iff (l : List String) (v : String) : contains l v = true ↔ v ∈ l := by
  induction l with
  | nil => simp [contains]
  | cons a rest ih =>
    by_cases h : v = a
    · simp [contains, h]
    · simp [contains, h, ih]

theorem length_pos_iff_ne_empty (s : String) : 0 < s.length ↔ s ≠ "" := by
  rcases s with ⟨l⟩
  cases l with
  | nil => simp [String.length]
  | cons c rest => simp [String.length, String.ext_iff]

theorem nodeExistsLoop_iff (url : String) (ms : List Member) :
    nodeExistsLoop url ms = true ↔ ∃ m ∈ ms, m.PeerURL = url ∧ m.Name ≠ "" := by
  induction ms with
  | nil => simp [nodeExistsLoop]
  | cons a rest ih =>
    have hlen : 0 < a.Name.length ↔ a.Name ≠ "" := length_pos_iff_ne_empty a.Name
    by_cases h : a.PeerURL = url ∧ a.Name ≠ ""
    · have h2 : a.PeerURL = url ∧ a.Name.length > 0 := ⟨h.1, hlen.mpr h.2⟩
      simp only [nodeExistsLoop, h2, and_self, if_true, true_iff]
      exact ⟨a, List.mem_cons_self _ _, h⟩
    · have h2 : ¬ (a.PeerURL = url ∧ a.Name.length > 0) := fun hh => h ⟨hh.1, hlen.mp hh.2⟩
      simp only [nodeExistsLoop, h2, if_false, ih, List.mem_cons, exists_eq_or_imp]
      constructor
      · intro hh; exact Or.inr hh
      · intro hh
        rcases hh with hh | hh
        · exact absurd hh h
        · exact hh

end CallLists

section RunEquations

variable {σ : Type}

theorem createEtcdConfig_state_line (w : World σ) (state : clusterState) (avail : List String)
    (s : σ) :
    ∃ rest, (createEtcdConfig w state avail).result s =
      "ETCD_INITIAL_CLUSTER_STATE=" ++ state ++ "\n" ++ rest := by
  simp only [Prog.result, createEtcdConfig, Prog.run_bind, Prog.run_pure, intercalate_cons_cons,
    String.append_assoc]
  exact ⟨_, rfl⟩

theorem createEtcdConfig_trace (w : World σ) (state : clusterState) (avail : List String)
    (s : σ) :
    (createEtcdConfig w state avail).trace s =
      [Event.GetInstances (w.GetInstances s).1,
       Event.GetLocalInstance (w.GetLocalInstance (w.GetInstances s).2).1] := by
  simp [Prog.trace, createEtcdConfig, constructInitialCluster, Prog.run_bind, Prog.run_pure,
    getInstances_run, getLocalInstance_run]

theorem bootstrapNewCluster_state_line (w : World σ) (s : σ) :
    ∃ rest, (bootstrapNewCluster w).result s = "ETCD_INITIAL_CLUSTER_STATE=new\n" ++ rest := by
  obtain ⟨rest, hr⟩ := createEtcdConfig_state_line w newCluster
    ((getInstancePeerURLs w).result s) ((getInstancePeerURLs w).final s)
  refine ⟨rest, ?_⟩
  simp only [Prog.result, Prog.final] at hr
  simp only [Prog.result, bootstrapNewCluster, Prog.run_bind]
  rw [hr]
  rfl

theorem bootstrapNewCluster_trace (w : World σ) (s : σ) :
    (bootstrapNewCluster w).trace s =
      [Event.GetInstances (w.GetInstances s).1,
       Event.GetInstances (w.GetInstances (w.GetInstances s).2).1,
       Event.GetLocalInstance (w.GetLocalInstance (w.GetInstances (w.GetInstances s).2).2).1] := by
  simp [Prog.trace, bootstrapNewCluster, createEtcdConfig, constructInitialCluster,
    getInstancePeerURLs, Prog.run_bind, Prog.run_pure, getInstances_run, getLocalInstance_run]

theorem etcdMemberPeerURLs_run_ok (w : World σ) (s s1 : σ) (ms : List Member)
    (h : w.Members s = ((ms, none), s1)) :
    (etcdMemberPeerURLs w).run s =
      ((ms.map (fun member => member.PeerURL), none), s1, [Event.Members ms none]) := by
  simp [etcdMemberPeerURLs, Prog.run_bind, Prog.run_pure, members_run, h]

theorem etcdMemberPeerURLs_run_err (w : World σ) (s s1 : σ) (ms : List Member) (e : Error)
    (h : w.Members s = ((ms, some e), s1)) :
    (etcdMemberPeerURLs w).run s = (([], some e), s1, [Event.Members ms (some e)]) := by
  simp [etcdMemberPeerURLs, Prog.run_bind, Prog.run_pure, members_run, h]

theorem removeLoop_removeCalls (w : World σ) (instanceURLs memberURLs : List String) (s : σ) :
    removeCalls ((removeLoop w instanceURLs memberURLs).trace s) =
      memberURLs.filter (fun u => !contains instanceURLs u) := by
  induction memberURLs generalizing s with
  | nil => rfl
  | cons u rest ih =>
    by_cases hc : contains instanceURLs u = true
    · have := ih s
      simp only [Prog.trace] at this
      simp [Prog.trace, removeLoop, hc, Prog.run_bind, Prog.run_pure, this]
    · have := ih (w.RemoveMember u s).2
      simp only [Prog.trace] at this
      simp [Prog.trace, removeLoop, hc, Prog.run_bind, Prog.run_pure, removeMember_run,
        removeCalls, this]

theorem removeLoop_only_removes (w : World σ) (instanceURLs memberURLs : List String) (s : σ) :
    ∀ ev ∈ (removeLoop w instanceURLs memberURLs).trace s, ∃ u e, ev = Event.RemoveMember u e := by
  induction memberURLs generalizing s with
  | nil => intro ev hev; simp [Prog.trace, removeLoop, Prog.run_pure] at hev
  | cons u rest ih =>
    intro ev hev
    by_cases hc : contains instanceURLs u = true
    · have := ih s ev
      simp only [Prog.trace] at this
      simp [Prog.trace, removeLoop, hc, Prog.run_bind, Prog.run_pure] at hev
      exact this hev
    · have := ih (w.RemoveMember u s).2 ev
      simp only [Prog.trace] at this
      simp [Prog.trace, removeLoop, hc, Prog.run_bind, Prog.run_pure, removeMember_run] at hev
      rcases hev with hev | hev
      · exact ⟨_, _, hev⟩
      · exact this hev

theorem removeOldEtcdMembers_run_err (w : World σ) (s s1 : σ) (ms : List Member) (e : Error)
    (h : w.Members s = ((ms, some e), s1)) :
    (removeOldEtcdMembers w).run s = (some e, s1, [Event.Members ms (some e)]) := by
  simp [removeOldEtcdMembers, Prog.run_bind, Prog.run_pure, etcdMemberPeerURLs_run_err w s s1 ms e h]

theorem removeOldEtcdMembers_run_ok (w : World σ) (s s1 s2 : σ) (ms : List Member)
    (insts : List Instance) (h : w.Members s = ((ms, none), s1))
    (hg : w.GetInstances s1 = (insts, s2)) :
    (removeOldEtcdMembers w).run s =
      (none,
       (removeLoop w (insts.map (fun i => peerURL i.PrivateIP))
          (ms.map (fun member => member.PeerURL))).final s2,
       Event.Members ms none :: Event.GetInstances insts ::
         (removeLoop w (insts.map (fun i => peerURL i.PrivateIP))
            (ms.map (fun member => member.PeerURL))).trace s2) := by
  simp [removeOldEtcdMembers, Prog.run_bind, Prog.run_pure, etcdMemberPeerURLs_run_ok w s s1 ms h,
    getInstancePeerURLs, getInstances_run, hg, Prog.final, Prog.trace]

theorem addLocalInstanceToEtcd_run_err (w : World σ) (s s1 : σ) (ms : List Member) (e : Error)
    (h : w.Members s = ((ms, some e), s1)) :
    (addLocalInstanceToEtcd w).run s = (some e, s1, [Event.Members ms (some e)]) := by
  simp [addLocalInstanceToEtcd, Prog.run_bind, Prog.run_pure,
    etcdMemberPeerURLs_run_err w s s1 ms e h]

theorem addLocalInstanceToEtcd_run_present (w : World σ) (s s1 s2 : σ) (ms : List Member)
    (loc : Instance) (h : w.Members s = ((ms, none), s1)) (hl : w.GetLocalInstance s1 = (loc, s2))
    (hc : contains (ms.map (fun member => member.PeerURL)) (peerURL loc.PrivateIP) = true) :
    (addLocalInstanceToEtcd w).run s =
      (none, s2, [Event.Members ms none, Event.GetLocalInstance loc]) := by
  simp [addLocalInstanceToEtcd, Prog.run_bind, Prog.run_pure,
    etcdMemberPeerURLs_run_ok w s s1 ms h, getLocalInstance_run, hl, hc]

theorem addLocalInstanceToEtcd_run_added (w : World σ) (s s1 s2 s3 : σ) (ms : List Member)
    (loc : Instance) (h : w.Members s = ((ms, none), s1)) (hl : w.GetLocalInstance s1 = (loc, s2))
    (hc : contains (ms.map (fun member => member.PeerURL)) (peerURL loc.PrivateIP) = false)
    (ha : w.AddMember (peerURL loc.PrivateIP) s2 = (none, s3)) :
    (addLocalInstanceToEtcd w).run s =
      (none, s3, [Event.Members ms none, Event.GetLocalInstance loc,
        Event.AddMember (peerURL loc.PrivateIP) none]) := by
  simp [addLocalInstanceToEtcd, Prog.run_bind, Prog.run_pure,
    etcdMemberPeerURLs_run_ok w s s1 ms h, getLocalInstance_run, hl, hc, addMember_run, ha]

theorem addLocalInstanceToEtcd_run_add_fails (w : World σ) (s s1 s2 s3 : σ) (ms : List Member)
    (loc : Instance) (e : Error) (h : w.Members s = ((ms, none), s1))
    (hl : w.GetLocalInstance s1 = (loc, s2))
    (hc : contains (ms.map (fun member => member.PeerURL)) (peerURL loc.PrivateIP) = false)
    (ha : w.AddMember (peerURL loc.PrivateIP) s2 = (some e, s3)) :
    (addLocalInstanceToEtcd w).run s =
      (some ("unexpected error when adding new member URL " ++ peerURL loc.PrivateIP ++ ": " ++ e),
       s3, [Event.Members ms none, Event.GetLocalInstance loc,
        Event.AddMember (peerURL loc.PrivateIP) (some e)]) := by
  simp [addLocalInstanceToEtcd, Prog.run_bind, Prog.run_pure,
    etcdMemberPeerURLs_run_ok w s s1 ms h, getLocalInstance_run, hl, hc, addMember_run, ha]

theorem reconcileMembers_run (w : World σ) (s : σ) :
    (reconcileMembers w).run s =
      if ((removeOldEtcdMembers w).result s).isSome then (removeOldEtcdMembers w).run s
      else
        ((addLocalInstanceToEtcd w).result ((removeOldEtcdMembers w).final s),
         (addLocalInstanceToEtcd w).final ((removeOldEtcdMembers w).final s),
         (removeOldEtcdMembers w).trace s ++
           (addLocalInstanceToEtcd w).trace ((removeOldEtcdMembers w).final s)) := by
  simp only [reconcileMembers, Prog.run_bind, Prog.result, Prog.final, Prog.trace]
  split <;> simp [Prog.run_pure, Prog.run_bind, *]

theorem bootstrapNewNode_run_reconcile_err (w : World σ) (s : σ) (e : Error)
    (h : (reconcileMembers w).result s = some e) :
    (bootstrapNewNode w).run s =
      (("", some e), (reconcileMembers w).final s, (reconcileMembers w).trace s) := by
  simp only [Prog.result] at h
  simp [bootstrapNewNode, Prog.run_bind, Prog.run_pure, h, Prog.final, Prog.trace]

theorem bootstrapNewNode_run_query_err (w : World σ) (s s1 : σ) (ms : List Member) (e : Error)
    (h : (reconcileMembers w).result s = none)
    (hm : w.Members ((reconcileMembers w).final s) = ((ms, some e), s1)) :
    (bootstrapNewNode w).run s =
      (("", some e), s1, (reconcileMembers w).trace s ++ [Event.Members ms (some e)]) := by
  simp only [Prog.result] at h
  simp only [Prog.final] at hm
  simp [bootstrapNewNode, Prog.run_bind, Prog.run_pure, h, Prog.trace,
    etcdMemberPeerURLs_run_err w _ s1 ms e hm]

theorem bootstrapNewNode_run_ok (w : World σ) (s s1 : σ) (ms : List Member)
    (h : (reconcileMembers w).result s = none)
    (hm : w.Members ((reconcileMembers w).final s) = ((ms, none), s1)) :
    (bootstrapNewNode w).run s =
      (((createEtcdConfig w existingCluster (ms.map (fun member => member.PeerURL))).result s1,
        none),
       (createEtcdConfig w existingCluster (ms.map (fun member => member.PeerURL))).final s1,
       (reconcileMembers w).trace s ++ Event.Members ms none ::
         (createEtcdConfig w existingCluster (ms.map (fun member => member.PeerURL))).trace s1) := by
  simp only [Prog.result] at h
  simp only [Prog.final] at hm
  simp [bootstrapNewNode, Prog.run_bind, Prog.run_pure, h, Prog.trace, Prog.result, Prog.final,
    etcdMemberPeerURLs_run_ok w _ s1 ms hm]

theorem GenerateEtcdFlags_run_first_query_err (w : World σ) (s s1 : σ) (ms : List Member)
    (e : Error) (h : w.Members s = ((ms, some e), s1)) :
    (GenerateEtcdFlags w).run s = (("", some e), s1, [Event.Members ms (some e)]) := by
  simp [GenerateEtcdFlags, clusterExists, Prog.run_bind, Prog.run_pure, members_run, h]

theorem GenerateEtcdFlags_run_no_members (w : World σ) (s s1 : σ)
    (h : w.Members s = (([], none), s1)) :
    (GenerateEtcdFlags w).run s =
      (((bootstrapNewCluster w).result s1, none), (bootstrapNewCluster w).final s1,
       Event.Members [] none :: (bootstrapNewCluster w).trace s1) := by
  simp [GenerateEtcdFlags, clusterExists, Prog.run_bind, Prog.run_pure, members_run, h,
    Prog.result, Prog.final, Prog.trace]

theorem GenerateEtcdFlags_run_second_query_err (w : World σ) (s s1 s2 : σ)
    (ms1 ms2 : List Member) (e : Error) (h1 : w.Members s = ((ms1, none), s1)) (hne : ms1 ≠ [])
    (h2 : w.Members s1 = ((ms2, some e), s2)) :
    (GenerateEtcdFlags w).run s =
      (("", some e), s2, [Event.Members ms1 none, Event.Members ms2 (some e)]) := by
  have hpos : 0 < ms1.length := List.length_pos.mpr hne
  simp [GenerateEtcdFlags, clusterExists, nodeExistsInCluster, Prog.run_bind, Prog.run_pure,
    members_run, h1, h2, hpos]

theorem GenerateEtcdFlags_run_registered (w : World σ) (s s1 s2 s3 : σ)
    (ms1 ms2 : List Member) (loc : Instance) (h1 : w.Members s = ((ms1, none), s1))
    (hne : ms1 ≠ []) (h2 : w.Members s1 = ((ms2, none), s2))
    (h3 : w.GetLocalInstance s2 = (loc, s3))
    (hex : nodeExistsLoop (peerURL loc.PrivateIP) ms2 = true) :
    (GenerateEtcdFlags w).run s =
      (((bootstrapNewCluster w).result s3, none), (bootstrapNewCluster w).final s3,
       Event.Members ms1 none :: Event.Members ms2 none :: Event.GetLocalInstance loc ::
         (bootstrapNewCluster w).trace s3) := by
  have hpos : 0 < ms1.length := List.length_pos.mpr hne
  simp [GenerateEtcdFlags, clusterExists, nodeExistsInCluster, Prog.run_bind, Prog.run_pure,
    members_run, getLocalInstance_run, h1, h2, h3, hex, hpos, Prog.result, Prog.final, Prog.trace]

theorem GenerateEtcdFlags_run_joining (w : World σ) (s s1 s2 s3 : σ)
    (ms1 ms2 : List Member) (loc : Instance) (h1 : w.Members s = ((ms1, none), s1))
    (hne : ms1 ≠ []) (h2 : w.Members s1 = ((ms2, none), s2))
    (h3 : w.GetLocalInstance s2 = (loc, s3))
    (hex : nodeExistsLoop (peerURL loc.PrivateIP) ms2 = false) :
    (GenerateEtcdFlags w).run s =
      ((bootstrapNewNode w).result s3, (bootstrapNewNode w).final s3,
       Event.Members ms1 none :: Event.Members ms2 none :: Event.GetLocalInstance loc ::
         (bootstrapNewNode w).trace s3) := by
  have hpos : 0 < ms1.length := List.length_pos.mpr hne
  simp [GenerateEtcdFlags, clusterExists, nodeExistsInCluster, Prog.run_bind, Prog.run_pure,
    members_run, getLocalInstance_run, h1, h2, h3, hex, hpos, Prog.result, Prog.final, Prog.trace]

theorem removeLoop_addCalls (w : World σ) (instanceURLs memberURLs : List String) (s : σ) :
    addCalls ((removeLoop w instanceURLs memberURLs).trace s) = [] := by
  have h := removeLoop_only_removes w instanceURLs memberURLs s
  generalize (removeLoop w instanceURLs memberURLs).trace s = t at h
  induction t with
  | nil => rfl
  | cons ev rest ih =>
    obtain ⟨u, e, rfl⟩ := h ev (List.mem_cons_self _ _)
    simp only [addCalls]
    exact ih (fun ev hev => h ev (List.mem_cons_of_mem _ hev))

theorem removeOldEtcdMembers_addCalls (w : World σ) (s : σ) :
    addCalls ((removeOldEtcdMembers w).trace s) = [] := by
  rcases hM : w.Members s with ⟨⟨ms, err⟩, s1⟩
  cases err with
  | some e =>
    rw [Prog.trace_of_run (removeOldEtcdMembers_run_err w s s1 ms e hM)]
    rfl
  | none =>
    have hg : w.GetInstances s1 = ((w.GetInstances s1).1, (w.GetInstances s1).2) := rfl
    rw [Prog.trace_of_run (removeOldEtcdMembers_run_ok w s s1 _ ms _ hM hg)]
    simp only [addCalls_cons_members, addCalls_cons_getInstances]
    exact removeLoop_addCalls w _ _ _

theorem addLocalInstanceToEtcd_removeCalls (w : World σ) (s : σ) :
    removeCalls ((addLocalInstanceToEtcd w).trace s) = [] := by
  rcases hM : w.Members s with ⟨⟨ms, err⟩, s1⟩
  cases err with
  | some e =>
    rw [Prog.trace_of_run (addLocalInstanceToEtcd_run_err w s s1 ms e hM)]
    rfl
  | none =>
    rcases hl : w.GetLocalInstance s1 with ⟨loc, s2⟩
    cases hc : contains (ms.map (fun member => member.PeerURL)) (peerURL loc.PrivateIP) with
    | true =>
      rw [Prog.trace_of_run (addLocalInstanceToEtcd_run_present w s s1 s2 ms loc hM hl hc)]
      rfl
    | false =>
      rcases ha : w.AddMember (peerURL loc.PrivateIP) s2 with ⟨err, s3⟩
      cases err with
      | none =>
        rw [Prog.trace_of_run (addLocalInstanceToEtcd_run_added w s s1 s2 s3 ms loc hM hl hc ha)]
        rfl
      | some e =>
        rw [Prog.trace_of_run
          (addLocalInstanceToEtcd_run_add_fails w s s1 s2 s3 ms loc e hM hl hc ha)]
        rfl

theorem reconcileMembers_trace (w : World σ) (s : σ) :
    (reconcileMembers w).trace s =
      (removeOldEtcdMembers w).trace s ++
        (if ((removeOldEtcdMembers w).result s).isSome then []
         else (addLocalInstanceToEtcd w).trace ((removeOldEtcdMembers w).final s)) := by
  unfold Prog.trace
  rw [reconcileMembers_run]
  split
  · simp only [List.append_nil]
  · rfl

theorem bootstrapNewNode_trace (w : World σ) (s : σ) :
    ∃ tail, (bootstrapNewNode w).trace s = (reconcileMembers w).trace s ++ tail ∧
      removeCalls tail = [] ∧ addCalls tail = [] := by
  cases hrec : (reconcileMembers w).result s with
  | some e =>
    refine ⟨[], ?_, rfl, rfl⟩
    rw [Prog.trace_of_run (bootstrapNewNode_run_reconcile_err w s e hrec)]
    simp
  | none =>
    rcases hq : w.Members ((reconcileMembers w).final s) with ⟨⟨ms, err⟩, s1⟩
    cases err with
    | some e =>
      refine ⟨[Event.Members ms (some e)], ?_, rfl, rfl⟩
      rw [Prog.trace_of_run (bootstrapNewNode_run_query_err w s s1 ms e hrec hq)]
    | none =>
      refine ⟨Event.Members ms none ::
        (createEtcdConfig w existingCluster (ms.map (fun member => member.PeerURL))).trace s1,
        ?_, ?_, ?_⟩
      · rw [Prog.trace_of_run (bootstrapNewNode_run_ok w s s1 ms hrec hq)]
      · rw [createEtcdConfig_trace]; rfl
      · rw [createEtcdConfig_trace]; rfl

theorem bootstrapNewNode_removeCalls (w : World σ) (s : σ) :
    removeCalls ((bootstrapNewNode w).trace s) =
      removeCalls ((removeOldEtcdMembers w).trace s) := by
  obtain ⟨tail, ht, hr, _⟩ := bootstrapNewNode_trace w s
  rw [ht, reconcileMembers_trace, removeCalls_append, removeCalls_append, hr]
  split <;>
    simp only [removeCalls_nil, addLocalInstanceToEtcd_removeCalls, List.append_nil]

theorem bootstrapNewNode_addCalls (w : World σ) (s : σ) :
    addCalls ((bootstrapNewNode w).trace s) =
      if ((removeOldEtcdMembers w).result s).isSome then []
      else addCalls ((addLocalInstanceToEtcd w).trace ((removeOldEtcdMembers w).final s)) := by
  obtain ⟨tail, ht, _, ha⟩ := bootstrapNewNode_trace w s
  rw [ht, reconcileMembers_trace, addCalls_append, addCalls_append, ha,
    removeOldEtcdMembers_addCalls]
  split <;> simp only [addCalls_nil, List.append_nil, List.nil_append]

theorem removeOldEtcdMembers_result (w : World σ) (s s1 : σ) (ms : List Member)
    (e : Option Error) (h : w.Members s = ((ms, e), s1)) :
    (removeOldEtcdMembers w).result s = e := by
  cases e with
  | some e => exact Prog.result_of_run (removeOldEtcdMembers_run_err w s s1 ms e h)
  | none =>
    exact Prog.result_of_run (removeOldEtcdMembers_run_ok w s s1 _ ms _ h rfl)

theorem addLocalInstanceToEtcd_addCalls (w : World σ) (s s1 s2 : σ) (ms : List Member)
    (e : Option Error) (loc : Instance) (h : w.Members s = ((ms, e), s1))
    (hl : w.GetLocalInstance s1 = (loc, s2)) :
    addCalls ((addLocalInstanceToEtcd w).trace s) =
      if e = none ∧ contains (ms.map (fun member => member.PeerURL)) (peerURL loc.PrivateIP) = false
      then [peerURL loc.PrivateIP] else [] := by
  cases e with
  | some e =>
    rw [Prog.trace_of_run (addLocalInstanceToEtcd_run_err w s s1 ms e h)]
    simp [addCalls_cons_members, addCalls_nil]
  | none =>
    cases hc : contains (ms.map (fun member => member.PeerURL)) (peerURL loc.PrivateIP) with
    | true =>
      rw [Prog.trace_of_run (addLocalInstanceToEtcd_run_present w s s1 s2 ms loc h hl hc)]
      simp [addCalls_cons_members, addCalls_cons_getLocalInstance, addCalls_nil]
    | false =>
      rcases ha : w.AddMember (peerURL loc.PrivateIP) s2 with ⟨err, s3⟩
      cases err with
      | none =>
        rw [Prog.trace_of_run (addLocalInstanceToEtcd_run_added w s s1 s2 s3 ms loc h hl hc ha)]
        simp [addCalls_cons_members, addCalls_cons_getLocalInstance, addCalls_cons_addMember,
          addCalls_nil]
      | some e =>
        rw [Prog.trace_of_run
          (addLocalInstanceToEtcd_run_add_fails w s s1 s2 s3 ms loc e h hl hc ha)]
        simp [addCalls_cons_members, addCalls_cons_getLocalInstance, addCalls_cons_addMember,
          addCalls_nil]

theorem bootstrapNewCluster_addCalls (w : World σ) (s : σ) :
    addCalls ((bootstrapNewCluster w).trace s) = [] := by
  rw [bootstrapNewCluster_trace]; rfl

theorem bootstrapNewCluster_removeCalls (w : World σ) (s : σ) :
    removeCalls ((bootstrapNewCluster w).trace s) = [] := by
  rw [bootstrapNewCluster_trace]; rfl

theorem nodeExistsLoop_false_iff (url : String) (ms : List Member) :
    nodeExistsLoop url ms = false ↔ ∀ m ∈ ms, ¬ (m.PeerURL = url ∧ m.Name ≠ "") := by
  rw [← Bool.not_eq_true, nodeExistsLoop_iff]
  constructor
  · intro h m hm hh
    exact h ⟨m, hm, hh⟩
  · rintro h ⟨m, hm, hh⟩
    exact h m hm hh

theorem reconcileMembers_run_remove_err (w : World σ) (s s1 : σ) (e : Error) (t : List Event)
    (hrm : (removeOldEtcdMembers w).run s = (some e, s1, t)) :
    (reconcileMembers w).run s = (some e, s1, t) := by
  rw [reconcileMembers_run, Prog.result_of_run hrm, hrm]
  rfl

theorem reconcileMembers_run_add (w : World σ) (s s1 s2 : σ) (r : Option Error)
    (t t1 : List Event) (hrm : (removeOldEtcdMembers w).run s = (none, s1, t))
    (hadd : (addLocalInstanceToEtcd w).run s1 = (r, s2, t1)) :
    (reconcileMembers w).run s = (r, s2, t ++ t1) := by
  rw [reconcileMembers_run, Prog.result_of_run hrm, Prog.final_of_run hrm, Prog.trace_of_run hrm,
    Prog.result_of_run hadd, Prog.final_of_run hadd, Prog.trace_of_run hadd]
  rfl

theorem bootstrapNewNode_after_reconcile (w : World σ) (s sf : σ) (t : List Event)
    (hrec : (reconcileMembers w).run s = (none, sf, t)) :
    (∃ ms5 e, (bootstrapNewNode w).result s = ("", some e) ∧
      (bootstrapNewNode w).trace s = t ++ [Event.Members ms5 (some e)]) ∨
    (∃ ms5 insts loc rest,
      (bootstrapNewNode w).result s = ("ETCD_INITIAL_CLUSTER_STATE=existing\n" ++ rest, none) ∧
      (bootstrapNewNode w).trace s =
        t ++ [Event.Members ms5 none, Event.GetInstances insts, Event.GetLocalInstance loc]) := by
  have hres := Prog.result_of_run hrec
  have hfin := Prog.final_of_run hrec
  have htr := Prog.trace_of_run hrec
  rcases hq : w.Members sf with ⟨⟨ms5, e5⟩, s1⟩
  rw [← hfin] at hq
  cases e5 with
  | some e =>
    left
    have hrun := bootstrapNewNode_run_query_err w s s1 ms5 e hres hq
    exact ⟨ms5, e, Prog.result_of_run hrun, by rw [Prog.trace_of_run hrun, htr]⟩
  | none =>
    right
    have hrun := bootstrapNewNode_run_ok w s s1 ms5 hres hq
    obtain ⟨rest, hr⟩ := createEtcdConfig_state_line w existingCluster
      (ms5.map (fun member => member.PeerURL)) s1
    refine ⟨ms5, (w.GetInstances s1).1, (w.GetLocalInstance (w.GetInstances s1).2).1, rest,
      ?_, ?_⟩
    · rw [Prog.result_of_run hrun, hr]
      rfl
    · rw [Prog.trace_of_run hrun, htr, createEtcdConfig_trace]

/-- The possible results and call sequences of `bootstrapNewNode`: the query of
the removal step fails; the query of the add step fails; `AddMember` fails; the
final query fails; or a configuration with state `existing` is rendered.  In
every case `l` is the sequence of `RemoveMember` calls. -/
theorem bootstrapNewNode_shape (w : World σ) (s : σ) :
    (∃ ms3 e, (bootstrapNewNode w).result s = ("", some e) ∧
      (bootstrapNewNode w).trace s = [Event.Members ms3 (some e)]) ∨
    (∃ ms3 insts l ms4 e, (∀ ev ∈ l, ∃ u r, ev = Event.RemoveMember u r) ∧
      (bootstrapNewNode w).result s = ("", some e) ∧
      (bootstrapNewNode w).trace s =
        Event.Members ms3 none :: Event.GetInstances insts :: l ++
          [Event.Members ms4 (some e)]) ∨
    (∃ ms3 insts l ms4 loc e, (∀ ev ∈ l, ∃ u r, ev = Event.RemoveMember u r) ∧
      contains (ms4.map (fun member => member.PeerURL)) (peerURL loc.PrivateIP) = false ∧
      (bootstrapNewNode w).result s =
        ("", some ("unexpected error when adding new member URL " ++ peerURL loc.PrivateIP ++
          ": " ++ e)) ∧
      (bootstrapNewNode w).trace s =
        Event.Members ms3 none :: Event.GetInstances insts :: l ++
          [Event.Members ms4 none, Event.GetLocalInstance loc,
            Event.AddMember (peerURL loc.PrivateIP) (some e)]) ∨
    (∃ ms3 insts l ms4 loc ms5 e, (∀ ev ∈ l, ∃ u r, ev = Event.RemoveMember u r) ∧
      (bootstrapNewNode w).result s = ("", some e) ∧
      (bootstrapNewNode w).trace s =
        Event.Members ms3 none :: Event.GetInstances insts :: l ++
          (Event.Members ms4 none :: Event.GetLocalInstance loc ::
            (if contains (ms4.map (fun member => member.PeerURL)) (peerURL loc.PrivateIP)
              then [] else [Event.AddMember (peerURL loc.PrivateIP) none])) ++
          [Event.Members ms5 (some e)]) ∨
    (∃ ms3 insts l ms4 loc ms5 insts1 loc1 rest,
      (∀ ev ∈ l, ∃ u r, ev = Event.RemoveMember u r) ∧
      (bootstrapNewNode w).result s = ("ETCD_INITIAL_CLUSTER_STATE=existing\n" ++ rest, none) ∧
      (bootstrapNewNode w).trace s =
        Event.Members ms3 none :: Event.GetInstances insts :: l ++
          (Event.Members ms4 none :: Event.GetLocalInstance loc ::
            (if contains (ms4.map (fun member => member.PeerURL)) (peerURL loc.PrivateIP)
              then [] else [Event.AddMember (peerURL loc.PrivateIP) none])) ++
          [Event.Members ms5 none, Event.GetInstances insts1, Event.GetLocalInstance loc1]) := by
  rcases h3 : w.Members s with ⟨⟨ms3, e3⟩, s1⟩
  cases e3 with
  | some e =>
    left
    have hrec := reconcileMembers_run_remove_err w s s1 e _
      (removeOldEtcdMembers_run_err w s s1 ms3 e h3)
    have hrun := bootstrapNewNode_run_reconcile_err w s e (Prog.result_of_run hrec)
    exact ⟨ms3, e, Prog.result_of_run hrun, by
      rw [Prog.trace_of_run hrun, Prog.trace_of_run hrec]⟩
  | none =>
    right
    rcases hg : w.GetInstances s1 with ⟨insts, s2⟩
    have hrm := removeOldEtcdMembers_run_ok w s s1 s2 ms3 insts h3 hg
    have hl := removeLoop_only_removes w (insts.map (fun i => peerURL i.PrivateIP))
      (ms3.map (fun member => member.PeerURL)) s2
    generalize (removeLoop w (insts.map (fun i => peerURL i.PrivateIP))
      (ms3.map (fun member => member.PeerURL))).trace s2 = l at hrm hl
    generalize (removeLoop w (insts.map (fun i => peerURL i.PrivateIP))
      (ms3.map (fun member => member.PeerURL))).final s2 = s3 at hrm
    rcases h4 : w.Members s3 with ⟨⟨ms4, e4⟩, s4⟩
    cases e4 with
    | some e =>
      left
      have hrec := reconcileMembers_run_add w s s3 s4 _ _ _ hrm
        (addLocalInstanceToEtcd_run_err w s3 s4 ms4 e h4)
      have hrun := bootstrapNewNode_run_reconcile_err w s e (Prog.result_of_run hrec)
      exact ⟨ms3, insts, l, ms4, e, hl, Prog.result_of_run hrun, by
        rw [Prog.trace_of_run hrun, Prog.trace_of_run hrec]⟩
    | none =>
      right
      rcases hloc : w.GetLocalInstance s4 with ⟨loc, s5⟩
      cases hc : contains (ms4.map (fun member => member.PeerURL)) (peerURL loc.PrivateIP) with
      | true =>
        right
        have hrec := reconcileMembers_run_add w s s3 s5 _ _ _ hrm
          (addLocalInstanceToEtcd_run_present w s3 s4 s5 ms4 loc h4 hloc hc)
        rcases bootstrapNewNode_after_reconcile w s s5 _ hrec with
          ⟨ms5, e, hres, htr⟩ | ⟨ms5, insts1, loc1, rest, hres, htr⟩
        · left
          exact ⟨ms3, insts, l, ms4, loc, ms5, e, hl, hres, by rw [htr, hc]; simp⟩
        · right
          exact ⟨ms3, insts, l, ms4, loc, ms5, insts1, loc1, rest, hl, hres, by
            rw [htr, hc]; simp⟩
      | false =>
        rcases ha : w.AddMember (peerURL loc.PrivateIP) s5 with ⟨ea, s6⟩
        cases ea with
        | some e =>
          left
          have hrec := reconcileMembers_run_add w s s3 s6 _ _ _ hrm
            (addLocalInstanceToEtcd_run_add_fails w s3 s4 s5 s6 ms4 loc e h4 hloc hc ha)
          have hrun := bootstrapNewNode_run_reconcile_err w s _ (Prog.result_of_run hrec)
          exact ⟨ms3, insts, l, ms4, loc, e, hl, hc, Prog.result_of_run hrun, by
            rw [Prog.trace_of_run hrun, Prog.trace_of_run hrec]⟩
        | none =>
          right
          have hrec := reconcileMembers_run_add w s s3 s6 _ _ _ hrm
            (addLocalInstanceToEtcd_run_added w s3 s4 s5 s6 ms4 loc h4 hloc hc ha)
          rcases bootstrapNewNode_after_reconcile w s s6 _ hrec with
            ⟨ms5, e, hres, htr⟩ | ⟨ms5, insts1, loc1, rest, hres, htr⟩
          · left
            exact ⟨ms3, insts, l, ms4, loc, ms5, e, hl, hres, by rw [htr, hc]; simp⟩
          · right
            exact ⟨ms3, insts, l, ms4, loc, ms5, insts1, loc1, rest, hl, hres, by
              rw [htr, hc]; simp⟩

theorem addCalls_of_only_removes (l : List Event)
    (h : ∀ ev ∈ l, ∃ u r, ev = Event.RemoveMember u r) : addCalls l = [] := by
  induction l with
  | nil => rfl
  | cons ev rest ih =>
    obtain ⟨u, e, rfl⟩ := h ev (List.mem_cons_self _ _)
    rw [addCalls_cons_removeMember]
    exact ih (fun ev hev => h ev (List.mem_cons_of_mem _ hev))

/-- The possible results and call sequences of `GenerateEtcdFlags`: the first
query fails; no members (state `new`); the second query fails; the local node
is a named member (state `new`); or the run continues in `bootstrapNewNode`. -/
theorem GenerateEtcdFlags_shape (w : World σ) (s : σ) :
    (∃ ms1 e, (GenerateEtcdFlags w).result s = ("", some e) ∧
      (GenerateEtcdFlags w).trace s = [Event.Members ms1 (some e)]) ∨
    (∃ insts insts1 loc1 rest,
      (GenerateEtcdFlags w).result s = ("ETCD_INITIAL_CLUSTER_STATE=new\n" ++ rest, none) ∧
      (GenerateEtcdFlags w).trace s =
        [Event.Members [] none, Event.GetInstances insts, Event.GetInstances insts1,
          Event.GetLocalInstance loc1]) ∨
    (∃ ms1 ms2 e, ms1 ≠ [] ∧ (GenerateEtcdFlags w).result s = ("", some e) ∧
      (GenerateEtcdFlags w).trace s = [Event.Members ms1 none, Event.Members ms2 (some e)]) ∨
    (∃ ms1 ms2 loc insts insts1 loc1 rest, ms1 ≠ [] ∧
      nodeExistsLoop (peerURL loc.PrivateIP) ms2 = true ∧
      (GenerateEtcdFlags w).result s = ("ETCD_INITIAL_CLUSTER_STATE=new\n" ++ rest, none) ∧
      (GenerateEtcdFlags w).trace s =
        [Event.Members ms1 none, Event.Members ms2 none, Event.GetLocalInstance loc,
          Event.GetInstances insts, Event.GetInstances insts1, Event.GetLocalInstance loc1]) ∨
    (∃ ms1 ms2 loc s3, ms1 ≠ [] ∧ nodeExistsLoop (peerURL loc.PrivateIP) ms2 = false ∧
      (GenerateEtcdFlags w).result s = (bootstrapNewNode w).result s3 ∧
      (GenerateEtcdFlags w).trace s =
        Event.Members ms1 none :: Event.Members ms2 none :: Event.GetLocalInstance loc ::
          (bootstrapNewNode w).trace s3) := by
  rcases h1 : w.Members s with ⟨⟨ms1, e1⟩, s1⟩
  cases e1 with
  | some e =>
    left
    have hrun := GenerateEtcdFlags_run_first_query_err w s s1 ms1 e h1
    exact ⟨ms1, e, Prog.result_of_run hrun, Prog.trace_of_run hrun⟩
  | none =>
    right
    by_cases hne : ms1 = []
    · left
      subst hne
      have hrun := GenerateEtcdFlags_run_no_members w s s1 h1
      obtain ⟨rest, hr⟩ := bootstrapNewCluster_state_line w s1
      refine ⟨(w.GetInstances s1).1, (w.GetInstances (w.GetInstances s1).2).1,
        (w.GetLocalInstance (w.GetInstances (w.GetInstances s1).2).2).1, rest, ?_, ?_⟩
      · rw [Prog.result_of_run hrun, hr]
      · rw [Prog.trace_of_run hrun, bootstrapNewCluster_trace]
    · right
      rcases h2 : w.Members s1 with ⟨⟨ms2, e2⟩, s2⟩
      cases e2 with
      | some e =>
        left
        have hrun := GenerateEtcdFlags_run_second_query_err w s s1 s2 ms1 ms2 e h1 hne h2
        exact ⟨ms1, ms2, e, hne, Prog.result_of_run hrun, Prog.trace_of_run hrun⟩
      | none =>
        right
        rcases h3 : w.GetLocalInstance s2 with ⟨loc, s3⟩
        cases hex : nodeExistsLoop (peerURL loc.PrivateIP) ms2 with
        | true =>
          left
          have hrun := GenerateEtcdFlags_run_registered w s s1 s2 s3 ms1 ms2 loc h1 hne h2 h3 hex
          obtain ⟨rest, hr⟩ := bootstrapNewCluster_state_line w s3
          refine ⟨ms1, ms2, loc, (w.GetInstances s3).1, (w.GetInstances (w.GetInstances s3).2).1,
            (w.GetLocalInstance (w.GetInstances (w.GetInstances s3).2).2).1, rest, hne, hex,
            ?_, ?_⟩
          · rw [Prog.result_of_run hrun, hr]
          · rw [Prog.trace_of_run hrun, bootstrapNewCluster_trace]
        | false =>
          right
          have hrun := GenerateEtcdFlags_run_joining w s s1 s2 s3 ms1 ms2 loc h1 hne h2 h3 hex
          exact ⟨ms1, ms2, loc, s3, hne, hex, Prog.result_of_run hrun, Prog.trace_of_run hrun⟩

theorem initialClusterEntries_eq (avail : List String) (insts : List Instance) :
    initialClusterEntries avail insts =
      (insts.filter (fun i => decide (peerURL i.PrivateIP ∈ avail))).map
        (fun i => i.InstanceID ++ "=" ++ peerURL i.PrivateIP) := by
  induction insts with
  | nil => rfl
  | cons a rest ih =>
    cases hc : contains avail (peerURL a.PrivateIP) with
    | true =>
      have hm : peerURL a.PrivateIP ∈ avail := (contains_iff _ _).mp hc
      simp [initialClusterEntries, hc, hm, ih]
    | false =>
      have hm : ¬ peerURL a.PrivateIP ∈ avail := by
        rw [← contains_iff, hc]
        exact Bool.false_ne_true
      simp [initialClusterEntries, hc, hm, ih]

theorem createEtcdConfig_two_lines (w : World σ) (state : clusterState) (avail : List String)
    (s : σ) :
    ∃ rest, (createEtcdConfig w state avail).result s =
      "ETCD_INITIAL_CLUSTER_STATE=" ++ state ++ "\n" ++ "ETCD_INITIAL_CLUSTER=" ++
        String.intercalate "," (initialClusterEntries avail (w.GetInstances s).1) ++ "\n" ++
        rest := by
  simp only [Prog.result, createEtcdConfig, constructInitialCluster, Prog.run_bind,
    Prog.run_pure, getInstances_run, intercalate_cons_cons, String.append_assoc]
  exact ⟨_, rfl⟩

end RunEquations

section Decision

variable {σ : Type}

/-- C1. Founding case: when the `Members()` query succeeds with an empty list,
`GenerateEtcdFlags` returns a nil error and a text whose first line is
`ETCD_INITIAL_CLUSTER_STATE=new`, for every inventory and local instance. -/
theorem founding_case_state_new (w : World σ) (s : σ) (h : (w.Members s).1 = ([], none)) :
    ∃ rest, (GenerateEtcdFlags w).result s =
      ("ETCD_INITIAL_CLUSTER_STATE=new\n" ++ rest, none) := by
  obtain ⟨rest, hr⟩ := bootstrapNewCluster_state_line w (w.Members s).2
  refine ⟨rest, ?_⟩
  have h1 : w.Members s = (([], none), (w.Members s).2) := by rw [← h]
  simp only [Prog.result] at hr ⊢
  rw [GenerateEtcdFlags_run_no_members w s _ h1]
  simp only [Prog.result, hr]

/-- The founding case of the tests: inventory e1, e2, e3, local e2, no members. -/
theorem founding_case_state_new_witness :
    (fakeWorld.Members foundingState).1 = ([], none) ∧
    ∃ rest, (GenerateEtcdFlags fakeWorld).result foundingState =
      ("ETCD_INITIAL_CLUSTER_STATE=new\n" ++ rest, none) :=
  ⟨rfl, founding_case_state_new fakeWorld foundingState rfl⟩

/-- C2. Already-registered case: when the query of `clusterExists` succeeds
with a non-empty list and the query of `nodeExistsInCluster` succeeds with a
list holding a member whose `PeerURL` is `peerURL(local.PrivateIP)` and whose
`Name` is non-empty, `GenerateEtcdFlags` returns a nil error and a text whose
first line is `ETCD_INITIAL_CLUSTER_STATE=new`.  The two queries may return
different lists; a single list `ms1 = ms2` is the case of the claim. -/
theorem registered_case_state_new (w : World σ) (s s1 s2 s3 : σ) (ms1 ms2 : List Member)
    (loc : Instance) (h1 : w.Members s = ((ms1, none), s1)) (hne : ms1 ≠ [])
    (h2 : w.Members s1 = ((ms2, none), s2)) (h3 : w.GetLocalInstance s2 = (loc, s3))
    (hm : ∃ m ∈ ms2, m.PeerURL = peerURL loc.PrivateIP ∧ m.Name ≠ "") :
    ∃ rest, (GenerateEtcdFlags w).result s =
      ("ETCD_INITIAL_CLUSTER_STATE=new\n" ++ rest, none) := by
  obtain ⟨rest, hr⟩ := bootstrapNewCluster_state_line w s3
  refine ⟨rest, ?_⟩
  have hex := (nodeExistsLoop_iff (peerURL loc.PrivateIP) ms2).mpr hm
  simp only [Prog.result] at hr ⊢
  rw [GenerateEtcdFlags_run_registered w s s1 s2 s3 ms1 ms2 loc h1 hne h2 h3 hex]
  simp only [Prog.result, hr]

/-- The case of `TestExistingCluster`: members e1, e2, e3 all named, local e2. -/
theorem registered_case_state_new_witness :
    ∃ rest, (GenerateEtcdFlags fakeWorld).result registeredState =
      ("ETCD_INITIAL_CLUSTER_STATE=new\n" ++ rest, none) :=
  registered_case_state_new fakeWorld registeredState registeredState registeredState
    registeredState namedMembers namedMembers { InstanceID := "e2", PrivateIP := "10.50.199.1" }
    rfl (by decide) rfl rfl
    ⟨{ Name := "e2", PeerURL := "http://10.50.199.1:2380" }, by decide, by decide, by decide⟩

/-- C3. Join and partial-initialisation case: when the query of `clusterExists`
returns a non-empty list and the list returned to `nodeExistsInCluster` has no
member with both `PeerURL` equal to `peerURL(local.PrivateIP)` and a non-empty
`Name`, every run that returns a nil error returns a text whose first line is
`ETCD_INITIAL_CLUSTER_STATE=existing`. -/
theorem join_case_state_existing (w : World σ) (s s1 s2 s3 : σ) (ms1 ms2 : List Member)
    (loc : Instance) (h1 : w.Members s = ((ms1, none), s1)) (hne : ms1 ≠ [])
    (h2 : w.Members s1 = ((ms2, none), s2)) (h3 : w.GetLocalInstance s2 = (loc, s3))
    (hno : ∀ m ∈ ms2, ¬ (m.PeerURL = peerURL loc.PrivateIP ∧ m.Name ≠ ""))
    (hok : ((GenerateEtcdFlags w).result s).2 = none) :
    ∃ rest, ((GenerateEtcdFlags w).result s).1 =
      "ETCD_INITIAL_CLUSTER_STATE=existing\n" ++ rest := by
  have hex : nodeExistsLoop (peerURL loc.PrivateIP) ms2 = false := by
    rw [← Bool.not_eq_true, nodeExistsLoop_iff]
    rintro ⟨m, hm, hh⟩
    exact hno m hm hh
  simp only [Prog.result] at hok ⊢
  rw [GenerateEtcdFlags_run_joining w s s1 s2 s3 ms1 ms2 loc h1 hne h2 h3 hex] at hok ⊢
  simp only [Prog.result] at hok ⊢
  cases hrec : (reconcileMembers w).result s3 with
  | some e =>
    rw [bootstrapNewNode_run_reconcile_err w s3 e hrec] at hok
    simp at hok
  | none =>
    rcases hq : w.Members ((reconcileMembers w).final s3) with ⟨⟨ms, err⟩, s4⟩
    cases err with
    | some e =>
      rw [bootstrapNewNode_run_query_err w s3 s4 ms e hrec hq] at hok
      simp at hok
    | none =>
      rw [bootstrapNewNode_run_ok w s3 s4 ms hrec hq]
      obtain ⟨rest, hr⟩ := createEtcdConfig_state_line w existingCluster
        (ms.map (fun member => member.PeerURL)) s4
      exact ⟨rest, by rw [hr]; rfl⟩

/-- The case of `TestJoinAnExistingClusterWhenPartiallyInitialised`: local e3 is
registered with its peer URL and an empty name, and the state is `existing`. -/
theorem join_case_state_existing_witness :
    (∃ m ∈ partialState.members,
      m.PeerURL = peerURL partialState.localInstance.PrivateIP ∧ m.Name = "") ∧
    ∃ rest, ((GenerateEtcdFlags fakeWorld).result partialState).1 =
      "ETCD_INITIAL_CLUSTER_STATE=existing\n" ++ rest :=
  ⟨⟨{ Name := "", PeerURL := "http://10.50.155.1:2380" }, by decide, by decide, by decide⟩,
   join_case_state_existing fakeWorld partialState partialState partialState partialState
    partialState.members partialState.members partialState.localInstance
    rfl (by decide) rfl rfl (by decide) (by set_option maxRecDepth 100000 in decide)⟩

end Decision

section Reconciliation

variable {σ : Type}

/-- C4. Stale-member removal: on the existing branch, with `ms3` the member
list returned by the `Members()` query at the start of the removal step and
`insts` the inventory returned by the `GetInstances()` call that follows it,
the `RemoveMember` calls of the run are, in member-list order and once per
entry, the `PeerURL`s of the entries of `ms3` whose `PeerURL` differs from
`peerURL(i.PrivateIP)` for every instance `i` of `insts`, and no other URL,
whatever the `RemoveMember` calls return. -/
theorem stale_members_removed (w : World σ) (s s1 s2 s3 s4 s5 : σ) (ms1 ms2 ms3 : List Member)
    (loc : Instance) (insts : List Instance)
    (h1 : w.Members s = ((ms1, none), s1)) (hne : ms1 ≠ [])
    (h2 : w.Members s1 = ((ms2, none), s2)) (h3 : w.GetLocalInstance s2 = (loc, s3))
    (hno : ∀ m ∈ ms2, ¬ (m.PeerURL = peerURL loc.PrivateIP ∧ m.Name ≠ ""))
    (h4 : w.Members s3 = ((ms3, none), s4)) (h5 : w.GetInstances s4 = (insts, s5)) :
    removeCalls ((GenerateEtcdFlags w).trace s) =
      (ms3.filter (fun m => decide (∀ i ∈ insts, m.PeerURL ≠ peerURL i.PrivateIP))).map
        (fun m => m.PeerURL) := by
  have hex : nodeExistsLoop (peerURL loc.PrivateIP) ms2 = false := by
    rw [← Bool.not_eq_true, nodeExistsLoop_iff]
    rintro ⟨m, hm, hh⟩
    exact hno m hm hh
  rw [Prog.trace_of_run (GenerateEtcdFlags_run_joining w s s1 s2 s3 ms1 ms2 loc h1 hne h2 h3 hex)]
  simp only [removeCalls_cons_members, removeCalls_cons_getLocalInstance]
  rw [bootstrapNewNode_removeCalls w s3,
    Prog.trace_of_run (removeOldEtcdMembers_run_ok w s3 s4 s5 ms3 insts h4 h5)]
  simp only [removeCalls_cons_members, removeCalls_cons_getInstances, removeLoop_removeCalls,
    List.filter_map]
  congr 1
  apply List.filter_congr
  intro m _
  simp only [Function.comp]
  cases hc : contains (insts.map (fun i => peerURL i.PrivateIP)) m.PeerURL with
  | true =>
    obtain ⟨i, hi, hu⟩ := List.mem_map.mp ((contains_iff _ _).mp hc)
    simp only [Bool.not_true, Bool.false_eq, decide_eq_false_iff_not]
    exact fun hall => hall i hi hu.symm
  | false =>
    simp only [Bool.not_false, Bool.true_eq, decide_eq_true_eq]
    intro i hi hu
    have : contains (insts.map (fun i => peerURL i.PrivateIP)) m.PeerURL = true :=
      (contains_iff _ _).mpr (List.mem_map.mpr ⟨i, hi, hu.symm⟩)
    rw [hc] at this
    exact Bool.noConfusion this

/-- The join case of the tests on a cluster whose `RemoveMember` always fails:
both stale members ea and eb are attempted, in member-list order. -/
theorem stale_members_removed_witness :
    removeCalls ((GenerateEtcdFlags fakeWorld).trace joinRemoveFailsState) =
      ["http://10.50.65.2:2380", "http://10.50.44.44:2380"] :=
  (stale_members_removed fakeWorld joinRemoveFailsState joinRemoveFailsState
    joinRemoveFailsState joinRemoveFailsState joinRemoveFailsState joinRemoveFailsState
    staleMembers staleMembers staleMembers { InstanceID := "e2", PrivateIP := "10.50.199.1" }
    testInstances rfl (by decide) rfl rfl (by decide) rfl rfl).trans (by decide)

/-- C5. Self-only, no-duplicate add.  With `loc1` the local instance returned
in the add step and `ms4` the member list returned by the `Members()` query
made after the removal step, the `AddMember` calls of a run are the single
call with argument `peerURL(loc1.PrivateIP)` when the run is on the existing
branch, the queries of the removal and add steps succeed and no member of
`ms4` has that peer URL (whatever the names in `ms4`), and there is no
`AddMember` call in every other case. -/
theorem add_self_only (w : World σ) (s s1 s2 s3 s4 s5 s6 : σ) (ms1 ms2 ms3 ms4 : List Member)
    (e1 e2 e3 e4 : Option Error) (loc loc1 : Instance)
    (h1 : w.Members s = ((ms1, e1), s1)) (h2 : w.Members s1 = ((ms2, e2), s2))
    (h3 : w.GetLocalInstance s2 = (loc, s3)) (h4 : w.Members s3 = ((ms3, e3), s4))
    (h5 : w.Members ((removeOldEtcdMembers w).final s3) = ((ms4, e4), s5))
    (h6 : w.GetLocalInstance s5 = (loc1, s6)) :
    ((e1 = none ∧ ms1 ≠ [] ∧ e2 = none ∧
        (∀ m ∈ ms2, ¬ (m.PeerURL = peerURL loc.PrivateIP ∧ m.Name ≠ "")) ∧
        e3 = none ∧ e4 = none ∧ (∀ m ∈ ms4, m.PeerURL ≠ peerURL loc1.PrivateIP)) →
      addCalls ((GenerateEtcdFlags w).trace s) = [peerURL loc1.PrivateIP]) ∧
    (¬ (e1 = none ∧ ms1 ≠ [] ∧ e2 = none ∧
        (∀ m ∈ ms2, ¬ (m.PeerURL = peerURL loc.PrivateIP ∧ m.Name ≠ "")) ∧
        e3 = none ∧ e4 = none ∧ (∀ m ∈ ms4, m.PeerURL ≠ peerURL loc1.PrivateIP)) →
      addCalls ((GenerateEtcdFlags w).trace s) = []) := by
  have hjoin : ∀ (hne : ms1 ≠ []) (he1 : e1 = none) (he2 : e2 = none)
      (hex : nodeExistsLoop (peerURL loc.PrivateIP) ms2 = false),
      addCalls ((GenerateEtcdFlags w).trace s) =
        if e3.isSome then []
        else if e4 = none ∧
          contains (ms4.map (fun member => member.PeerURL)) (peerURL loc1.PrivateIP) = false
        then [peerURL loc1.PrivateIP] else [] := by
    intro hne he1 he2 hex
    subst he1 he2
    rw [Prog.trace_of_run (GenerateEtcdFlags_run_joining w s s1 s2 s3 ms1 ms2 loc h1 hne h2 h3 hex)]
    simp only [addCalls_cons_members, addCalls_cons_getLocalInstance]
    rw [bootstrapNewNode_addCalls, removeOldEtcdMembers_result w s3 s4 ms3 e3 h4,
      addLocalInstanceToEtcd_addCalls w _ s5 s6 ms4 e4 loc1 h5 h6]
  have hcont : contains (ms4.map (fun member => member.PeerURL)) (peerURL loc1.PrivateIP) = false ↔
      ∀ m ∈ ms4, m.PeerURL ≠ peerURL loc1.PrivateIP := by
    rw [← Bool.not_eq_true, contains_iff, List.mem_map]
    constructor
    · intro h m hm hu
      exact h ⟨m, hm, hu⟩
    · rintro h ⟨m, hm, hu⟩
      exact h m hm hu
  constructor
  · rintro ⟨he1, hne, he2, hno, he3, he4, hnot⟩
    rw [hjoin hne he1 he2 ((nodeExistsLoop_false_iff _ _).mpr hno)]
    subst he3
    simp [he4, hcont.mpr hnot]
  · intro hcond
    cases e1 with
    | some e =>
      rw [Prog.trace_of_run (GenerateEtcdFlags_run_first_query_err w s s1 ms1 e h1)]
      rfl
    | none =>
      by_cases hne : ms1 = []
      · subst hne
        rw [Prog.trace_of_run (GenerateEtcdFlags_run_no_members w s s1 h1)]
        simp only [addCalls_cons_members, bootstrapNewCluster_addCalls]
      · cases e2 with
        | some e =>
          rw [Prog.trace_of_run
            (GenerateEtcdFlags_run_second_query_err w s s1 s2 ms1 ms2 e h1 hne h2)]
          rfl
        | none =>
          cases hex : nodeExistsLoop (peerURL loc.PrivateIP) ms2 with
          | true =>
            rw [Prog.trace_of_run
              (GenerateEtcdFlags_run_registered w s s1 s2 s3 ms1 ms2 loc h1 hne h2 h3 hex)]
            simp only [addCalls_cons_members, addCalls_cons_getLocalInstance,
              bootstrapNewCluster_addCalls]
          | false =>
            rw [hjoin hne rfl rfl hex]
            have hno := (nodeExistsLoop_false_iff _ _).mp hex
            cases e3 with
            | some e => simp
            | none =>
              have : ¬ (e4 = none ∧ contains (ms4.map (fun member => member.PeerURL))
                  (peerURL loc1.PrivateIP) = false) := by
                rintro ⟨he4, hc⟩
                exact hcond ⟨rfl, hne, rfl, hno, rfl, he4, hcont.mp hc⟩
              simp [this]

/-- The join case of the tests (local e2 unknown to the cluster: exactly one
`AddMember`, with e2's own peer URL, after ea and eb were removed) and the
partially initialised case (local e3 registered with an empty name: no
`AddMember`). -/
theorem add_self_only_witness :
    addCalls ((GenerateEtcdFlags fakeWorld).trace joinState) = ["http://10.50.199.1:2380"] ∧
    addCalls ((GenerateEtcdFlags fakeWorld).trace partialState) = [] :=
  ⟨(add_self_only fakeWorld joinState joinState joinState joinState joinState
      { joinState with members := [{ Name := "e1", PeerURL := "http://10.50.99.1:2380" }] }
      { joinState with members := [{ Name := "e1", PeerURL := "http://10.50.99.1:2380" }] }
      staleMembers staleMembers staleMembers
      [{ Name := "e1", PeerURL := "http://10.50.99.1:2380" }] none none none none
      { InstanceID := "e2", PrivateIP := "10.50.199.1" }
      { InstanceID := "e2", PrivateIP := "10.50.199.1" }
      rfl rfl rfl rfl (by set_option maxRecDepth 100000 in decide) rfl).1
      (by decide),
   (add_self_only fakeWorld partialState partialState partialState partialState partialState
      partialState partialState partialState.members partialState.members partialState.members
      partialState.members none none none none partialState.localInstance
      partialState.localInstance
      rfl rfl rfl rfl (by set_option maxRecDepth 100000 in decide) rfl).2
      (by decide)⟩

/-- C6. Non-fatal removal failure: in every run in which no `Members()` query
and no `AddMember` call returns an error, whatever the `RemoveMember` calls
return, `GenerateEtcdFlags` returns a nil error and a rendered configuration
(first line `ETCD_INITIAL_CLUSTER_STATE=new` or `...=existing`), and every
`RemoveMember` call (failed or not) is followed by the add step: all removals
come first, then the add step's `Members()` query and `GetLocalInstance()`
call, then `AddMember` with the local peer URL unless that URL is already in
the queried list. -/
theorem removal_failure_not_fatal (w : World σ) (s : σ)
    (hM : ∀ ms e, Event.Members ms (some e) ∉ (GenerateEtcdFlags w).trace s)
    (hA : ∀ u e, Event.AddMember u (some e) ∉ (GenerateEtcdFlags w).trace s) :
    ((GenerateEtcdFlags w).result s).2 = none ∧
    ((∃ rest, ((GenerateEtcdFlags w).result s).1 = "ETCD_INITIAL_CLUSTER_STATE=new\n" ++ rest) ∨
      (∃ rest, ((GenerateEtcdFlags w).result s).1 =
        "ETCD_INITIAL_CLUSTER_STATE=existing\n" ++ rest)) ∧
    (∀ u r, Event.RemoveMember u r ∈ (GenerateEtcdFlags w).trace s →
      ∃ pre ms loc post,
        (GenerateEtcdFlags w).trace s =
          pre ++ Event.Members ms none :: Event.GetLocalInstance loc :: post ∧
        Event.RemoveMember u r ∈ pre ∧ addCalls pre = [] ∧ removeCalls post = [] ∧
        addCalls post =
          if contains (ms.map (fun member => member.PeerURL)) (peerURL loc.PrivateIP)
          then [] else [peerURL loc.PrivateIP]) := by
  rcases GenerateEtcdFlags_shape w s with
    ⟨ms1, e, _, htr⟩ | ⟨insts, insts1, loc1, rest, hres, htr⟩ | ⟨ms1, ms2, e, _, _, htr⟩ |
    ⟨ms1, ms2, loc, insts, insts1, loc1, rest, _, _, hres, htr⟩ |
    ⟨ms1, ms2, loc, s3, _, _, hres, htr⟩
  · exact absurd (by rw [htr]; simp) (hM ms1 e)
  · refine ⟨by rw [hres], Or.inl ⟨rest, by rw [hres]⟩, ?_⟩
    intro u r hmem
    rw [htr] at hmem
    simp at hmem
  · exact absurd (by rw [htr]; simp) (hM ms2 e)
  · refine ⟨by rw [hres], Or.inl ⟨rest, by rw [hres]⟩, ?_⟩
    intro u r hmem
    rw [htr] at hmem
    simp at hmem
  · rcases bootstrapNewNode_shape w s3 with
      ⟨ms3, e, _, htr3⟩ | ⟨ms3, insts, l, ms4, e, _, _, htr3⟩ |
      ⟨ms3, insts, l, ms4, loc4, e, _, _, _, htr3⟩ |
      ⟨ms3, insts, l, ms4, loc4, ms5, e, _, _, htr3⟩ |
      ⟨ms3, insts, l, ms4, loc4, ms5, insts1, loc1, rest, hl, hres3, htr3⟩
    · exact absurd (by rw [htr, htr3]; simp) (hM ms3 e)
    · exact absurd (by rw [htr, htr3]; simp) (hM ms4 e)
    · exact absurd (by rw [htr, htr3]; simp) (hA (peerURL loc4.PrivateIP) e)
    · exact absurd (by rw [htr, htr3]; simp) (hM ms5 e)
    · refine ⟨by rw [hres, hres3], Or.inr ⟨rest, by rw [hres, hres3]⟩, ?_⟩
      intro u r hmem
      refine ⟨Event.Members ms1 none :: Event.Members ms2 none :: Event.GetLocalInstance loc ::
        Event.Members ms3 none :: Event.GetInstances insts :: l, ms4, loc4,
        (if contains (ms4.map (fun member => member.PeerURL)) (peerURL loc4.PrivateIP)
          then [] else [Event.AddMember (peerURL loc4.PrivateIP) none]) ++
          [Event.Members ms5 none, Event.GetInstances insts1, Event.GetLocalInstance loc1],
        ?_, ?_, ?_, ?_, ?_⟩
      · rw [htr, htr3]
        simp
      · rw [htr, htr3] at hmem
        have hin : Event.RemoveMember u r ∈ l := by
          cases hc : contains (ms4.map (fun member => member.PeerURL))
            (peerURL loc4.PrivateIP) <;> simpa [hc] using hmem
        simp [hin]
      · simp only [addCalls_cons_members, addCalls_cons_getLocalInstance,
          addCalls_cons_getInstances]
        exact addCalls_of_only_removes l hl
      · cases hc : contains (ms4.map (fun member => member.PeerURL)) (peerURL loc4.PrivateIP) <;>
          simp [removeCalls]
      · cases hc : contains (ms4.map (fun member => member.PeerURL)) (peerURL loc4.PrivateIP) <;>
          simp [addCalls]

/-- C7. Fatal add failure: whenever a run issues `AddMember` and the call
returns an error, `GenerateEtcdFlags` returns the empty string and a non-nil
error. -/
theorem add_failure_fatal (w : World σ) (s : σ) (u : String) (e : Error)
    (h : Event.AddMember u (some e) ∈ (GenerateEtcdFlags w).trace s) :
    ((GenerateEtcdFlags w).result s).1 = "" ∧ ((GenerateEtcdFlags w).result s).2 ≠ none := by
  rcases GenerateEtcdFlags_shape w s with
    ⟨ms1, e1, _, htr⟩ | ⟨insts, insts1, loc1, rest, _, htr⟩ | ⟨ms1, ms2, e2, _, _, htr⟩ |
    ⟨ms1, ms2, loc, insts, insts1, loc1, rest, _, _, _, htr⟩ |
    ⟨ms1, ms2, loc, s3, _, _, hres, htr⟩
  · rw [htr] at h; simp at h
  · rw [htr] at h; simp at h
  · rw [htr] at h; simp at h
  · rw [htr] at h; simp at h
  · rw [hres]
    rcases bootstrapNewNode_shape w s3 with
      ⟨ms3, e3, hres3, _⟩ | ⟨ms3, insts, l, ms4, e4, _, hres3, _⟩ |
      ⟨ms3, insts, l, ms4, loc4, ea, _, _, hres3, _⟩ |
      ⟨ms3, insts, l, ms4, loc4, ms5, e5, _, hres3, _⟩ |
      ⟨ms3, insts, l, ms4, loc4, ms5, insts1, loc1, rest, hl, _, htr3⟩
    · rw [hres3]; simp
    · rw [hres3]; simp
    · rw [hres3]; simp
    · rw [hres3]; simp
    · exfalso
      rw [htr, htr3] at h
      have hin : Event.AddMember u (some e) ∈ l := by
        cases hc : contains (ms4.map (fun member => member.PeerURL))
          (peerURL loc4.PrivateIP) <;> simpa [hc] using h
      obtain ⟨u1, r1, heq⟩ := hl _ hin
      exact Event.noConfusion heq

/-- The calls of the join case on a cluster whose `RemoveMember` always fails. -/
theorem joinRemoveFails_trace :
    (GenerateEtcdFlags fakeWorld).trace joinRemoveFailsState =
      [Event.Members staleMembers none, Event.Members staleMembers none,
        Event.GetLocalInstance { InstanceID := "e2", PrivateIP := "10.50.199.1" },
        Event.Members staleMembers none, Event.GetInstances testInstances,
        Event.RemoveMember "http://10.50.65.2:2380" (some "failed to remove etcd members"),
        Event.RemoveMember "http://10.50.44.44:2380" (some "failed to remove etcd members"),
        Event.Members staleMembers none,
        Event.GetLocalInstance { InstanceID := "e2", PrivateIP := "10.50.199.1" },
        Event.AddMember "http://10.50.199.1:2380" none,
        Event.Members (staleMembers ++ [{ Name := "", PeerURL := "http://10.50.199.1:2380" }])
          none,
        Event.GetInstances testInstances,
        Event.GetLocalInstance { InstanceID := "e2", PrivateIP := "10.50.199.1" }] := by
  set_option maxRecDepth 100000 in decide

/-- The join case on a cluster whose `RemoveMember` always fails: both removals
fail, the run still returns a nil error and `AddMember` is still called. -/
theorem removal_failure_not_fatal_witness :
    Event.RemoveMember "http://10.50.65.2:2380" (some "failed to remove etcd members") ∈
      (GenerateEtcdFlags fakeWorld).trace joinRemoveFailsState ∧
    ((GenerateEtcdFlags fakeWorld).result joinRemoveFailsState).2 = none ∧
    Event.AddMember "http://10.50.199.1:2380" none ∈
      (GenerateEtcdFlags fakeWorld).trace joinRemoveFailsState :=
  ⟨by rw [joinRemoveFails_trace]; simp,
   (removal_failure_not_fatal fakeWorld joinRemoveFailsState
      (by intro ms e h; rw [joinRemoveFails_trace] at h; simp at h)
      (by intro u e h; rw [joinRemoveFails_trace] at h; simp at h)).1,
   by rw [joinRemoveFails_trace]; simp⟩

/-- The join case on a cluster whose `AddMember` fails. -/
theorem add_failure_fatal_witness :
    ((GenerateEtcdFlags fakeWorld).result joinAddFailsState).1 = "" ∧
    ((GenerateEtcdFlags fakeWorld).result joinAddFailsState).2 ≠ none :=
  add_failure_fatal fakeWorld joinAddFailsState "http://10.50.199.1:2380"
    "failed to add etcd member" (by set_option maxRecDepth 100000 in decide)

/-- C8. Fatal query failure: whenever a `Members()` query issued during a run
returns an error, `GenerateEtcdFlags` returns the empty string and that error;
and when the first query fails, the run issues no `AddMember` and no
`RemoveMember` call. -/
theorem query_failure_fatal (w : World σ) (s : σ) :
    (∀ ms e, Event.Members ms (some e) ∈ (GenerateEtcdFlags w).trace s →
      ((GenerateEtcdFlags w).result s).1 = "" ∧ ((GenerateEtcdFlags w).result s).2 = some e) ∧
    (∀ e, (w.Members s).1.2 = some e →
      addCalls ((GenerateEtcdFlags w).trace s) = [] ∧
      removeCalls ((GenerateEtcdFlags w).trace s) = []) := by
  constructor
  · intro ms e h
    rcases GenerateEtcdFlags_shape w s with
      ⟨ms1, e1, hres, htr⟩ | ⟨insts, insts1, loc1, rest, _, htr⟩ |
      ⟨ms1, ms2, e2, _, hres, htr⟩ |
      ⟨ms1, ms2, loc, insts, insts1, loc1, rest, _, _, _, htr⟩ |
      ⟨ms1, ms2, loc, s3, _, _, hres, htr⟩
    · rw [htr] at h
      simp at h
      rw [hres, h.2]
      exact ⟨rfl, rfl⟩
    · rw [htr] at h; simp at h
    · rw [htr] at h
      simp at h
      rw [hres, h.2]
      exact ⟨rfl, rfl⟩
    · rw [htr] at h; simp at h
    · rw [hres]
      rw [htr] at h
      rcases bootstrapNewNode_shape w s3 with
        ⟨ms3, e3, hres3, htr3⟩ | ⟨ms3, insts, l, ms4, e4, hl, hres3, htr3⟩ |
        ⟨ms3, insts, l, ms4, loc4, ea, hl, _, _, htr3⟩ |
        ⟨ms3, insts, l, ms4, loc4, ms5, e5, hl, hres3, htr3⟩ |
        ⟨ms3, insts, l, ms4, loc4, ms5, insts1, loc1, rest, hl, _, htr3⟩
      · rw [htr3] at h
        simp at h
        rw [hres3, h.2]
        exact ⟨rfl, rfl⟩
      · rw [htr3] at h
        simp at h
        rcases h with h | h
        · obtain ⟨u1, r1, heq⟩ := hl _ h
          exact Event.noConfusion heq
        · rw [hres3, h.2]
          exact ⟨rfl, rfl⟩
      · exfalso
        rw [htr3] at h
        simp at h
        obtain ⟨u1, r1, heq⟩ := hl _ h
        exact Event.noConfusion heq
      · rw [htr3] at h
        have h2 : Event.Members ms (some e) ∈ l ∨ e = e5 := by
          cases hc : contains (ms4.map (fun member => member.PeerURL))
            (peerURL loc4.PrivateIP) <;> simp [hc] at h <;> tauto
        rcases h2 with h2 | h2
        · obtain ⟨u1, r1, heq⟩ := hl _ h2
          exact Event.noConfusion heq
        · rw [hres3, h2]
          exact ⟨rfl, rfl⟩
      · exfalso
        rw [htr3] at h
        have h2 : Event.Members ms (some e) ∈ l := by
          cases hc : contains (ms4.map (fun member => member.PeerURL))
            (peerURL loc4.PrivateIP) <;> simpa [hc] using h
        obtain ⟨u1, r1, heq⟩ := hl _ h2
        exact Event.noConfusion heq
  · intro e he
    have h1 : w.Members s = (((w.Members s).1.1, some e), (w.Members s).2) := by
      rw [← he]
    rw [Prog.trace_of_run (GenerateEtcdFlags_run_first_query_err w s _ _ e h1)]
    exact ⟨rfl, rfl⟩

/-- The join case on a cluster whose `Members` fails: no configuration, the
query's error, and no mutation call. -/
theorem query_failure_fatal_witness :
    (GenerateEtcdFlags fakeWorld).result queryFailsState =
      ("", some "failed to get etcd members") ∧
    addCalls ((GenerateEtcdFlags fakeWorld).trace queryFailsState) = [] ∧
    removeCalls ((GenerateEtcdFlags fakeWorld).trace queryFailsState) = [] :=
  ⟨Prod.ext
    ((query_failure_fatal fakeWorld queryFailsState).1 staleMembers "failed to get etcd members"
      (by set_option maxRecDepth 100000 in decide)).1
    ((query_failure_fatal fakeWorld queryFailsState).1 staleMembers "failed to get etcd members"
      (by set_option maxRecDepth 100000 in decide)).2,
   (query_failure_fatal fakeWorld queryFailsState).2 "failed to get etcd members" rfl⟩

end Reconciliation

section InitialCluster

variable {σ : Type}

/-- C9. Initial-cluster construction: for every inventory (the list returned by
`GetInstances()`) and every list of available peer URLs,
`constructInitialCluster` returns the comma-joined entries
`InstanceID=peerURL(PrivateIP)` of exactly the inventory instances whose
`peerURL(PrivateIP)` occurs in the available list, in inventory order. -/
theorem constructInitialCluster_filters_inventory (w : World σ) (s : σ)
    (availablePeerURLs : List String) :
    (constructInitialCluster w availablePeerURLs).result s =
      String.intercalate ","
        (((w.GetInstances s).1.filter
            (fun i => decide (peerURL i.PrivateIP ∈ availablePeerURLs))).map
          (fun i => i.InstanceID ++ "=" ++ peerURL i.PrivateIP)) := by
  rw [← initialClusterEntries_eq]
  simp only [Prog.result, constructInitialCluster, Prog.run_bind, Prog.run_pure,
    getInstances_run]

/-- C10. Founding roster is the full inventory: on the new branch (no members,
or the local node present with a non-empty `Name`), when both `GetInstances()`
calls return the same list `insts`, the text begins with the state line `new`
followed by the line `ETCD_INITIAL_CLUSTER=` with one entry
`InstanceID=peerURL(PrivateIP)` for every instance of `insts`, in order and
with none filtered out, whatever the member list contains. -/
theorem founding_roster_full_inventory (w : World σ) (s sA sB sC : σ) (insts : List Instance)
    (hbranch : w.Members s = (([], none), sA) ∨
      ∃ ms1 s1 ms2 s2 loc, w.Members s = ((ms1, none), s1) ∧ ms1 ≠ [] ∧
        w.Members s1 = ((ms2, none), s2) ∧ w.GetLocalInstance s2 = (loc, sA) ∧
        ∃ m ∈ ms2, m.PeerURL = peerURL loc.PrivateIP ∧ m.Name ≠ "")
    (hg1 : w.GetInstances sA = (insts, sB)) (hg2 : w.GetInstances sB = (insts, sC)) :
    ∃ rest, (GenerateEtcdFlags w).result s =
      ("ETCD_INITIAL_CLUSTER_STATE=new\n" ++ "ETCD_INITIAL_CLUSTER=" ++
        String.intercalate "," (insts.map (fun i => i.InstanceID ++ "=" ++ peerURL i.PrivateIP)) ++
        "\n" ++ rest, none) := by
  have hnew : ∃ rest, (bootstrapNewCluster w).result sA =
      "ETCD_INITIAL_CLUSTER_STATE=new\n" ++ "ETCD_INITIAL_CLUSTER=" ++
        String.intercalate "," (insts.map (fun i => i.InstanceID ++ "=" ++ peerURL i.PrivateIP)) ++
        "\n" ++ rest := by
    obtain ⟨rest, hr⟩ := createEtcdConfig_two_lines w newCluster
      (insts.map (fun i => peerURL i.PrivateIP)) sB
    refine ⟨rest, ?_⟩
    have hall : (insts.filter
        (fun i => decide (peerURL i.PrivateIP ∈ insts.map (fun i => peerURL i.PrivateIP)))) =
        insts := by
      rw [List.filter_eq_self]
      intro a ha
      exact decide_eq_true (List.mem_map.mpr ⟨a, ha, rfl⟩)
    rw [hg2, initialClusterEntries_eq, hall] at hr
    simp only [Prog.result] at hr ⊢
    simp only [bootstrapNewCluster, getInstancePeerURLs, Prog.run_bind, Prog.run_pure,
      getInstances_run, hg1, hr]
    rfl
  obtain ⟨rest, hr⟩ := hnew
  refine ⟨rest, ?_⟩
  rcases hbranch with h1 | ⟨ms1, s1, ms2, s2, loc, h1, hne, h2, h3, hm⟩
  · rw [Prog.result_of_run (GenerateEtcdFlags_run_no_members w s sA h1), hr]
  · have hex := (nodeExistsLoop_iff (peerURL loc.PrivateIP) ms2).mpr hm
    rw [Prog.result_of_run
      (GenerateEtcdFlags_run_registered w s s1 s2 sA ms1 ms2 loc h1 hne h2 h3 hex), hr]

/-- The inventory e1, e2, e3 with the available list in the order e3, e1: the
result keeps inventory order and leaves e2 out. -/
theorem constructInitialCluster_filters_inventory_witness :
    (constructInitialCluster fakeWorld
      ["http://10.50.155.1:2380", "http://10.50.99.1:2380"]).result foundingState =
      "e1=http://10.50.99.1:2380,e3=http://10.50.155.1:2380" :=
  (constructInitialCluster_filters_inventory fakeWorld foundingState
    ["http://10.50.155.1:2380", "http://10.50.99.1:2380"]).trans
    (by set_option maxRecDepth 100000 in decide)

/-- The case of `TestExistingCluster` (members e1, e2, e3 all named, local e2):
the roster is the full inventory e1, e2, e3. -/
theorem founding_roster_full_inventory_witness :
    ∃ rest, (GenerateEtcdFlags fakeWorld).result registeredState =
      ("ETCD_INITIAL_CLUSTER_STATE=new\nETCD_INITIAL_CLUSTER=e1=http://10.50.99.1:2380," ++
        "e2=http://10.50.199.1:2380,e3=http://10.50.155.1:2380\n" ++ rest, none) := by
  obtain ⟨rest, h⟩ := founding_roster_full_inventory fakeWorld registeredState registeredState
    registeredState registeredState testInstances
    (Or.inr ⟨namedMembers, registeredState, namedMembers, registeredState,
      { InstanceID := "e2", PrivateIP := "10.50.199.1" }, rfl, by decide, rfl, rfl,
      { Name := "e2", PeerURL := "http://10.50.199.1:2380" }, by decide, by decide, by decide⟩)
    rfl rfl
  exact ⟨rest, h⟩

end InitialCluster

section Rendering

variable {σ : Type}

/-- A run of the existing branch that returns a nil error: its calls end with
the final `Members()` query, `GetInstances()` and `GetLocalInstance()`, and its
text begins with the state line `existing` and the line `ETCD_INITIAL_CLUSTER=`
built from the final inventory filtered by the final member list. -/
theorem existing_branch_success_shape (w : World σ) (s s1 s2 s3 : σ)
    (ms1 ms2 : List Member) (loc : Instance) (h1 : w.Members s = ((ms1, none), s1))
    (hne : ms1 ≠ []) (h2 : w.Members s1 = ((ms2, none), s2))
    (h3 : w.GetLocalInstance s2 = (loc, s3))
    (hno : ∀ m ∈ ms2, ¬ (m.PeerURL = peerURL loc.PrivateIP ∧ m.Name ≠ ""))
    (hok : ((GenerateEtcdFlags w).result s).2 = none) :
    ∃ ms5 insts1 loc1 rest,
      (GenerateEtcdFlags w).trace s =
        Event.Members ms1 none :: Event.Members ms2 none :: Event.GetLocalInstance loc ::
          ((reconcileMembers w).trace s3 ++
            [Event.Members ms5 none, Event.GetInstances insts1, Event.GetLocalInstance loc1]) ∧
      ((GenerateEtcdFlags w).result s).1 =
        "ETCD_INITIAL_CLUSTER_STATE=existing\n" ++ "ETCD_INITIAL_CLUSTER=" ++
          String.intercalate ","
            ((insts1.filter
                (fun i => decide (peerURL i.PrivateIP ∈ ms5.map (fun m => m.PeerURL)))).map
              (fun i => i.InstanceID ++ "=" ++ peerURL i.PrivateIP)) ++ "\n" ++ rest := by
  have hex := (nodeExistsLoop_false_iff (peerURL loc.PrivateIP) ms2).mpr hno
  have hrun := GenerateEtcdFlags_run_joining w s s1 s2 s3 ms1 ms2 loc h1 hne h2 h3 hex
  rw [Prog.result_of_run hrun] at hok ⊢
  rw [Prog.trace_of_run hrun]
  cases hrec : (reconcileMembers w).result s3 with
  | some e =>
    rw [Prog.result_of_run (bootstrapNewNode_run_reconcile_err w s3 e hrec)] at hok
    simp at hok
  | none =>
    rcases hq : w.Members ((reconcileMembers w).final s3) with ⟨⟨ms5, err⟩, s4⟩
    cases err with
    | some e =>
      rw [Prog.result_of_run (bootstrapNewNode_run_query_err w s3 s4 ms5 e hrec hq)] at hok
      simp at hok
    | none =>
      have hn := bootstrapNewNode_run_ok w s3 s4 ms5 hrec hq
      obtain ⟨rest, hr⟩ := createEtcdConfig_two_lines w existingCluster
        (ms5.map (fun member => member.PeerURL)) s4
      refine ⟨ms5, (w.GetInstances s4).1, (w.GetLocalInstance (w.GetInstances s4).2).1, rest,
        ?_, ?_⟩
      · rw [Prog.trace_of_run hn, createEtcdConfig_trace]
      · rw [Prog.result_of_run hn, hr, initialClusterEntries_eq]
        rfl

/-- C11. Existing roster is the post-reconciliation membership: on a run of
the existing branch that returns a nil error, the calls are those of the
decision, then those of the remove and add steps, then a `Members()` query
returning `ms5`, a `GetInstances()` call returning `insts1` and
`GetLocalInstance()`; and the text begins with the state line `existing`
followed by the line `ETCD_INITIAL_CLUSTER=` with the entries
`InstanceID=peerURL(PrivateIP)` of exactly the instances of `insts1` whose peer
URL is a `PeerURL` of `ms5`, in inventory order. -/
theorem existing_roster_post_reconciliation (w : World σ) (s s1 s2 s3 : σ)
    (ms1 ms2 : List Member) (loc : Instance) (h1 : w.Members s = ((ms1, none), s1))
    (hne : ms1 ≠ []) (h2 : w.Members s1 = ((ms2, none), s2))
    (h3 : w.GetLocalInstance s2 = (loc, s3))
    (hno : ∀ m ∈ ms2, ¬ (m.PeerURL = peerURL loc.PrivateIP ∧ m.Name ≠ ""))
    (hok : ((GenerateEtcdFlags w).result s).2 = none) :
    ∃ ms5 insts1 loc1 rest,
      (GenerateEtcdFlags w).trace s =
        Event.Members ms1 none :: Event.Members ms2 none :: Event.GetLocalInstance loc ::
          ((reconcileMembers w).trace s3 ++
            [Event.Members ms5 none, Event.GetInstances insts1, Event.GetLocalInstance loc1]) ∧
      ((GenerateEtcdFlags w).result s).1 =
        "ETCD_INITIAL_CLUSTER_STATE=existing\n" ++ "ETCD_INITIAL_CLUSTER=" ++
          String.intercalate ","
            ((insts1.filter
                (fun i => decide (peerURL i.PrivateIP ∈ ms5.map (fun m => m.PeerURL)))).map
              (fun i => i.InstanceID ++ "=" ++ peerURL i.PrivateIP)) ++ "\n" ++ rest :=
  existing_branch_success_shape w s s1 s2 s3 ms1 ms2 loc h1 hne h2 h3 hno hok

/-- The text of the join case of the tests on a cluster that applies the
removals and the addition. -/
theorem joinState_result :
    (GenerateEtcdFlags fakeWorld).result joinState =
      ("ETCD_INITIAL_CLUSTER_STATE=existing\n" ++
        "ETCD_INITIAL_CLUSTER=e1=http://10.50.99.1:2380,e2=http://10.50.199.1:2380\n" ++
        "ETCD_NAME=e2\n" ++
        "ETCD_INITIAL_ADVERTISE_PEER_URLS=http://10.50.199.1:2380\n" ++
        "ETCD_LISTEN_PEER_URLS=http://10.50.199.1:2380\n" ++
        "ETCD_LISTEN_CLIENT_URLS=http://10.50.199.1:2379,http://127.0.0.1:2379\n" ++
        "ETCD_ADVERTISE_CLIENT_URLS=http://10.50.199.1:2379\n", none) := by
  set_option maxRecDepth 100000 in decide

/-- The join case of the tests (inventory e1, e2, e3, local e2, members e1, ea,
eb): the roster is e1, e2, without e3. -/
theorem existing_roster_post_reconciliation_witness :
    (∃ ms5 insts1 loc1 rest,
      (GenerateEtcdFlags fakeWorld).trace joinState =
        Event.Members staleMembers none :: Event.Members staleMembers none ::
          Event.GetLocalInstance { InstanceID := "e2", PrivateIP := "10.50.199.1" } ::
          ((reconcileMembers fakeWorld).trace joinState ++
            [Event.Members ms5 none, Event.GetInstances insts1, Event.GetLocalInstance loc1]) ∧
      ((GenerateEtcdFlags fakeWorld).result joinState).1 =
        "ETCD_INITIAL_CLUSTER_STATE=existing\n" ++ "ETCD_INITIAL_CLUSTER=" ++
          String.intercalate ","
            ((insts1.filter
                (fun i => decide (peerURL i.PrivateIP ∈ ms5.map (fun m => m.PeerURL)))).map
              (fun i => i.InstanceID ++ "=" ++ peerURL i.PrivateIP)) ++ "\n" ++ rest) ∧
    ∃ rest, ((GenerateEtcdFlags fakeWorld).result joinState).1 =
      "ETCD_INITIAL_CLUSTER_STATE=existing\n" ++
        "ETCD_INITIAL_CLUSTER=e1=http://10.50.99.1:2380,e2=http://10.50.199.1:2380\n" ++ rest :=
  ⟨existing_roster_post_reconciliation fakeWorld joinState joinState joinState joinState
      staleMembers staleMembers { InstanceID := "e2", PrivateIP := "10.50.199.1" }
      rfl (by decide) rfl rfl (by decide) (by rw [joinState_result]),
   ⟨_, by rw [joinState_result]; rfl⟩⟩

/-- C12. Rendering format: `createEtcdConfig` returns the seven lines
`ETCD_INITIAL_CLUSTER_STATE`, `ETCD_INITIAL_CLUSTER`, `ETCD_NAME`,
`ETCD_INITIAL_ADVERTISE_PEER_URLS`, `ETCD_LISTEN_PEER_URLS`,
`ETCD_LISTEN_CLIENT_URLS`, `ETCD_ADVERTISE_CLIENT_URLS`, in this order,
joined by a newline and followed by one trailing newline; the second line holds
the result of `constructInitialCluster` and the last five depend only on the
local instance returned by `GetLocalInstance()`. -/
theorem createEtcdConfig_format (w : World σ) (state : clusterState)
    (availablePeerURLs : List String) (s : σ) :
    (createEtcdConfig w state availablePeerURLs).result s =
      String.intercalate "\n"
        [ "ETCD_INITIAL_CLUSTER_STATE=" ++ state,
          "ETCD_INITIAL_CLUSTER=" ++ (constructInitialCluster w availablePeerURLs).result s,
          "ETCD_NAME=" ++
            (w.GetLocalInstance ((constructInitialCluster w availablePeerURLs).final s)).1.InstanceID,
          "ETCD_INITIAL_ADVERTISE_PEER_URLS=" ++ peerURL
            (w.GetLocalInstance ((constructInitialCluster w availablePeerURLs).final s)).1.PrivateIP,
          "ETCD_LISTEN_PEER_URLS=" ++ peerURL
            (w.GetLocalInstance ((constructInitialCluster w availablePeerURLs).final s)).1.PrivateIP,
          "ETCD_LISTEN_CLIENT_URLS=" ++ clientURL
            (w.GetLocalInstance ((constructInitialCluster w availablePeerURLs).final s)).1.PrivateIP
            ++ ",http://127.0.0.1:2379",
          "ETCD_ADVERTISE_CLIENT_URLS=" ++ clientURL
            (w.GetLocalInstance
              ((constructInitialCluster w availablePeerURLs).final s)).1.PrivateIP ] ++ "\n" ∧
    (createEtcdConfig w state availablePeerURLs).result s =
      "ETCD_INITIAL_CLUSTER_STATE=" ++ state ++ "\n" ++
      "ETCD_INITIAL_CLUSTER=" ++ (constructInitialCluster w availablePeerURLs).result s ++ "\n" ++
      "ETCD_NAME=" ++
        (w.GetLocalInstance ((constructInitialCluster w availablePeerURLs).final s)).1.InstanceID
        ++ "\n" ++
      "ETCD_INITIAL_ADVERTISE_PEER_URLS=" ++ peerURL
        (w.GetLocalInstance ((constructInitialCluster w availablePeerURLs).final s)).1.PrivateIP
        ++ "\n" ++
      "ETCD_LISTEN_PEER_URLS=" ++ peerURL
        (w.GetLocalInstance ((constructInitialCluster w availablePeerURLs).final s)).1.PrivateIP
        ++ "\n" ++
      "ETCD_LISTEN_CLIENT_URLS=" ++ clientURL
        (w.GetLocalInstance ((constructInitialCluster w availablePeerURLs).final s)).1.PrivateIP
        ++ ",http://127.0.0.1:2379" ++ "\n" ++
      "ETCD_ADVERTISE_CLIENT_URLS=" ++ clientURL
        (w.GetLocalInstance ((constructInitialCluster w availablePeerURLs).final s)).1.PrivateIP
        ++ "\n" := by
  have hloop : clientURL "127.0.0.1" = "http://127.0.0.1:2379" := by decide
  constructor
  · simp only [Prog.result, Prog.final, createEtcdConfig, Prog.run_bind, Prog.run_pure,
      getLocalInstance_run, hloop, String.append_assoc]
    rfl
  · simp only [Prog.result, Prog.final, createEtcdConfig, Prog.run_bind, Prog.run_pure,
      getLocalInstance_run, hloop, intercalate_cons_cons, String.append_assoc]
    rfl

/-- The rendering of the founding case of the tests. -/
theorem createEtcdConfig_format_witness :
    (createEtcdConfig fakeWorld newCluster
        ["http://10.50.99.1:2380", "http://10.50.199.1:2380", "http://10.50.155.1:2380"]).result
      foundingState =
      "ETCD_INITIAL_CLUSTER_STATE=new\n" ++
      "ETCD_INITIAL_CLUSTER=e1=http://10.50.99.1:2380,e2=http://10.50.199.1:2380," ++
        "e3=http://10.50.155.1:2380\n" ++
      "ETCD_NAME=e2\n" ++
      "ETCD_INITIAL_ADVERTISE_PEER_URLS=http://10.50.199.1:2380\n" ++
      "ETCD_LISTEN_PEER_URLS=http://10.50.199.1:2380\n" ++
      "ETCD_LISTEN_CLIENT_URLS=http://10.50.199.1:2379,http://127.0.0.1:2379\n" ++
      "ETCD_ADVERTISE_CLIENT_URLS=http://10.50.199.1:2379\n" :=
  (createEtcdConfig_format fakeWorld newCluster
    ["http://10.50.99.1:2380", "http://10.50.199.1:2380", "http://10.50.155.1:2380"]
    foundingState).2.trans (by set_option maxRecDepth 100000 in decide)

/-- C13. URL derivation: `peerURL(ip)` is `http://` followed by `ip` and
`:2380`, and `clientURL(ip)` is `http://` followed by `ip` and `:2379`, for
every string `ip`. -/
theorem url_derivation (ip : String) :
    peerURL ip = "http://" ++ ip ++ ":2380" ∧ clientURL ip = "http://" ++ ip ++ ":2379" :=
  ⟨rfl, rfl⟩

/-- The address of the tests, 192.168.0.100. -/
theorem url_derivation_witness :
    peerURL "192.168.0.100" = "http://192.168.0.100:2380" ∧
    clientURL "192.168.0.100" = "http://192.168.0.100:2379" :=
  ⟨(url_derivation "192.168.0.100").1.trans (by decide),
   (url_derivation "192.168.0.100").2.trans (by decide)⟩

end Rendering

section Protocol

variable {σ : Type}

theorem bootstrapNewCluster_final (w : World σ) (s : σ) :
    (bootstrapNewCluster w).final s =
      (w.GetLocalInstance (w.GetInstances (w.GetInstances s).2).2).2 := by
  simp [Prog.final, bootstrapNewCluster, createEtcdConfig, constructInitialCluster,
    getInstancePeerURLs, Prog.run_bind, Prog.run_pure, getInstances_run, getLocalInstance_run]

theorem bootstrapNewCluster_mem (w : World σ) (mem : σ → List Member) (inv : σ → List Instance)
    (lcl : σ → Instance) (F : FaithfulCluster w mem inv lcl) (s : σ) :
    mem ((bootstrapNewCluster w).final s) = mem s := by
  rw [bootstrapNewCluster_final, F.getLocalInstance_mem, F.getInstances_mem, F.getInstances_mem]

theorem no_remove_after_add_of_split (a b : List Event) (ha : addCalls a = [])
    (hb : removeCalls b = []) (pre post : List Event) (u : String) (r : Option Error)
    (h : a ++ b = pre ++ Event.AddMember u r :: post) : removeCalls post = [] := by
  rcases List.append_eq_append_iff.mp h with ⟨a1, _, hb1⟩ | ⟨c1, ha1, hc1⟩
  · rw [hb1, removeCalls_append, removeCalls_cons_addMember] at hb
    exact (List.append_eq_nil.mp hb).2
  · cases c1 with
    | nil =>
      rw [List.nil_append] at hc1
      rw [← hc1, removeCalls_cons_addMember] at hb
      exact hb
    | cons x rest =>
      rw [List.cons_append] at hc1
      have hx : x = Event.AddMember u r := (List.cons.inj hc1).1.symm
      rw [ha1, hx, addCalls_append, addCalls_cons_addMember] at ha
      exact absurd (List.append_eq_nil.mp ha).2 (List.cons_ne_nil _ _)

/-- The calls of every run split into a part without `AddMember` followed by a
part without `RemoveMember`. -/
theorem GenerateEtcdFlags_split (w : World σ) (s : σ) :
    ∃ a b, (GenerateEtcdFlags w).trace s = a ++ b ∧ addCalls a = [] ∧ removeCalls b = [] := by
  rcases GenerateEtcdFlags_shape w s with
    ⟨ms1, e, _, htr⟩ | ⟨insts, insts1, loc1, rest, _, htr⟩ | ⟨ms1, ms2, e, _, _, htr⟩ |
    ⟨ms1, ms2, loc, insts, insts1, loc1, rest, _, _, _, htr⟩ |
    ⟨ms1, ms2, loc, s3, _, _, _, htr⟩
  · exact ⟨(GenerateEtcdFlags w).trace s, [], by rw [List.append_nil], by rw [htr]; rfl, rfl⟩
  · exact ⟨(GenerateEtcdFlags w).trace s, [], by rw [List.append_nil], by rw [htr]; rfl, rfl⟩
  · exact ⟨(GenerateEtcdFlags w).trace s, [], by rw [List.append_nil], by rw [htr]; rfl, rfl⟩
  · exact ⟨(GenerateEtcdFlags w).trace s, [], by rw [List.append_nil], by rw [htr]; rfl, rfl⟩
  · obtain ⟨tail, ht, hr, _⟩ := bootstrapNewNode_trace w s3
    refine ⟨Event.Members ms1 none :: Event.Members ms2 none :: Event.GetLocalInstance loc ::
        (removeOldEtcdMembers w).trace s3,
      (if ((removeOldEtcdMembers w).result s3).isSome then []
        else (addLocalInstanceToEtcd w).trace ((removeOldEtcdMembers w).final s3)) ++ tail,
      ?_, ?_, ?_⟩
    · rw [htr, ht, reconcileMembers_trace]
      simp only [List.cons_append, List.append_assoc]
    · simp only [addCalls_cons_members, addCalls_cons_getLocalInstance]
      exact removeOldEtcdMembers_addCalls w s3
    · rw [removeCalls_append, hr, List.append_nil]
      split
      · rfl
      · exact addLocalInstanceToEtcd_removeCalls w _

/-- The calls of the join case of the tests on a cluster that applies the
removals and the addition. -/
theorem joinState_trace :
    (GenerateEtcdFlags fakeWorld).trace joinState =
      [Event.Members staleMembers none, Event.Members staleMembers none,
        Event.GetLocalInstance { InstanceID := "e2", PrivateIP := "10.50.199.1" },
        Event.Members staleMembers none, Event.GetInstances testInstances,
        Event.RemoveMember "http://10.50.65.2:2380" none,
        Event.RemoveMember "http://10.50.44.44:2380" none,
        Event.Members [{ Name := "e1", PeerURL := "http://10.50.99.1:2380" }] none,
        Event.GetLocalInstance { InstanceID := "e2", PrivateIP := "10.50.199.1" }] ++
      Event.AddMember "http://10.50.199.1:2380" none ::
      [Event.Members
          [{ Name := "e1", PeerURL := "http://10.50.99.1:2380" },
           { Name := "", PeerURL := "http://10.50.199.1:2380" }] none,
        Event.GetInstances testInstances,
        Event.GetLocalInstance { InstanceID := "e2", PrivateIP := "10.50.199.1" }] := by
  set_option maxRecDepth 100000 in decide

/-- The calls of the join case on a cluster whose `AddMember` fails. -/
theorem joinAddFails_trace :
    (GenerateEtcdFlags fakeWorld).trace joinAddFailsState =
      [Event.Members staleMembers none, Event.Members staleMembers none,
        Event.GetLocalInstance { InstanceID := "e2", PrivateIP := "10.50.199.1" },
        Event.Members staleMembers none, Event.GetInstances testInstances,
        Event.RemoveMember "http://10.50.65.2:2380" none,
        Event.RemoveMember "http://10.50.44.44:2380" none,
        Event.Members [{ Name := "e1", PeerURL := "http://10.50.99.1:2380" }] none,
        Event.GetLocalInstance { InstanceID := "e2", PrivateIP := "10.50.199.1" }] ++
      [Event.AddMember "http://10.50.199.1:2380" (some "failed to add etcd member")] := by
  set_option maxRecDepth 100000 in decide

/-- The result of the join case on a cluster whose `AddMember` fails. -/
theorem joinAddFails_result :
    (GenerateEtcdFlags fakeWorld).result joinAddFailsState =
      ("", some ("unexpected error when adding new member URL http://10.50.199.1:2380: " ++
        "failed to add etcd member")) := by
  set_option maxRecDepth 100000 in decide

/-- C14. No mutation when founding: on the new branch (the first query returns
no members, or the local peer URL is present with a non-empty `Name`) the run
issues no `AddMember` and no `RemoveMember` call, and on a faithful cluster the
member list after the run is the one before it; conversely, a run that issues
an `AddMember` or `RemoveMember` call is on the existing branch: its first
query returned a non-empty list and its second a list without a named member
at the local peer URL. -/
theorem no_mutation_when_founding (w : World σ) (s : σ) :
    (∀ sA, (w.Members s = (([], none), sA) ∨
        ∃ ms1 s1 ms2 s2 loc, w.Members s = ((ms1, none), s1) ∧ ms1 ≠ [] ∧
          w.Members s1 = ((ms2, none), s2) ∧ w.GetLocalInstance s2 = (loc, sA) ∧
          ∃ m ∈ ms2, m.PeerURL = peerURL loc.PrivateIP ∧ m.Name ≠ "") →
      addCalls ((GenerateEtcdFlags w).trace s) = [] ∧
      removeCalls ((GenerateEtcdFlags w).trace s) = [] ∧
      ∀ (mem : σ → List Member) (inv : σ → List Instance) (lcl : σ → Instance),
        FaithfulCluster w mem inv lcl → mem ((GenerateEtcdFlags w).final s) = mem s) ∧
    (∀ u r, (Event.AddMember u r ∈ (GenerateEtcdFlags w).trace s ∨
        Event.RemoveMember u r ∈ (GenerateEtcdFlags w).trace s) →
      ∃ ms1 ms2 loc rest, ms1 ≠ [] ∧
        (∀ m ∈ ms2, ¬ (m.PeerURL = peerURL loc.PrivateIP ∧ m.Name ≠ "")) ∧
        (GenerateEtcdFlags w).trace s =
          Event.Members ms1 none :: Event.Members ms2 none :: Event.GetLocalInstance loc ::
            rest) := by
  constructor
  · rintro sA (h1 | ⟨ms1, s1, ms2, s2, loc, h1, hne, h2, h3, hm⟩)
    · have hrun := GenerateEtcdFlags_run_no_members w s sA h1
      refine ⟨?_, ?_, ?_⟩
      · rw [Prog.trace_of_run hrun, addCalls_cons_members, bootstrapNewCluster_addCalls]
      · rw [Prog.trace_of_run hrun, removeCalls_cons_members, bootstrapNewCluster_removeCalls]
      · intro mem inv lcl F
        have hA : sA = (w.Members s).2 := by rw [h1]
        rw [Prog.final_of_run hrun, bootstrapNewCluster_mem w mem inv lcl F, hA, F.members_mem]
    · have hex := (nodeExistsLoop_iff (peerURL loc.PrivateIP) ms2).mpr hm
      have hrun := GenerateEtcdFlags_run_registered w s s1 s2 sA ms1 ms2 loc h1 hne h2 h3 hex
      refine ⟨?_, ?_, ?_⟩
      · rw [Prog.trace_of_run hrun, addCalls_cons_members, addCalls_cons_members,
          addCalls_cons_getLocalInstance, bootstrapNewCluster_addCalls]
      · rw [Prog.trace_of_run hrun, removeCalls_cons_members, removeCalls_cons_members,
          removeCalls_cons_getLocalInstance, bootstrapNewCluster_removeCalls]
      · intro mem inv lcl F
        have hA : sA = (w.GetLocalInstance s2).2 := by rw [h3]
        have hB : s2 = (w.Members s1).2 := by rw [h2]
        have hC : s1 = (w.Members s).2 := by rw [h1]
        rw [Prog.final_of_run hrun, bootstrapNewCluster_mem w mem inv lcl F, hA,
          F.getLocalInstance_mem, hB, F.members_mem, hC, F.members_mem]
  · intro u r hmem
    rcases GenerateEtcdFlags_shape w s with
      ⟨ms1, e, _, htr⟩ | ⟨insts, insts1, loc1, rest, _, htr⟩ | ⟨ms1, ms2, e, _, _, htr⟩ |
      ⟨ms1, ms2, loc, insts, insts1, loc1, rest, _, _, _, htr⟩ |
      ⟨ms1, ms2, loc, s3, hne, hex, _, htr⟩
    · rw [htr] at hmem; simp at hmem
    · rw [htr] at hmem; simp at hmem
    · rw [htr] at hmem; simp at hmem
    · rw [htr] at hmem; simp at hmem
    · exact ⟨ms1, ms2, loc, _, hne, (nodeExistsLoop_false_iff _ _).mp hex, htr⟩

/-- The founding case and the already-registered case of the tests issue no
mutation call and leave the member list as it was. -/
theorem no_mutation_when_founding_witness :
    (addCalls ((GenerateEtcdFlags fakeWorld).trace foundingState) = [] ∧
      removeCalls ((GenerateEtcdFlags fakeWorld).trace foundingState) = []) ∧
    (addCalls ((GenerateEtcdFlags fakeWorld).trace registeredState) = [] ∧
      removeCalls ((GenerateEtcdFlags fakeWorld).trace registeredState) = []) ∧
    ((GenerateEtcdFlags fakeWorld).final registeredState).members = namedMembers :=
  ⟨⟨((no_mutation_when_founding fakeWorld foundingState).1 foundingState (Or.inl rfl)).1,
    ((no_mutation_when_founding fakeWorld foundingState).1 foundingState (Or.inl rfl)).2.1⟩,
   ⟨((no_mutation_when_founding fakeWorld registeredState).1 registeredState
      (Or.inr ⟨namedMembers, registeredState, namedMembers, registeredState,
        { InstanceID := "e2", PrivateIP := "10.50.199.1" }, rfl, by decide, rfl, rfl,
        { Name := "e2", PeerURL := "http://10.50.199.1:2380" },
        by decide, by decide, by decide⟩)).1,
    ((no_mutation_when_founding fakeWorld registeredState).1 registeredState
      (Or.inr ⟨namedMembers, registeredState, namedMembers, registeredState,
        { InstanceID := "e2", PrivateIP := "10.50.199.1" }, rfl, by decide, rfl, rfl,
        { Name := "e2", PeerURL := "http://10.50.199.1:2380" },
        by decide, by decide, by decide⟩)).2.1⟩,
   by set_option maxRecDepth 100000 in decide⟩

/-- C15. Remove-before-add ordering: in the calls of every run, no
`RemoveMember` call comes after an `AddMember` call. -/
theorem remove_before_add (w : World σ) (s : σ) (pre post : List Event) (u : String)
    (r : Option Error)
    (h : (GenerateEtcdFlags w).trace s = pre ++ Event.AddMember u r :: post) :
    removeCalls post = [] := by
  obtain ⟨a, b, hab, ha, hb⟩ := GenerateEtcdFlags_split w s
  rw [hab] at h
  exact no_remove_after_add_of_split a b ha hb pre post u r h

/-- The join case of the tests: the two removals precede the addition, and the
calls after the addition hold no removal. -/
theorem remove_before_add_witness :
    removeCalls ((GenerateEtcdFlags fakeWorld).trace joinState) =
      ["http://10.50.65.2:2380", "http://10.50.44.44:2380"] ∧
    removeCalls
      [Event.Members
          [{ Name := "e1", PeerURL := "http://10.50.99.1:2380" },
           { Name := "", PeerURL := "http://10.50.199.1:2380" }] none,
        Event.GetInstances testInstances,
        Event.GetLocalInstance { InstanceID := "e2", PrivateIP := "10.50.199.1" }] = [] :=
  ⟨by rw [joinState_trace]; rfl,
   remove_before_add fakeWorld joinState _ _ "http://10.50.199.1:2380" none joinState_trace⟩

/-- C16, as amended. Error propagation: whenever `GenerateEtcdFlags` returns a
non-nil error it returns the empty string, and either the last call of the run
is a `Members()` query that returned exactly that error, or the last call is an
`AddMember(u)` call that returned an error `e` and the returned error is the
new error `unexpected error when adding new member URL u: e`. -/
theorem error_propagation (w : World σ) (s : σ) (err : Error)
    (h : ((GenerateEtcdFlags w).result s).2 = some err) :
    ((GenerateEtcdFlags w).result s).1 = "" ∧
    ((∃ pre ms, (GenerateEtcdFlags w).trace s = pre ++ [Event.Members ms (some err)]) ∨
      (∃ pre u e, (GenerateEtcdFlags w).trace s = pre ++ [Event.AddMember u (some e)] ∧
        err = "unexpected error when adding new member URL " ++ u ++ ": " ++ e)) := by
  rcases GenerateEtcdFlags_shape w s with
    ⟨ms1, e, hres, htr⟩ | ⟨insts, insts1, loc1, rest, hres, htr⟩ |
    ⟨ms1, ms2, e, _, hres, htr⟩ |
    ⟨ms1, ms2, loc, insts, insts1, loc1, rest, _, _, hres, htr⟩ |
    ⟨ms1, ms2, loc, s3, _, _, hres, htr⟩
  · rw [hres] at h ⊢
    obtain rfl : e = err := Option.some.inj h
    exact ⟨rfl, Or.inl ⟨[], ms1, htr⟩⟩
  · rw [hres] at h
    exact Option.noConfusion h
  · rw [hres] at h ⊢
    obtain rfl : e = err := Option.some.inj h
    exact ⟨rfl, Or.inl ⟨[Event.Members ms1 none], ms2, htr⟩⟩
  · rw [hres] at h
    exact Option.noConfusion h
  · rw [hres] at h ⊢
    rcases bootstrapNewNode_shape w s3 with
      ⟨ms3, e3, hres3, htr3⟩ | ⟨ms3, insts, l, ms4, e4, _, hres3, htr3⟩ |
      ⟨ms3, insts, l, ms4, loc4, ea, _, _, hres3, htr3⟩ |
      ⟨ms3, insts, l, ms4, loc4, ms5, e5, _, hres3, htr3⟩ |
      ⟨ms3, insts, l, ms4, loc4, ms5, insts1, loc1, rest, _, hres3, _⟩
    · rw [hres3] at h ⊢
      obtain rfl : e3 = err := Option.some.inj h
      exact ⟨rfl, Or.inl ⟨[Event.Members ms1 none, Event.Members ms2 none,
        Event.GetLocalInstance loc], ms3, by rw [htr, htr3]; rfl⟩⟩
    · rw [hres3] at h ⊢
      obtain rfl : e4 = err := Option.some.inj h
      exact ⟨rfl, Or.inl ⟨Event.Members ms1 none :: Event.Members ms2 none ::
        Event.GetLocalInstance loc :: Event.Members ms3 none :: Event.GetInstances insts :: l,
        ms4, by rw [htr, htr3]; rfl⟩⟩
    · rw [hres3] at h ⊢
      refine ⟨rfl, Or.inr ⟨Event.Members ms1 none :: Event.Members ms2 none ::
        Event.GetLocalInstance loc :: Event.Members ms3 none :: Event.GetInstances insts ::
        (l ++ [Event.Members ms4 none, Event.GetLocalInstance loc4]),
        peerURL loc4.PrivateIP, ea, ?_, (Option.some.inj h).symm⟩⟩
      rw [htr, htr3]
      simp
    · rw [hres3] at h ⊢
      obtain rfl : e5 = err := Option.some.inj h
      refine ⟨rfl, Or.inl ⟨Event.Members ms1 none :: Event.Members ms2 none ::
        Event.GetLocalInstance loc :: (Event.Members ms3 none :: Event.GetInstances insts :: l ++
          (Event.Members ms4 none :: Event.GetLocalInstance loc4 ::
            (if contains (ms4.map (fun member => member.PeerURL)) (peerURL loc4.PrivateIP)
              then [] else [Event.AddMember (peerURL loc4.PrivateIP) none]))), ms5, ?_⟩⟩
      rw [htr, htr3]
      rfl
    · rw [hres3] at h
      exact Option.noConfusion h

/-- The join case on a cluster whose `AddMember` fails: the run returns the
wrapped error after the failing `AddMember` call. -/
theorem error_propagation_witness :
    ((GenerateEtcdFlags fakeWorld).result joinAddFailsState).1 = "" ∧
    ((∃ pre ms, (GenerateEtcdFlags fakeWorld).trace joinAddFailsState =
        pre ++ [Event.Members ms (some ("unexpected error when adding new member URL " ++
          "http://10.50.199.1:2380: failed to add etcd member"))]) ∨
      (∃ pre u e, (GenerateEtcdFlags fakeWorld).trace joinAddFailsState =
          pre ++ [Event.AddMember u (some e)] ∧
        "unexpected error when adding new member URL " ++
          "http://10.50.199.1:2380: failed to add etcd member" =
          "unexpected error when adding new member URL " ++ u ++ ": " ++ e)) :=
  error_propagation fakeWorld joinAddFailsState _ (by rw [joinAddFails_result]; decide)

/-- C16, as stated, fails: on a cluster whose `AddMember` returns the error
`failed to add etcd member`, the only failing call of the run is that
`AddMember` call, and the error returned to the caller is a different one. -/
theorem error_propagation_counterexample :
    (GenerateEtcdFlags fakeWorld).trace joinAddFailsState =
      [Event.Members staleMembers none, Event.Members staleMembers none,
        Event.GetLocalInstance { InstanceID := "e2", PrivateIP := "10.50.199.1" },
        Event.Members staleMembers none, Event.GetInstances testInstances,
        Event.RemoveMember "http://10.50.65.2:2380" none,
        Event.RemoveMember "http://10.50.44.44:2380" none,
        Event.Members [{ Name := "e1", PeerURL := "http://10.50.99.1:2380" }] none,
        Event.GetLocalInstance { InstanceID := "e2", PrivateIP := "10.50.199.1" },
        Event.AddMember "http://10.50.199.1:2380" (some "failed to add etcd member")] ∧
    ((GenerateEtcdFlags fakeWorld).result joinAddFailsState).2 =
      some ("unexpected error when adding new member URL http://10.50.199.1:2380: " ++
        "failed to add etcd member") ∧
    ((GenerateEtcdFlags fakeWorld).result joinAddFailsState).2 ≠
      some "failed to add etcd member" := by
  refine ⟨by rw [joinAddFails_trace]; rfl, by rw [joinAddFails_result], ?_⟩
  rw [joinAddFails_result]
  decide

end Protocol

section OutputFile

variable {σ φ : Type}

/-- C17. No partial file: when `GenerateEtcdFlags` returns an error,
`GenerateEtcdFlagsFile` returns that error, issues no `WriteFile` call and
leaves the file-system state as it was; when `GenerateEtcdFlags` returns a nil
error, `GenerateEtcdFlagsFile` issues exactly one `WriteFile` call, for the
output file name, with exactly the generated text and mode 0644, and returns
the error of that call. -/
theorem no_partial_file (w : World σ) (fs : FileSystem φ) (outputFilename : String) (s : σ)
    (f : φ) :
    (∀ e, ((GenerateEtcdFlags w).result s).2 = some e →
      GenerateEtcdFlagsFile w fs outputFilename s f =
        (some e, (GenerateEtcdFlags w).final s, (GenerateEtcdFlags w).trace s, f, [])) ∧
    (((GenerateEtcdFlags w).result s).2 = none →
      GenerateEtcdFlagsFile w fs outputFilename s f =
        ((fs.WriteFile outputFilename ((GenerateEtcdFlags w).result s).1 0o644 f).1,
         (GenerateEtcdFlags w).final s, (GenerateEtcdFlags w).trace s,
         (fs.WriteFile outputFilename ((GenerateEtcdFlags w).result s).1 0o644 f).2,
         [{ filename := outputFilename, data := ((GenerateEtcdFlags w).result s).1,
            perm := 0o644 }])) := by
  rcases hrun : (GenerateEtcdFlags w).run s with ⟨⟨text, err⟩, s1, t⟩
  rw [Prog.result_of_run hrun, Prog.final_of_run hrun, Prog.trace_of_run hrun]
  constructor
  · intro e he
    have herr : err = some e := he
    subst herr
    simp only [GenerateEtcdFlagsFile, hrun, Option.isSome_some, if_true]
  · intro he
    have herr : err = none := he
    subst herr
    simp [GenerateEtcdFlagsFile, hrun, writeToFile]

/-- The output file of the tests' cases: the failing query leaves the old
content and issues no write; the founding case writes the generated text. -/
theorem no_partial_file_witness :
    GenerateEtcdFlagsFile fakeWorld fakeFileSystem "/var/run/etcd-bootstrap.conf"
        queryFailsState [("/var/run/etcd-bootstrap.conf", "old")] =
      (some "failed to get etcd members", (GenerateEtcdFlags fakeWorld).final queryFailsState,
        (GenerateEtcdFlags fakeWorld).trace queryFailsState,
        [("/var/run/etcd-bootstrap.conf", "old")], []) ∧
    GenerateEtcdFlagsFile fakeWorld fakeFileSystem "/var/run/etcd-bootstrap.conf"
        foundingState [("/var/run/etcd-bootstrap.conf", "old")] =
      (none, (GenerateEtcdFlags fakeWorld).final foundingState,
        (GenerateEtcdFlags fakeWorld).trace foundingState,
        [("/var/run/etcd-bootstrap.conf", ((GenerateEtcdFlags fakeWorld).result foundingState).1)],
        [{ filename := "/var/run/etcd-bootstrap.conf",
           data := ((GenerateEtcdFlags fakeWorld).result foundingState).1, perm := 0o644 }]) :=
  ⟨(no_partial_file fakeWorld fakeFileSystem "/var/run/etcd-bootstrap.conf" queryFailsState
      [("/var/run/etcd-bootstrap.conf", "old")]).1 "failed to get etcd members"
      (by set_option maxRecDepth 100000 in decide),
   (no_partial_file fakeWorld fakeFileSystem "/var/run/etcd-bootstrap.conf" foundingState
      [("/var/run/etcd-bootstrap.conf", "old")]).2
      (by set_option maxRecDepth 100000 in decide)⟩

end OutputFile

section Snapshot

variable {σ : Type}

theorem getInstancesCalls_append (a b : List Event) :
    getInstancesCalls (a ++ b) = getInstancesCalls a ++ getInstancesCalls b := by
  induction a with
  | nil => rfl
  | cons ev rest ih => cases ev <;> simp [getInstancesCalls, ih]

theorem getInstancesCalls_of_only_removes (l : List Event)
    (h : ∀ ev ∈ l, ∃ u r, ev = Event.RemoveMember u r) : getInstancesCalls l = [] := by
  induction l with
  | nil => rfl
  | cons ev rest ih =>
    obtain ⟨u, e, rfl⟩ := h ev (List.mem_cons_self _ _)
    simp only [getInstancesCalls]
    exact ih (fun ev hev => h ev (List.mem_cons_of_mem _ hev))

theorem getInstancesCalls_of_decomposition (pre mid post : List Event)
    (insts insts1 : List Instance) (hpre : getInstancesCalls pre = [])
    (hmid : getInstancesCalls mid = []) (hpost : getInstancesCalls post = []) :
    getInstancesCalls (pre ++ Event.GetInstances insts :: (mid ++ Event.GetInstances insts1 :: post))
      = [insts, insts1] := by
  rw [getInstancesCalls_append, hpre]
  simp only [getInstancesCalls, List.nil_append]
  rw [getInstancesCalls_append, hmid]
  simp only [getInstancesCalls, List.nil_append, hpost]

/-- C19. Single inventory snapshot per phase: every run that returns a nil
error calls `GetInstances()` exactly twice, and its calls are: a part `pre`
without `GetInstances`, `AddMember` or `RemoveMember`; the first
`GetInstances()` call; a part `mid` without `GetInstances` (it holds every
`RemoveMember` and `AddMember` call); the second `GetInstances()` call; and a
part `post` without `GetInstances`, `AddMember` or `RemoveMember`. -/
theorem single_inventory_snapshot (w : World σ) (s : σ)
    (hok : ((GenerateEtcdFlags w).result s).2 = none) :
    (getInstancesCalls ((GenerateEtcdFlags w).trace s)).length = 2 ∧
    ∃ pre insts mid insts1 post,
      (GenerateEtcdFlags w).trace s =
        pre ++ Event.GetInstances insts :: (mid ++ Event.GetInstances insts1 :: post) ∧
      getInstancesCalls pre = [] ∧ getInstancesCalls mid = [] ∧ getInstancesCalls post = [] ∧
      addCalls pre = [] ∧ removeCalls pre = [] ∧ addCalls post = [] ∧ removeCalls post = [] := by
  have key : ∃ pre insts mid insts1 post,
      (GenerateEtcdFlags w).trace s =
        pre ++ Event.GetInstances insts :: (mid ++ Event.GetInstances insts1 :: post) ∧
      getInstancesCalls pre = [] ∧ getInstancesCalls mid = [] ∧ getInstancesCalls post = [] ∧
      addCalls pre = [] ∧ removeCalls pre = [] ∧ addCalls post = [] ∧ removeCalls post = [] := by
    rcases GenerateEtcdFlags_shape w s with
      ⟨ms1, e, hres, _⟩ | ⟨insts, insts1, loc1, rest, _, htr⟩ | ⟨ms1, ms2, e, _, hres, _⟩ |
      ⟨ms1, ms2, loc, insts, insts1, loc1, rest, _, _, _, htr⟩ |
      ⟨ms1, ms2, loc, s3, _, _, hres, htr⟩
    · rw [hres] at hok
      exact Option.noConfusion hok
    · exact ⟨[Event.Members [] none], insts, [], insts1, [Event.GetLocalInstance loc1],
        by rw [htr]; rfl, rfl, rfl, rfl, rfl, rfl, rfl, rfl⟩
    · rw [hres] at hok
      exact Option.noConfusion hok
    · exact ⟨[Event.Members ms1 none, Event.Members ms2 none, Event.GetLocalInstance loc], insts,
        [], insts1, [Event.GetLocalInstance loc1],
        by rw [htr]; rfl, rfl, rfl, rfl, rfl, rfl, rfl, rfl⟩
    · rw [hres] at hok
      rcases bootstrapNewNode_shape w s3 with
        ⟨ms3, e3, hres3, _⟩ | ⟨ms3, insts, l, ms4, e4, _, hres3, _⟩ |
        ⟨ms3, insts, l, ms4, loc4, ea, _, _, hres3, _⟩ |
        ⟨ms3, insts, l, ms4, loc4, ms5, e5, _, hres3, _⟩ |
        ⟨ms3, insts, l, ms4, loc4, ms5, insts1, loc1, rest, hl, _, htr3⟩
      · rw [hres3] at hok
        exact Option.noConfusion hok
      · rw [hres3] at hok
        exact Option.noConfusion hok
      · rw [hres3] at hok
        exact Option.noConfusion hok
      · rw [hres3] at hok
        exact Option.noConfusion hok
      · refine ⟨[Event.Members ms1 none, Event.Members ms2 none, Event.GetLocalInstance loc,
            Event.Members ms3 none], insts,
          l ++ (Event.Members ms4 none :: Event.GetLocalInstance loc4 ::
            (if contains (ms4.map (fun member => member.PeerURL)) (peerURL loc4.PrivateIP)
              then [] else [Event.AddMember (peerURL loc4.PrivateIP) none])) ++
            [Event.Members ms5 none],
          insts1, [Event.GetLocalInstance loc1], ?_, rfl, ?_, rfl, rfl, rfl, rfl, rfl⟩
        · rw [htr, htr3]
          simp only [List.cons_append, List.nil_append, List.append_assoc]
        · rw [getInstancesCalls_append, getInstancesCalls_append,
            getInstancesCalls_of_only_removes l hl]
          cases hc : contains (ms4.map (fun member => member.PeerURL))
            (peerURL loc4.PrivateIP) <;> rfl
  refine ⟨?_, key⟩
  obtain ⟨pre, insts, mid, insts1, post, htr, hpre, hmid, hpost, _⟩ := key
  rw [htr, getInstancesCalls_of_decomposition pre mid post insts insts1 hpre hmid hpost]
  rfl

/-- The join case of the tests calls `GetInstances()` twice. -/
theorem single_inventory_snapshot_witness :
    (getInstancesCalls ((GenerateEtcdFlags fakeWorld).trace joinState)).length = 2 :=
  (single_inventory_snapshot fakeWorld joinState (by rw [joinState_result])).1

end Snapshot

section PeerSet

variable {σ : Type}

/-- The result of the join case on a cluster whose `RemoveMember` always fails:
ea and eb stay members, and the roster is e1, e2. -/
theorem joinRemoveFails_result :
    (GenerateEtcdFlags fakeWorld).result joinRemoveFailsState =
      ("ETCD_INITIAL_CLUSTER_STATE=existing\n" ++
        "ETCD_INITIAL_CLUSTER=e1=http://10.50.99.1:2380,e2=http://10.50.199.1:2380\n" ++
        "ETCD_NAME=e2\n" ++
        "ETCD_INITIAL_ADVERTISE_PEER_URLS=http://10.50.199.1:2380\n" ++
        "ETCD_LISTEN_PEER_URLS=http://10.50.199.1:2380\n" ++
        "ETCD_LISTEN_CLIENT_URLS=http://10.50.199.1:2379,http://127.0.0.1:2379\n" ++
        "ETCD_ADVERTISE_CLIENT_URLS=http://10.50.199.1:2379\n", none) := by
  set_option maxRecDepth 100000 in decide

/-- C18, as amended. On every run of the existing branch that returns a nil
error, with `ms5` the member list returned by the query made after
reconciliation and `insts1` the inventory used for rendering, the peer URLs
rendered in `ETCD_INITIAL_CLUSTER` are exactly the `PeerURL`s of `ms5` that are
also the peer URL of an instance of `insts1`: no rendered entry is a
non-member, and a member is rendered exactly when it is in the inventory. -/
theorem rendered_peers_are_inventory_members (w : World σ) (s s1 s2 s3 : σ)
    (ms1 ms2 : List Member) (loc : Instance) (h1 : w.Members s = ((ms1, none), s1))
    (hne : ms1 ≠ []) (h2 : w.Members s1 = ((ms2, none), s2))
    (h3 : w.GetLocalInstance s2 = (loc, s3))
    (hno : ∀ m ∈ ms2, ¬ (m.PeerURL = peerURL loc.PrivateIP ∧ m.Name ≠ ""))
    (hok : ((GenerateEtcdFlags w).result s).2 = none) :
    ∃ ms5 insts1 loc1 rest,
      (GenerateEtcdFlags w).trace s =
        Event.Members ms1 none :: Event.Members ms2 none :: Event.GetLocalInstance loc ::
          ((reconcileMembers w).trace s3 ++
            [Event.Members ms5 none, Event.GetInstances insts1, Event.GetLocalInstance loc1]) ∧
      ((GenerateEtcdFlags w).result s).1 =
        "ETCD_INITIAL_CLUSTER_STATE=existing\n" ++ "ETCD_INITIAL_CLUSTER=" ++
          String.intercalate ","
            ((insts1.filter
                (fun i => decide (peerURL i.PrivateIP ∈ ms5.map (fun m => m.PeerURL)))).map
              (fun i => i.InstanceID ++ "=" ++ peerURL i.PrivateIP)) ++ "\n" ++ rest ∧
      ∀ u, u ∈ (insts1.filter
              (fun i => decide (peerURL i.PrivateIP ∈ ms5.map (fun m => m.PeerURL)))).map
            (fun i => peerURL i.PrivateIP) ↔
          (u ∈ ms5.map (fun m => m.PeerURL) ∧ u ∈ insts1.map (fun i => peerURL i.PrivateIP)) := by
  obtain ⟨ms5, insts1, loc1, rest, htr, hres⟩ :=
    existing_branch_success_shape w s s1 s2 s3 ms1 ms2 loc h1 hne h2 h3 hno hok
  refine ⟨ms5, insts1, loc1, rest, htr, hres, ?_⟩
  intro u
  constructor
  · intro hu
    obtain ⟨i, hi, heq⟩ := List.mem_map.mp hu
    have hf := List.mem_filter.mp hi
    rw [← heq]
    exact ⟨of_decide_eq_true hf.2, List.mem_map.mpr ⟨i, hf.1, rfl⟩⟩
  · rintro ⟨hm, hin⟩
    obtain ⟨i, hi, heq⟩ := List.mem_map.mp hin
    rw [← heq] at hm
    rw [← heq]
    exact List.mem_map.mpr ⟨i, List.mem_filter.mpr ⟨hi, decide_eq_true hm⟩, rfl⟩

/-- The join case on a cluster whose `RemoveMember` always fails. -/
theorem rendered_peers_are_inventory_members_witness :
    ∃ ms5 insts1 loc1 rest,
      (GenerateEtcdFlags fakeWorld).trace joinRemoveFailsState =
        Event.Members staleMembers none :: Event.Members staleMembers none ::
          Event.GetLocalInstance { InstanceID := "e2", PrivateIP := "10.50.199.1" } ::
          ((reconcileMembers fakeWorld).trace joinRemoveFailsState ++
            [Event.Members ms5 none, Event.GetInstances insts1, Event.GetLocalInstance loc1]) ∧
      ((GenerateEtcdFlags fakeWorld).result joinRemoveFailsState).1 =
        "ETCD_INITIAL_CLUSTER_STATE=existing\n" ++ "ETCD_INITIAL_CLUSTER=" ++
          String.intercalate ","
            ((insts1.filter
                (fun i => decide (peerURL i.PrivateIP ∈ ms5.map (fun m => m.PeerURL)))).map
              (fun i => i.InstanceID ++ "=" ++ peerURL i.PrivateIP)) ++ "\n" ++ rest ∧
      ∀ u, u ∈ (insts1.filter
              (fun i => decide (peerURL i.PrivateIP ∈ ms5.map (fun m => m.PeerURL)))).map
            (fun i => peerURL i.PrivateIP) ↔
          (u ∈ ms5.map (fun m => m.PeerURL) ∧ u ∈ insts1.map (fun i => peerURL i.PrivateIP)) :=
  rendered_peers_are_inventory_members fakeWorld joinRemoveFailsState joinRemoveFailsState
    joinRemoveFailsState joinRemoveFailsState staleMembers staleMembers
    { InstanceID := "e2", PrivateIP := "10.50.199.1" }
    rfl (by decide) rfl rfl (by decide) (by rw [joinRemoveFails_result])

/-- C18, as stated, fails: on a cluster whose `RemoveMember` fails, the run
succeeds on the existing branch, the final `Members()` query returns e1, ea,
eb and the added e2, the rendered roster is built from e1 and e2 only, and the
member ea's peer URL is not among the rendered peer URLs. -/
theorem exact_match_counterexample :
    (GenerateEtcdFlags fakeWorld).trace joinRemoveFailsState =
      [Event.Members staleMembers none, Event.Members staleMembers none,
        Event.GetLocalInstance { InstanceID := "e2", PrivateIP := "10.50.199.1" },
        Event.Members staleMembers none, Event.GetInstances testInstances,
        Event.RemoveMember "http://10.50.65.2:2380" (some "failed to remove etcd members"),
        Event.RemoveMember "http://10.50.44.44:2380" (some "failed to remove etcd members"),
        Event.Members staleMembers none,
        Event.GetLocalInstance { InstanceID := "e2", PrivateIP := "10.50.199.1" },
        Event.AddMember "http://10.50.199.1:2380" none] ++
      [Event.Members (staleMembers ++ [Member.mk "" "http://10.50.199.1:2380"])
          none,
        Event.GetInstances testInstances,
        Event.GetLocalInstance { InstanceID := "e2", PrivateIP := "10.50.199.1" }] ∧
    (GenerateEtcdFlags fakeWorld).result joinRemoveFailsState =
      ("ETCD_INITIAL_CLUSTER_STATE=existing\n" ++ "ETCD_INITIAL_CLUSTER=" ++
        String.intercalate ","
          ((testInstances.filter
              (fun i => decide (peerURL i.PrivateIP ∈
                (staleMembers ++ [Member.mk "" "http://10.50.199.1:2380"]).map
                  (fun m => m.PeerURL)))).map
            (fun i => i.InstanceID ++ "=" ++ peerURL i.PrivateIP)) ++ "\n" ++
        "ETCD_NAME=e2\n" ++
        "ETCD_INITIAL_ADVERTISE_PEER_URLS=http://10.50.199.1:2380\n" ++
        "ETCD_LISTEN_PEER_URLS=http://10.50.199.1:2380\n" ++
        "ETCD_LISTEN_CLIENT_URLS=http://10.50.199.1:2379,http://127.0.0.1:2379\n" ++
        "ETCD_ADVERTISE_CLIENT_URLS=http://10.50.199.1:2379\n", none) ∧
    (testInstances.filter
        (fun i => decide (peerURL i.PrivateIP ∈
          (staleMembers ++ [Member.mk "" "http://10.50.199.1:2380"]).map
            (fun m => m.PeerURL)))).map (fun i => peerURL i.PrivateIP) =
      ["http://10.50.99.1:2380", "http://10.50.199.1:2380"] ∧
    ¬ (∀ u, u ∈ (testInstances.filter
            (fun i => decide (peerURL i.PrivateIP ∈
              (staleMembers ++ [Member.mk "" "http://10.50.199.1:2380"]).map
                (fun m => m.PeerURL)))).map (fun i => peerURL i.PrivateIP) ↔
        u ∈ (staleMembers ++ [Member.mk "" "http://10.50.199.1:2380"]).map
          (fun m => m.PeerURL)) := by
  refine ⟨by rw [joinRemoveFails_trace]; rfl, ?_, by decide, ?_⟩
  · rw [joinRemoveFails_result]
    set_option maxRecDepth 100000 in decide
  · intro h
    exact absurd ((h "http://10.50.65.2:2380").mpr (by decide)) (by decide)

end PeerSet

section Faithful

variable {σ : Type}

theorem fakeWorld_faithful :
    FaithfulCluster fakeWorld (fun s => s.members) (fun s => s.instances)
      (fun s => s.localInstance) where
  getInstances_out _ := rfl
  getLocalInstance_out _ := rfl
  members_out _ _ := rfl
  getInstances_mem _ := rfl
  getLocalInstance_mem _ := rfl
  members_mem _ := rfl
  addMember_mem u s := by
    cases h : s.addErr <;> simp [fakeWorld, h]
  removeMember_mem u s := by
    cases h : s.removeErr <;> simp [fakeWorld, h]
  getInstances_cloud _ := ⟨rfl, rfl⟩
  getLocalInstance_cloud _ := ⟨rfl, rfl⟩
  members_cloud _ := ⟨rfl, rfl⟩
  addMember_cloud u s := by
    cases h : s.addErr <;> simp [fakeWorld, h]
  removeMember_cloud u s := by
    cases h : s.removeErr <;> simp [fakeWorld, h]

theorem removeLoop_cloud (w : World σ) (mem : σ → List Member) (inv : σ → List Instance)
    (lcl : σ → Instance) (F : FaithfulCluster w mem inv lcl) (instanceURLs : List String)
    (memberURLs : List String) (t : σ) :
    inv ((removeLoop w instanceURLs memberURLs).final t) = inv t ∧
    lcl ((removeLoop w instanceURLs memberURLs).final t) = lcl t := by
  induction memberURLs generalizing t with
  | nil => exact ⟨rfl, rfl⟩
  | cons u rest ih =>
    have hfin : (removeLoop w instanceURLs (u :: rest)).final t =
        (removeLoop w instanceURLs rest).final
          (if contains instanceURLs u = true then t else (w.RemoveMember u t).2) := by
      cases hc : contains instanceURLs u <;>
        simp [Prog.final, removeLoop, hc, Prog.run_bind, Prog.run_pure, removeMember_run]
    rw [hfin]
    split
    · exact ih t
    · rw [(ih _).1, (ih _).2]
      exact F.removeMember_cloud u t

theorem removeOldEtcdMembers_cloud (w : World σ) (mem : σ → List Member)
    (inv : σ → List Instance) (lcl : σ → Instance) (F : FaithfulCluster w mem inv lcl) (t : σ) :
    inv ((removeOldEtcdMembers w).final t) = inv t ∧
    lcl ((removeOldEtcdMembers w).final t) = lcl t := by
  rcases hM : w.Members t with ⟨⟨ms, err⟩, s1⟩
  have hs1 : s1 = (w.Members t).2 := by rw [hM]
  cases err with
  | some e =>
    rw [Prog.final_of_run (removeOldEtcdMembers_run_err w t s1 ms e hM), hs1]
    exact F.members_cloud t
  | none =>
    rcases hg : w.GetInstances s1 with ⟨insts, s2⟩
    have hs2 : s2 = (w.GetInstances s1).2 := by rw [hg]
    rw [Prog.final_of_run (removeOldEtcdMembers_run_ok w t s1 s2 ms insts hM hg)]
    have hloop := removeLoop_cloud w mem inv lcl F (insts.map (fun i => peerURL i.PrivateIP))
      (ms.map (fun member => member.PeerURL)) s2
    rw [hloop.1, hloop.2, hs2, (F.getInstances_cloud s1).1, (F.getInstances_cloud s1).2, hs1]
    exact F.members_cloud t

theorem addLocalInstanceToEtcd_success (w : World σ) (mem : σ → List Member)
    (inv : σ → List Instance) (lcl : σ → Instance) (F : FaithfulCluster w mem inv lcl) (t : σ)
    (hok : (addLocalInstanceToEtcd w).result t = none) :
    inv ((addLocalInstanceToEtcd w).final t) = inv t ∧
    lcl ((addLocalInstanceToEtcd w).final t) = lcl t ∧
    peerURL (lcl t).PrivateIP ∈
      (mem ((addLocalInstanceToEtcd w).final t)).map (fun m => m.PeerURL) := by
  rcases hM : w.Members t with ⟨⟨ms, err⟩, s1⟩
  have hs1 : s1 = (w.Members t).2 := by rw [hM]
  cases err with
  | some e =>
    rw [Prog.result_of_run (addLocalInstanceToEtcd_run_err w t s1 ms e hM)] at hok
    exact Option.noConfusion hok
  | none =>
    have hms : ms = mem t := by
      have := F.members_out t (by rw [hM])
      rw [hM] at this
      exact this
    rcases hl : w.GetLocalInstance s1 with ⟨loc, s2⟩
    have hs2 : s2 = (w.GetLocalInstance s1).2 := by rw [hl]
    have hloc : loc = lcl t := by
      have hout : (w.GetLocalInstance s1).1 = lcl s1 := F.getLocalInstance_out s1
      rw [hl] at hout
      have hout2 : loc = lcl s1 := hout
      rw [hout2, hs1]
      exact (F.members_cloud t).2
    have hinv2 : inv s2 = inv t := by
      rw [hs2, (F.getLocalInstance_cloud s1).1, hs1]
      exact (F.members_cloud t).1
    have hlcl2 : lcl s2 = lcl t := by
      rw [hs2, (F.getLocalInstance_cloud s1).2, hs1]
      exact (F.members_cloud t).2
    have hmem2 : mem s2 = mem t := by
      rw [hs2, F.getLocalInstance_mem, hs1, F.members_mem]
    cases hc : contains (ms.map (fun member => member.PeerURL)) (peerURL loc.PrivateIP) with
    | true =>
      rw [Prog.final_of_run (addLocalInstanceToEtcd_run_present w t s1 s2 ms loc hM hl hc)]
      refine ⟨hinv2, hlcl2, ?_⟩
      rw [hmem2, ← hms, ← hloc]
      exact (contains_iff _ _).mp hc
    | false =>
      rcases ha : w.AddMember (peerURL loc.PrivateIP) s2 with ⟨ea, s3⟩
      have hs3 : s3 = (w.AddMember (peerURL loc.PrivateIP) s2).2 := by rw [ha]
      cases ea with
      | some e =>
        rw [Prog.result_of_run
          (addLocalInstanceToEtcd_run_add_fails w t s1 s2 s3 ms loc e hM hl hc ha)] at hok
        exact Option.noConfusion hok
      | none =>
        rw [Prog.final_of_run (addLocalInstanceToEtcd_run_added w t s1 s2 s3 ms loc hM hl hc ha)]
        have hadd := F.addMember_mem (peerURL loc.PrivateIP) s2
        rw [ha] at hadd
        simp only [if_true] at hadd
        refine ⟨?_, ?_, ?_⟩
        · rw [hs3, (F.addMember_cloud _ s2).1, hinv2]
        · rw [hs3, (F.addMember_cloud _ s2).2, hlcl2]
        · rw [hadd, ← hloc]
          simp

theorem reconcileMembers_success (w : World σ) (t : σ)
    (hok : (reconcileMembers w).result t = none) :
    (addLocalInstanceToEtcd w).result ((removeOldEtcdMembers w).final t) = none ∧
    (reconcileMembers w).final t =
      (addLocalInstanceToEtcd w).final ((removeOldEtcdMembers w).final t) := by
  have hrun := reconcileMembers_run w t
  cases hrm : (removeOldEtcdMembers w).result t with
  | some e =>
    rw [hrm] at hrun
    have h2 : (reconcileMembers w).run t = (removeOldEtcdMembers w).run t := hrun
    have h3 : (reconcileMembers w).result t = (removeOldEtcdMembers w).result t := by
      unfold Prog.result
      rw [h2]
    rw [h3, hrm] at hok
    exact Option.noConfusion hok
  | none =>
    rw [hrm] at hrun
    have h2 : (reconcileMembers w).run t =
        ((addLocalInstanceToEtcd w).result ((removeOldEtcdMembers w).final t),
         (addLocalInstanceToEtcd w).final ((removeOldEtcdMembers w).final t),
         (removeOldEtcdMembers w).trace t ++
           (addLocalInstanceToEtcd w).trace ((removeOldEtcdMembers w).final t)) := hrun
    rw [Prog.result_of_run h2] at hok
    exact ⟨hok, Prog.final_of_run h2⟩

theorem mem_initialClusterEntries (avail : List String) (insts : List Instance) (i : Instance)
    (hi : i ∈ insts) (ha : peerURL i.PrivateIP ∈ avail) :
    i.InstanceID ++ "=" ++ peerURL i.PrivateIP ∈ initialClusterEntries avail insts := by
  rw [initialClusterEntries_eq]
  exact List.mem_map.mpr ⟨i, List.mem_filter.mpr ⟨hi, decide_eq_true ha⟩, rfl⟩

theorem bootstrapNewCluster_two_lines (w : World σ) (s : σ) :
    ∃ rest, (bootstrapNewCluster w).result s =
      "ETCD_INITIAL_CLUSTER_STATE=" ++ newCluster ++ "\n" ++ "ETCD_INITIAL_CLUSTER=" ++
        String.intercalate ","
          (initialClusterEntries ((w.GetInstances s).1.map (fun i => peerURL i.PrivateIP))
            (w.GetInstances (w.GetInstances s).2).1) ++ "\n" ++ rest := by
  obtain ⟨rest, hr⟩ := createEtcdConfig_two_lines w newCluster
    ((w.GetInstances s).1.map (fun i => peerURL i.PrivateIP)) (w.GetInstances s).2
  refine ⟨rest, ?_⟩
  simp only [Prog.result] at hr ⊢
  simp only [bootstrapNewCluster, getInstancePeerURLs, Prog.run_bind, Prog.run_pure,
    getInstances_run, hr]

theorem new_branch_local_entry (w : World σ) (mem : σ → List Member) (inv : σ → List Instance)
    (lcl : σ → Instance) (F : FaithfulCluster w mem inv lcl) (s sA : σ)
    (hinv : inv sA = inv s) (hloc : lcl s ∈ inv s) :
    ∃ st avail rest,
      (bootstrapNewCluster w).result sA =
        "ETCD_INITIAL_CLUSTER_STATE=" ++ st ++ "\n" ++ "ETCD_INITIAL_CLUSTER=" ++
          String.intercalate "," (initialClusterEntries avail (inv s)) ++ "\n" ++ rest ∧
      (lcl s).InstanceID ++ "=" ++ peerURL (lcl s).PrivateIP ∈
        initialClusterEntries avail (inv s) := by
  obtain ⟨rest, hr⟩ := bootstrapNewCluster_two_lines w sA
  have hg1 : (w.GetInstances sA).1 = inv s := by rw [F.getInstances_out, hinv]
  have hg2 : (w.GetInstances (w.GetInstances sA).2).1 = inv s := by
    rw [F.getInstances_out, (F.getInstances_cloud sA).1, hinv]
  rw [hg1, hg2] at hr
  refine ⟨newCluster, (inv s).map (fun i => peerURL i.PrivateIP), rest, ?_, ?_⟩
  · exact hr
  · exact mem_initialClusterEntries _ _ (lcl s) hloc (List.mem_map.mpr ⟨lcl s, hloc, rfl⟩)

/-- C20. Local node is always in its own roster: against a faithful in-memory
cluster whose inventory contains the local instance, every run that returns a
nil error, on either branch, returns a text that begins with the state line
followed by the line `ETCD_INITIAL_CLUSTER=` built from the inventory filtered
by a list `avail`, and the entry `<local.InstanceID>=peerURL(local.PrivateIP)`
is one of the rendered entries. -/
theorem local_in_own_roster (w : World σ) (mem : σ → List Member) (inv : σ → List Instance)
    (lcl : σ → Instance) (F : FaithfulCluster w mem inv lcl) (s : σ) (hloc : lcl s ∈ inv s)
    (hok : ((GenerateEtcdFlags w).result s).2 = none) :
    ∃ st avail rest,
      ((GenerateEtcdFlags w).result s).1 =
        "ETCD_INITIAL_CLUSTER_STATE=" ++ st ++ "\n" ++ "ETCD_INITIAL_CLUSTER=" ++
          String.intercalate "," (initialClusterEntries avail (inv s)) ++ "\n" ++ rest ∧
      (lcl s).InstanceID ++ "=" ++ peerURL (lcl s).PrivateIP ∈
        initialClusterEntries avail (inv s) := by
  rcases h1 : w.Members s with ⟨⟨ms1, e1⟩, s1⟩
  have hs1 : s1 = (w.Members s).2 := by rw [h1]
  have hinv1 : inv s1 = inv s := by rw [hs1]; exact (F.members_cloud s).1
  have hlcl1 : lcl s1 = lcl s := by rw [hs1]; exact (F.members_cloud s).2
  cases e1 with
  | some e =>
    rw [Prog.result_of_run (GenerateEtcdFlags_run_first_query_err w s s1 ms1 e h1)] at hok
    exact Option.noConfusion hok
  | none =>
    by_cases hne : ms1 = []
    · subst hne
      rw [Prog.result_of_run (GenerateEtcdFlags_run_no_members w s s1 h1)]
      exact new_branch_local_entry w mem inv lcl F s s1 hinv1 hloc
    · rcases h2 : w.Members s1 with ⟨⟨ms2, e2⟩, s2⟩
      have hs2 : s2 = (w.Members s1).2 := by rw [h2]
      have hinv2 : inv s2 = inv s := by rw [hs2, (F.members_cloud s1).1, hinv1]
      have hlcl2 : lcl s2 = lcl s := by rw [hs2, (F.members_cloud s1).2, hlcl1]
      cases e2 with
      | some e =>
        rw [Prog.result_of_run
          (GenerateEtcdFlags_run_second_query_err w s s1 s2 ms1 ms2 e h1 hne h2)] at hok
        exact Option.noConfusion hok
      | none =>
        rcases h3 : w.GetLocalInstance s2 with ⟨loc, s3⟩
        have hs3 : s3 = (w.GetLocalInstance s2).2 := by rw [h3]
        have hinv3 : inv s3 = inv s := by rw [hs3, (F.getLocalInstance_cloud s2).1, hinv2]
        have hlcl3 : lcl s3 = lcl s := by rw [hs3, (F.getLocalInstance_cloud s2).2, hlcl2]
        cases hex : nodeExistsLoop (peerURL loc.PrivateIP) ms2 with
        | true =>
          rw [Prog.result_of_run
            (GenerateEtcdFlags_run_registered w s s1 s2 s3 ms1 ms2 loc h1 hne h2 h3 hex)]
          exact new_branch_local_entry w mem inv lcl F s s3 hinv3 hloc
        | false =>
          have hrun := GenerateEtcdFlags_run_joining w s s1 s2 s3 ms1 ms2 loc h1 hne h2 h3 hex
          rw [Prog.result_of_run hrun] at hok ⊢
          cases hrec : (reconcileMembers w).result s3 with
          | some e =>
            rw [Prog.result_of_run (bootstrapNewNode_run_reconcile_err w s3 e hrec)] at hok
            exact Option.noConfusion hok
          | none =>
            obtain ⟨hadd, hfin⟩ := reconcileMembers_success w s3 hrec
            have hrm := removeOldEtcdMembers_cloud w mem inv lcl F s3
            obtain ⟨hinvA, hlclA, hmemA⟩ := addLocalInstanceToEtcd_success w mem inv lcl F
              ((removeOldEtcdMembers w).final s3) hadd
            rw [← hfin] at hinvA hlclA hmemA
            rw [hrm.1, hinv3] at hinvA
            rw [hrm.2, hlcl3] at hmemA
            rcases hq : w.Members ((reconcileMembers w).final s3) with ⟨⟨ms5, e5⟩, s4⟩
            have hs4 : s4 = (w.Members ((reconcileMembers w).final s3)).2 := by rw [hq]
            cases e5 with
            | some e =>
              rw [Prog.result_of_run
                (bootstrapNewNode_run_query_err w s3 s4 ms5 e hrec hq)] at hok
              exact Option.noConfusion hok
            | none =>
              have hms5 : ms5 = mem ((reconcileMembers w).final s3) := by
                have := F.members_out ((reconcileMembers w).final s3) (by rw [hq])
                rw [hq] at this
                exact this
              rw [Prog.result_of_run (bootstrapNewNode_run_ok w s3 s4 ms5 hrec hq)]
              obtain ⟨rest, hr⟩ := createEtcdConfig_two_lines w existingCluster
                (ms5.map (fun member => member.PeerURL)) s4
              have hg : (w.GetInstances s4).1 = inv s := by
                rw [F.getInstances_out, hs4, (F.members_cloud _).1, hinvA]
              rw [hg] at hr
              refine ⟨existingCluster, ms5.map (fun member => member.PeerURL), rest, ?_, ?_⟩
              · exact hr
              · apply mem_initialClusterEntries _ _ (lcl s) hloc
                rw [hms5]
                exact hmemA

/-- The join case of the tests: local e2 is in the inventory and its entry is
in the rendered roster. -/
theorem local_in_own_roster_witness :
    ∃ st avail rest,
      ((GenerateEtcdFlags fakeWorld).result joinState).1 =
        "ETCD_INITIAL_CLUSTER_STATE=" ++ st ++ "\n" ++ "ETCD_INITIAL_CLUSTER=" ++
          String.intercalate "," (initialClusterEntries avail joinState.instances) ++ "\n" ++
          rest ∧
      joinState.localInstance.InstanceID ++ "=" ++ peerURL joinState.localInstance.PrivateIP ∈
        initialClusterEntries avail joinState.instances :=
  local_in_own_roster fakeWorld (fun s => s.members) (fun s => s.instances)
    (fun s => s.localInstance) fakeWorld_faithful joinState (by decide)
    (by rw [joinState_result])

end Faithful

section NoRollback

/-- C22. No rollback on failure: in the join case of the tests on a cluster
whose `AddMember` fails (the members ea and eb are stale, the local peer URL is
not a member) `GenerateEtcdFlags` returns a non-nil error and an empty text
after the two `RemoveMember` calls were issued with a nil error and applied:
the member list after the failed run holds e1 only and is not the one before
the run. -/
theorem no_rollback_on_failure :
    (∃ m ∈ joinAddFailsState.members,
      contains (joinAddFailsState.instances.map (fun i => peerURL i.PrivateIP)) m.PeerURL
        = false) ∧
    contains (joinAddFailsState.members.map (fun member => member.PeerURL))
      (peerURL joinAddFailsState.localInstance.PrivateIP) = false ∧
    joinAddFailsState.addErr ≠ none ∧
    (GenerateEtcdFlags fakeWorld).result joinAddFailsState =
      ("", some ("unexpected error when adding new member URL http://10.50.199.1:2380: " ++
        "failed to add etcd member")) ∧
    (∃ pre post, (GenerateEtcdFlags fakeWorld).trace joinAddFailsState =
      pre ++ Event.RemoveMember "http://10.50.65.2:2380" none ::
        Event.RemoveMember "http://10.50.44.44:2380" none ::
        (post ++ [Event.AddMember "http://10.50.199.1:2380"
          (some "failed to add etcd member")])) ∧
    ((GenerateEtcdFlags fakeWorld).final joinAddFailsState).members =
      [{ Name := "e1", PeerURL := "http://10.50.99.1:2380" }] ∧
    ((GenerateEtcdFlags fakeWorld).final joinAddFailsState).members ≠
      joinAddFailsState.members := by
  refine ⟨⟨{ Name := "ea", PeerURL := "http://10.50.65.2:2380" }, ?_, ?_⟩, ?_, ?_, ?_, ?_, ?_, ?_⟩
  · set_option maxRecDepth 100000 in decide
  · set_option maxRecDepth 100000 in decide
  · set_option maxRecDepth 100000 in decide
  · set_option maxRecDepth 100000 in decide
  · exact joinAddFails_result
  · refine ⟨[Event.Members staleMembers none, Event.Members staleMembers none,
        Event.GetLocalInstance { InstanceID := "e2", PrivateIP := "10.50.199.1" },
        Event.Members staleMembers none, Event.GetInstances testInstances],
      [Event.Members [{ Name := "e1", PeerURL := "http://10.50.99.1:2380" }] none,
        Event.GetLocalInstance { InstanceID := "e2", PrivateIP := "10.50.199.1" }], ?_⟩
    rw [joinAddFails_trace]
    rfl
  · set_option maxRecDepth 100000 in decide
  · set_option maxRecDepth 100000 in decide

end NoRollback

section CloudArgument

theorem validateArguments_ok_iff (cloud : String) :
    validateArguments cloud = Except.ok () ↔ cloud = "aws" ∨ cloud = "vmware" := by
  by_cases ha : cloud = "aws"
  · subst ha
    exact ⟨fun _ => Or.inl rfl, fun _ => rfl⟩
  · by_cases hv : cloud = "vmware"
    · subst hv
      exact ⟨fun _ => Or.inr rfl, fun _ => rfl⟩
    · unfold validateArguments
      have hcond : cloud = "" ∨ (cloud ≠ "aws" ∧ cloud ≠ "vmware") := Or.inr ⟨ha, hv⟩
      rw [if_pos hcond]
      constructor
      · intro h
        exact Except.noConfusion h
      · intro h
        rcases h with h | h
        · exact absurd h ha
        · exact absurd h hv

theorem validateArguments_error_of_not (cloud : String)
    (h : ¬ (cloud = "aws" ∨ cloud = "vmware")) :
    validateArguments cloud =
      Except.error "Cloud argument must be one of \x27aws\x27 or \x27vmware\x27" := by
  unfold validateArguments
  have hcond : cloud = "" ∨ (cloud ≠ "aws" ∧ cloud ≠ "vmware") :=
    Or.inr ⟨fun ha => h (Or.inl ha), fun hv => h (Or.inr hv)⟩
  rw [if_pos hcond]

/-- C23. Cloud argument validation: `validateArguments` returns normally
exactly when the cloud flag is "aws" or "vmware", and aborts with the fatal
message for every other value, the empty string included; `main` then chooses
`bootstrap.LocalVMWare` exactly when the flag is "vmware" and
`bootstrap.LocalASG` exactly when it is "aws". -/
theorem cloud_argument_validation (cloud : String) :
    (validateArguments cloud = Except.ok () ↔ cloud = "aws" ∨ cloud = "vmware") ∧
    (validateArguments cloud =
        Except.error "Cloud argument must be one of \x27aws\x27 or \x27vmware\x27" ↔
      ¬ (cloud = "aws" ∨ cloud = "vmware")) ∧
    validateArguments "" =
      Except.error "Cloud argument must be one of \x27aws\x27 or \x27vmware\x27" ∧
    (mainBootstrapper cloud = Except.ok BootstrapperKind.LocalVMWare ↔ cloud = "vmware") ∧
    (mainBootstrapper cloud = Except.ok BootstrapperKind.LocalASG ↔ cloud = "aws") ∧
    (mainBootstrapper cloud =
        Except.error "Cloud argument must be one of \x27aws\x27 or \x27vmware\x27" ↔
      ¬ (cloud = "aws" ∨ cloud = "vmware")) := by
  have hempty : validateArguments "" =
      Except.error "Cloud argument must be one of \x27aws\x27 or \x27vmware\x27" := rfl
  by_cases ha : cloud = "aws"
  · subst ha
    have hv : validateArguments "aws" = Except.ok () := rfl
    have hm : mainBootstrapper "aws" = Except.ok BootstrapperKind.LocalASG := rfl
    rw [hv, hm]
    simp [hempty]
  · by_cases hv : cloud = "vmware"
    · subst hv
      have hv : validateArguments "vmware" = Except.ok () := rfl
      have hm : mainBootstrapper "vmware" = Except.ok BootstrapperKind.LocalVMWare := rfl
      rw [hv, hm]
      simp [hempty]
    · have hnot : ¬ (cloud = "aws" ∨ cloud = "vmware") := fun h => h.elim ha hv
      have herr := validateArguments_error_of_not cloud hnot
      have hmain : mainBootstrapper cloud =
          Except.error "Cloud argument must be one of \x27aws\x27 or \x27vmware\x27" := by
        unfold mainBootstrapper
        rw [herr]
      refine ⟨validateArguments_ok_iff cloud, ⟨fun _ => hnot, fun _ => herr⟩, hempty,
        ?_, ?_, ⟨fun _ => hnot, fun _ => hmain⟩⟩
      · rw [hmain]
        constructor
        · intro h
          exact Except.noConfusion h
        · intro h
          exact absurd h hv
      · rw [hmain]
        constructor
        · intro h
          exact Except.noConfusion h
        · intro h
          exact absurd h ha

/-- The flag values "aws", "vmware", "gcp" and "AWS": the first two pass the
validation and choose the ASG and the vmware bootstrapper, the others abort. -/
theorem cloud_argument_validation_witness :
    mainBootstrapper "aws" = Except.ok BootstrapperKind.LocalASG ∧
    mainBootstrapper "vmware" = Except.ok BootstrapperKind.LocalVMWare ∧
    validateArguments "gcp" =
      Except.error "Cloud argument must be one of \x27aws\x27 or \x27vmware\x27" ∧
    validateArguments "AWS" =
      Except.error "Cloud argument must be one of \x27aws\x27 or \x27vmware\x27" :=
  ⟨(cloud_argument_validation "aws").2.2.2.2.1.2 rfl,
   (cloud_argument_validation "vmware").2.2.2.1.2 rfl,
   (cloud_argument_validation "gcp").2.1.2 (by decide),
   (cloud_argument_validation "AWS").2.1.2 (by decide)⟩

end CloudArgument

section Addresses

variable {σ : Type}

theorem peerURL_injective (a b : String) (h : peerURL a = peerURL b) : a = b := by
  have h1 := congrArg String.data h
  simp only [peerURL, String.data_append] at h1
  exact String.ext (List.append_cancel_left (List.append_cancel_right h1))

theorem clientURL_injective (a b : String) (h : clientURL a = clientURL b) : a = b := by
  have h1 := congrArg String.data h
  simp only [clientURL, String.data_append] at h1
  exact String.ext (List.append_cancel_left (List.append_cancel_right h1))

theorem peerURL_ne_clientURL (a b : String) : peerURL a ≠ clientURL b := by
  intro h
  have h1 := congrArg String.data h
  simp only [peerURL, clientURL, String.data_append] at h1
  have h2 := (List.append_inj' h1 rfl).2
  exact absurd h2 (by decide)

theorem getInstancePeerURLs_result (w : World σ) (s : σ) :
    (getInstancePeerURLs w).result s = (w.GetInstances s).1.map (fun i => peerURL i.PrivateIP) :=
  rfl

/-- C26. Unambiguous addresses: `peerURL` and `clientURL` are injective, no
peer URL equals a client URL, and a peer URL `peerURL ip` is found by `contains`
in the list returned by `getInstancePeerURLs` exactly when an instance of the
inventory has the private IP `ip`. -/
theorem unambiguous_addresses (w : World σ) (s : σ) :
    (∀ a b, peerURL a = peerURL b → a = b) ∧
    (∀ a b, clientURL a = clientURL b → a = b) ∧
    (∀ a b, peerURL a ≠ clientURL b) ∧
    (∀ ip, contains ((getInstancePeerURLs w).result s) (peerURL ip) = true ↔
      ∃ i ∈ (w.GetInstances s).1, i.PrivateIP = ip) ∧
    (∀ m : Member, contains ((getInstancePeerURLs w).result s) m.PeerURL = true ↔
      ∃ i ∈ (w.GetInstances s).1, m.PeerURL = peerURL i.PrivateIP) := by
  refine ⟨peerURL_injective, clientURL_injective, peerURL_ne_clientURL, ?_, ?_⟩
  · intro ip
    rw [contains_iff, getInstancePeerURLs_result, List.mem_map]
    constructor
    · rintro ⟨i, hi, heq⟩
      exact ⟨i, hi, peerURL_injective _ _ heq⟩
    · rintro ⟨i, hi, heq⟩
      exact ⟨i, hi, by rw [heq]⟩
  · intro m
    rw [contains_iff, getInstancePeerURLs_result, List.mem_map]
    constructor
    · rintro ⟨i, hi, heq⟩
      exact ⟨i, hi, heq.symm⟩
    · rintro ⟨i, hi, heq⟩
      exact ⟨i, hi, heq.symm⟩

/-- The inventory of the tests: the peer URL of 10.50.199.1 is found in the
derived list, and equal peer URLs "http://10.50.99.1:2380" give equal IPs. -/
theorem unambiguous_addresses_witness :
    contains ((getInstancePeerURLs fakeWorld).result joinState) (peerURL "10.50.199.1") = true ∧
    "10.50.99.1" = "10.50.99.1" :=
  ⟨((unambiguous_addresses fakeWorld joinState).2.2.2.1 "10.50.199.1").2
      ⟨{ InstanceID := "e2", PrivateIP := "10.50.199.1" },
        by set_option maxRecDepth 100000 in decide, rfl⟩,
   (unambiguous_addresses fakeWorld joinState).1 "10.50.99.1" "10.50.99.1" rfl⟩

end Addresses

section GcpInstances

variable {γ : Type}

theorem appendInstances_cons_ok (instances : List Instance) (inst : ComputeInstance)
    (rest : List ComputeInstance) (ni : NetworkInterface) (nis : List NetworkInterface)
    (h : inst.NetworkInterfaces = ni :: nis) :
    appendInstances instances (inst :: rest) =
      appendInstances (instances ++ [{ InstanceID := inst.Name, PrivateIP := ni.NetworkIP }])
        rest := by
  simp [appendInstances, h]

theorem appendInstances_cons_empty (instances : List Instance) (inst : ComputeInstance)
    (rest : List ComputeInstance) (h : inst.NetworkInterfaces = []) :
    appendInstances instances (inst :: rest) =
      Except.error (GcpError.noNetworkInterfaces inst.Name) := by
  simp [appendInstances, h]

theorem appendInstances_ne_indexOutOfRange (items : List ComputeInstance) :
    ∀ instances : List Instance,
      appendInstances instances items ≠ Except.error GcpError.indexOutOfRange := by
  induction items with
  | nil =>
    intro instances h
    simp [appendInstances] at h
  | cons inst rest ih =>
    intro instances
    cases hni : inst.NetworkInterfaces with
    | nil =>
      rw [appendInstances_cons_empty instances inst rest hni]
      intro h
      simp at h
    | cons ni nis =>
      rw [appendInstances_cons_ok instances inst rest ni nis hni]
      exact ih _

theorem appendInstances_all (items : List ComputeInstance) :
    ∀ instances : List Instance, (∀ inst ∈ items, inst.NetworkInterfaces ≠ []) →
      ∃ out, appendInstances instances items = Except.ok (instances ++ out) ∧
        List.Forall₂ (fun (o : Instance) (inst : ComputeInstance) =>
          o.InstanceID = inst.Name ∧
          ∃ ni nis, inst.NetworkInterfaces = ni :: nis ∧ o.PrivateIP = ni.NetworkIP) out items := by
  induction items with
  | nil =>
    intro instances _
    exact ⟨[], by simp [appendInstances], List.Forall₂.nil⟩
  | cons inst rest ih =>
    intro instances hall
    cases hni : inst.NetworkInterfaces with
    | nil => exact absurd hni (hall inst (List.mem_cons_self _ _))
    | cons ni nis =>
      obtain ⟨out, hout, hrel⟩ :=
        ih (instances ++ [{ InstanceID := inst.Name, PrivateIP := ni.NetworkIP }])
          (fun i hi => hall i (List.mem_cons_of_mem _ hi))
      refine ⟨{ InstanceID := inst.Name, PrivateIP := ni.NetworkIP } :: out, ?_, ?_⟩
      · rw [appendInstances_cons_ok instances inst rest ni nis hni, hout]
        simp
      · exact List.Forall₂.cons ⟨rfl, ni, nis, hni, rfl⟩ hrel

theorem appendInstances_some_empty (items : List ComputeInstance) :
    ∀ instances : List Instance, (∃ inst ∈ items, inst.NetworkInterfaces = []) →
      ∃ inst ∈ items, inst.NetworkInterfaces = [] ∧
        appendInstances instances items =
          Except.error (GcpError.noNetworkInterfaces inst.Name) := by
  induction items with
  | nil =>
    intro instances h
    obtain ⟨inst, hmem, _⟩ := h
    exact absurd hmem (List.not_mem_nil _)
  | cons inst rest ih =>
    intro instances h
    cases hni : inst.NetworkInterfaces with
    | nil =>
      exact ⟨inst, List.mem_cons_self _ _, hni, appendInstances_cons_empty instances inst rest hni⟩
    | cons ni nis =>
      have hrest : ∃ i ∈ rest, i.NetworkInterfaces = [] := by
        obtain ⟨i, hmem, hi⟩ := h
        rcases List.mem_cons.mp hmem with heq | hmem1
        · rw [heq, hni] at hi
          exact List.noConfusion hi
        · exact ⟨i, hmem1, hi⟩
      obtain ⟨i, hmem, hi, hres⟩ :=
        ih (instances ++ [{ InstanceID := inst.Name, PrivateIP := ni.NetworkIP }]) hrest
      exact ⟨i, List.mem_cons_of_mem _ hmem, hi,
        by rw [appendInstances_cons_ok instances inst rest ni nis hni, hres]⟩

theorem zonesLoop_nil (sprintf : String → String) (client : ComputeService γ) (cfg : Config)
    (instances : List Instance) (g : γ) :
    zonesLoop sprintf client cfg [] instances g = (Except.ok instances, g, []) := rfl

theorem zonesLoop_cons_append_ok (sprintf : String → String) (client : ComputeService γ)
    (cfg : Config) (zone : Zone) (rest : List Zone) (instances instances1 : List Instance)
    (items : List ComputeInstance) (g g1 : γ)
    (hcall : client.InstancesList cfg.ProjectID zone.Name
      (sprintf (String.intercalate " AND " ["labels.environment=" ++ cfg.Environment,
        "labels.role=" ++ cfg.Role, "status != TERMINATED"])) g = (Except.ok items, g1))
    (happ : appendInstances instances items = Except.ok instances1) :
    zonesLoop sprintf client cfg (zone :: rest) instances g =
      ((zonesLoop sprintf client cfg rest instances1 g1).1,
        (zonesLoop sprintf client cfg rest instances1 g1).2.1,
        GcpCall.InstancesList cfg.ProjectID zone.Name
          (sprintf (String.intercalate " AND " ["labels.environment=" ++ cfg.Environment,
            "labels.role=" ++ cfg.Role, "status != TERMINATED"])) ::
          (zonesLoop sprintf client cfg rest instances1 g1).2.2) := by
  rw [zonesLoop]
  simp only [hcall, happ]

theorem zonesLoop_cons_append_err (sprintf : String → String) (client : ComputeService γ)
    (cfg : Config) (zone : Zone) (rest : List Zone) (instances : List Instance)
    (items : List ComputeInstance) (g g1 : γ) (e : GcpError)
    (hcall : client.InstancesList cfg.ProjectID zone.Name
      (sprintf (String.intercalate " AND " ["labels.environment=" ++ cfg.Environment,
        "labels.role=" ++ cfg.Role, "status != TERMINATED"])) g = (Except.ok items, g1))
    (happ : appendInstances instances items = Except.error e) :
    zonesLoop sprintf client cfg (zone :: rest) instances g =
      (Except.error e, g1,
        [GcpCall.InstancesList cfg.ProjectID zone.Name
          (sprintf (String.intercalate " AND " ["labels.environment=" ++ cfg.Environment,
            "labels.role=" ++ cfg.Role, "status != TERMINATED"]))]) := by
  rw [zonesLoop]
  simp only [hcall, happ]

theorem zonesLoop_cons_list_err (sprintf : String → String) (client : ComputeService γ)
    (cfg : Config) (zone : Zone) (rest : List Zone) (instances : List Instance)
    (g g1 : γ) (err : Error)
    (hcall : client.InstancesList cfg.ProjectID zone.Name
      (sprintf (String.intercalate " AND " ["labels.environment=" ++ cfg.Environment,
        "labels.role=" ++ cfg.Role, "status != TERMINATED"])) g = (Except.error err, g1)) :
    zonesLoop sprintf client cfg (zone :: rest) instances g =
      (Except.error (GcpError.listInstances cfg.ProjectID zone err), g1,
        [GcpCall.InstancesList cfg.ProjectID zone.Name
          (sprintf (String.intercalate " AND " ["labels.environment=" ++ cfg.Environment,
            "labels.role=" ++ cfg.Role, "status != TERMINATED"]))]) := by
  rw [zonesLoop]
  simp only [hcall]

theorem zonesLoop_ne_indexOutOfRange (sprintf : String → String) (client : ComputeService γ)
    (cfg : Config) (zones : List Zone) :
    ∀ (instances : List Instance) (g : γ),
      (zonesLoop sprintf client cfg zones instances g).1 ≠
        Except.error GcpError.indexOutOfRange := by
  induction zones with
  | nil =>
    intro instances g h
    rw [zonesLoop_nil] at h
    exact Except.noConfusion h
  | cons zone rest ih =>
    intro instances g
    rcases hcall : client.InstancesList cfg.ProjectID zone.Name
      (sprintf (String.intercalate " AND " ["labels.environment=" ++ cfg.Environment,
        "labels.role=" ++ cfg.Role, "status != TERMINATED"])) g with ⟨r, g1⟩
    cases r with
    | error err =>
      rw [zonesLoop_cons_list_err sprintf client cfg zone rest instances g g1 err hcall]
      intro h
      simp at h
    | ok items =>
      cases happ : appendInstances instances items with
      | error e =>
        rw [zonesLoop_cons_append_err sprintf client cfg zone rest instances items g g1 e
          hcall happ]
        intro h
        have he : e = GcpError.indexOutOfRange := by
          simpa using h
        rw [he] at happ
        exact appendInstances_ne_indexOutOfRange items instances happ
      | ok instances1 =>
        rw [zonesLoop_cons_append_ok sprintf client cfg zone rest instances instances1 items g g1
          hcall happ]
        exact ih instances1 g1

theorem zonesLoop_all (sprintf : String → String) (client : ComputeService γ) (cfg : Config)
    (L : Zone → List ComputeInstance) (zones : List Zone)
    (hl : ∀ z ∈ zones, ∀ f g, (client.InstancesList cfg.ProjectID z.Name f g).1 = Except.ok (L z)) :
    ∀ (instances : List Instance) (g : γ),
      (∀ inst ∈ zones.flatMap L, inst.NetworkInterfaces ≠ []) →
      ∃ out, (zonesLoop sprintf client cfg zones instances g).1 = Except.ok (instances ++ out) ∧
        List.Forall₂ (fun (o : Instance) (inst : ComputeInstance) =>
          o.InstanceID = inst.Name ∧
          ∃ ni nis, inst.NetworkInterfaces = ni :: nis ∧ o.PrivateIP = ni.NetworkIP)
          out (zones.flatMap L) := by
  induction zones with
  | nil =>
    intro instances g _
    exact ⟨[], by simp [zonesLoop_nil], List.Forall₂.nil⟩
  | cons zone rest ih =>
    intro instances g hall
    rcases hcall : client.InstancesList cfg.ProjectID zone.Name
      (sprintf (String.intercalate " AND " ["labels.environment=" ++ cfg.Environment,
        "labels.role=" ++ cfg.Role, "status != TERMINATED"])) g with ⟨r, g1⟩
    have hr : r = Except.ok (L zone) := by
      have := hl zone (List.mem_cons_self _ _)
        (sprintf (String.intercalate " AND " ["labels.environment=" ++ cfg.Environment,
          "labels.role=" ++ cfg.Role, "status != TERMINATED"])) g
      rw [hcall] at this
      exact this
    subst hr
    have hall1 : ∀ inst ∈ L zone, inst.NetworkInterfaces ≠ [] := fun inst hi =>
      hall inst (by rw [List.flatMap_cons]; exact List.mem_append_left _ hi)
    have hall2 : ∀ inst ∈ rest.flatMap L, inst.NetworkInterfaces ≠ [] := fun inst hi =>
      hall inst (by rw [List.flatMap_cons]; exact List.mem_append_right _ hi)
    obtain ⟨out1, happ, hrel1⟩ := appendInstances_all (L zone) instances hall1
    obtain ⟨out2, hrest, hrel2⟩ :=
      ih (fun z hz => hl z (List.mem_cons_of_mem _ hz)) (instances ++ out1) g1 hall2
    refine ⟨out1 ++ out2, ?_, ?_⟩
    · rw [zonesLoop_cons_append_ok sprintf client cfg zone rest instances (instances ++ out1)
        (L zone) g g1 hcall happ]
      rw [hrest, List.append_assoc]
    · rw [List.flatMap_cons]
      exact List.rel_append hrel1 hrel2

theorem zonesLoop_some_empty (sprintf : String → String) (client : ComputeService γ)
    (cfg : Config) (L : Zone → List ComputeInstance) (zones : List Zone)
    (hl : ∀ z ∈ zones, ∀ f g, (client.InstancesList cfg.ProjectID z.Name f g).1 = Except.ok (L z)) :
    ∀ (instances : List Instance) (g : γ),
      (∃ inst ∈ zones.flatMap L, inst.NetworkInterfaces = []) →
      ∃ inst ∈ zones.flatMap L, inst.NetworkInterfaces = [] ∧
        (zonesLoop sprintf client cfg zones instances g).1 =
          Except.error (GcpError.noNetworkInterfaces inst.Name) := by
  induction zones with
  | nil =>
    intro instances g h
    obtain ⟨inst, hmem, _⟩ := h
    simp at hmem
  | cons zone rest ih =>
    intro instances g h
    rcases hcall : client.InstancesList cfg.ProjectID zone.Name
      (sprintf (String.intercalate " AND " ["labels.environment=" ++ cfg.Environment,
        "labels.role=" ++ cfg.Role, "status != TERMINATED"])) g with ⟨r, g1⟩
    have hr : r = Except.ok (L zone) := by
      have := hl zone (List.mem_cons_self _ _)
        (sprintf (String.intercalate " AND " ["labels.environment=" ++ cfg.Environment,
          "labels.role=" ++ cfg.Role, "status != TERMINATED"])) g
      rw [hcall] at this
      exact this
    subst hr
    by_cases hz : ∃ inst ∈ L zone, inst.NetworkInterfaces = []
    · obtain ⟨inst, hmem, hi, happ⟩ := appendInstances_some_empty (L zone) instances hz
      refine ⟨inst, by rw [List.flatMap_cons]; exact List.mem_append_left _ hmem, hi, ?_⟩
      rw [zonesLoop_cons_append_err sprintf client cfg zone rest instances (L zone) g g1 _
        hcall happ]
    · have hall1 : ∀ inst ∈ L zone, inst.NetworkInterfaces ≠ [] := fun inst hi hempty =>
        hz ⟨inst, hi, hempty⟩
      have hrest : ∃ inst ∈ rest.flatMap L, inst.NetworkInterfaces = [] := by
        obtain ⟨inst, hmem, hi⟩ := h
        rw [List.flatMap_cons] at hmem
        rcases List.mem_append.mp hmem with h1 | h2
        · exact absurd hi (hall1 inst h1)
        · exact ⟨inst, h2, hi⟩
      obtain ⟨out1, happ, _⟩ := appendInstances_all (L zone) instances hall1
      obtain ⟨inst, hmem, hi, hres⟩ :=
        ih (fun z hz1 => hl z (List.mem_cons_of_mem _ hz1)) (instances ++ out1) g1 hrest
      refine ⟨inst, by rw [List.flatMap_cons]; exact List.mem_append_right _ hmem, hi, ?_⟩
      rw [zonesLoop_cons_append_ok sprintf client cfg zone rest instances (instances ++ out1)
        (L zone) g g1 hcall happ]
      exact hres

theorem findAllInstances_result_ok (sprintf : String → String) (client : ComputeService γ)
    (cfg : Config) (g g1 : γ) (zones : List Zone)
    (hz : client.ZonesList cfg.ProjectID g = (Except.ok zones, g1)) :
    (findAllInstances sprintf client cfg g).1 = (zonesLoop sprintf client cfg zones [] g1).1 := by
  simp only [findAllInstances, hz]

theorem findAllInstances_calls_ok (sprintf : String → String) (client : ComputeService γ)
    (cfg : Config) (g g1 : γ) (zones : List Zone)
    (hz : client.ZonesList cfg.ProjectID g = (Except.ok zones, g1)) :
    (findAllInstances sprintf client cfg g).2.2 =
      GcpCall.ZonesList cfg.ProjectID :: (zonesLoop sprintf client cfg zones [] g1).2.2 := by
  simp only [findAllInstances, hz]

theorem findAllInstances_result_err (sprintf : String → String) (client : ComputeService γ)
    (cfg : Config) (g g1 : γ) (err : Error)
    (hz : client.ZonesList cfg.ProjectID g = (Except.error err, g1)) :
    findAllInstances sprintf client cfg g =
      (Except.error (GcpError.listZones cfg.ProjectID err), g1,
        [GcpCall.ZonesList cfg.ProjectID]) := by
  simp only [findAllInstances, hz]

/-- C24. GCP instance mapping: when the zone listing returns `zones` and the
instance listing of every zone `z` returns `L z`, `findAllInstances` fails with
the error for an instance without network interfaces if some listed instance
has none, and otherwise returns one `Instance` per listed instance, in zone
order then listing order, whose `InstanceID` is the instance name and whose
`PrivateIP` is the `NetworkIP` of the first network interface; whatever the
client returns, the access to index 0 is never out of range. -/
theorem gcp_instance_mapping (sprintf : String → String) (client : ComputeService γ)
    (cfg : Config) (g g1 : γ) (zones : List Zone) (L : Zone → List ComputeInstance)
    (hz : client.ZonesList cfg.ProjectID g = (Except.ok zones, g1))
    (hl : ∀ z ∈ zones, ∀ f g2,
      (client.InstancesList cfg.ProjectID z.Name f g2).1 = Except.ok (L z)) :
    ((∃ inst ∈ zones.flatMap L, inst.NetworkInterfaces = []) →
      ∃ inst ∈ zones.flatMap L, inst.NetworkInterfaces = [] ∧
        (findAllInstances sprintf client cfg g).1 =
          Except.error (GcpError.noNetworkInterfaces inst.Name)) ∧
    ((∀ inst ∈ zones.flatMap L, inst.NetworkInterfaces ≠ []) →
      ∃ out, (findAllInstances sprintf client cfg g).1 = Except.ok out ∧
        List.Forall₂ (fun (o : Instance) (inst : ComputeInstance) =>
          o.InstanceID = inst.Name ∧
          ∃ ni nis, inst.NetworkInterfaces = ni :: nis ∧ o.PrivateIP = ni.NetworkIP)
          out (zones.flatMap L)) ∧
    (∀ (client1 : ComputeService γ) (cfg1 : Config) (g3 : γ),
      (findAllInstances sprintf client1 cfg1 g3).1 ≠ Except.error GcpError.indexOutOfRange) := by
  refine ⟨?_, ?_, ?_⟩
  · intro h
    rw [findAllInstances_result_ok sprintf client cfg g g1 zones hz]
    exact zonesLoop_some_empty sprintf client cfg L zones hl [] g1 h
  · intro h
    rw [findAllInstances_result_ok sprintf client cfg g g1 zones hz]
    obtain ⟨out, hout, hrel⟩ := zonesLoop_all sprintf client cfg L zones hl [] g1 h
    exact ⟨out, by rw [hout, List.nil_append], hrel⟩
  · intro client1 cfg1 g3
    rcases hz1 : client1.ZonesList cfg1.ProjectID g3 with ⟨r, g4⟩
    cases r with
    | error err =>
      rw [findAllInstances_result_err sprintf client1 cfg1 g3 g4 err hz1]
      intro h
      simp at h
    | ok zones1 =>
      rw [findAllInstances_result_ok sprintf client1 cfg1 g3 g4 zones1 hz1]
      exact zonesLoop_ne_indexOutOfRange sprintf client1 cfg1 zones1 [] g4

end GcpInstances

section GcpWitness

/-- The fixed compute API with the zones z1, z2: the listings a (two
interfaces) and b give a@10.0.0.1, b@10.0.0.2; with an instance c without
interfaces in z2 the call fails for c. -/
theorem gcp_instance_mapping_witness :
    (∃ out, (findAllInstances sprintfNoOperands (fixedCompute fakeZones fakeListing)
        plainConfig ()).1 = Except.ok out ∧
      List.Forall₂ (fun (o : Instance) (inst : ComputeInstance) =>
        o.InstanceID = inst.Name ∧
        ∃ ni nis, inst.NetworkInterfaces = ni :: nis ∧ o.PrivateIP = ni.NetworkIP)
        out (fakeZones.flatMap fakeListing)) ∧
    (findAllInstances sprintfNoOperands (fixedCompute fakeZones fakeListing) plainConfig ()).1 =
      Except.ok [{ InstanceID := "a", PrivateIP := "10.0.0.1" },
        { InstanceID := "b", PrivateIP := "10.0.0.2" }] ∧
    (∃ inst ∈ fakeZones.flatMap bareListing, inst.NetworkInterfaces = [] ∧
      (findAllInstances sprintfNoOperands (fixedCompute fakeZones bareListing)
        plainConfig ()).1 = Except.error (GcpError.noNetworkInterfaces inst.Name)) ∧
    (findAllInstances sprintfNoOperands (fixedCompute fakeZones bareListing) plainConfig ()).1 =
      Except.error (GcpError.noNetworkInterfaces "c") :=
  ⟨(gcp_instance_mapping sprintfNoOperands (fixedCompute fakeZones fakeListing) plainConfig
      () () fakeZones fakeListing rfl (fun _ _ _ _ => rfl)).2.1
      (by set_option maxRecDepth 100000 in decide),
   rfl,
   (gcp_instance_mapping sprintfNoOperands (fixedCompute fakeZones bareListing) plainConfig
      () () fakeZones bareListing rfl (fun _ _ _ _ => rfl)).1
      ⟨{ Name := "c", NetworkInterfaces := [] }, by set_option maxRecDepth 100000 in decide, rfl⟩,
   rfl⟩

end GcpWitness

section GcpFilter

variable {γ : Type}

theorem sprintfChars_of_no_percent (l : List Char) (h : '%' ∉ l) :
    sprintfChars false l = some l := by
  induction l with
  | nil => rfl
  | cons c rest ih =>
    have hc : c ≠ '%' := fun heq => h (by rw [heq]; exact List.mem_cons_self _ _)
    have hrest : '%' ∉ rest := fun hmem => h (List.mem_cons_of_mem _ hmem)
    simp only [sprintfChars, if_neg hc, ih hrest, Option.map_some']

theorem goSprintf_of_no_percent (format : String) (h : '%' ∉ format.data) :
    goSprintf format = some format := by
  simp only [goSprintf, sprintfChars_of_no_percent format.data h, Option.map_some']

theorem filter_text (cfg : Config) :
    String.intercalate " AND " ["labels.environment=" ++ cfg.Environment,
        "labels.role=" ++ cfg.Role, "status != TERMINATED"] =
      "labels.environment=" ++ cfg.Environment ++ " AND labels.role=" ++ cfg.Role ++
        " AND status != TERMINATED" := by
  rw [intercalate_cons_cons, intercalate_cons_cons]
  have h1 : String.intercalate " AND " ["status != TERMINATED"] = "status != TERMINATED" := rfl
  have h2 : " AND labels.role=" = " AND " ++ "labels.role=" := by decide
  have h3 : " AND status != TERMINATED" = " AND " ++ "status != TERMINATED" := by decide
  rw [h1, h2, h3]
  simp only [String.append_assoc]

theorem filter_text_no_percent (cfg : Config) (he : '%' ∉ cfg.Environment.data)
    (hr : '%' ∉ cfg.Role.data) :
    '%' ∉ (String.intercalate " AND " ["labels.environment=" ++ cfg.Environment,
        "labels.role=" ++ cfg.Role, "status != TERMINATED"]).data := by
  rw [filter_text]
  simp only [String.data_append, List.mem_append, not_or]
  exact ⟨⟨⟨⟨by decide, he⟩, by decide⟩, hr⟩, by decide⟩

theorem filtersOf_zonesLoop (sprintf : String → String) (client : ComputeService γ)
    (cfg : Config) (zones : List Zone) :
    ∀ (instances : List Instance) (g : γ),
      ∀ f ∈ filtersOf (zonesLoop sprintf client cfg zones instances g).2.2,
        f = sprintf (String.intercalate " AND " ["labels.environment=" ++ cfg.Environment,
          "labels.role=" ++ cfg.Role, "status != TERMINATED"]) := by
  induction zones with
  | nil =>
    intro instances g f hf
    rw [zonesLoop_nil] at hf
    exact absurd hf (List.not_mem_nil _)
  | cons zone rest ih =>
    intro instances g f hf
    rcases hcall : client.InstancesList cfg.ProjectID zone.Name
      (sprintf (String.intercalate " AND " ["labels.environment=" ++ cfg.Environment,
        "labels.role=" ++ cfg.Role, "status != TERMINATED"])) g with ⟨r, g1⟩
    cases r with
    | error err =>
      rw [zonesLoop_cons_list_err sprintf client cfg zone rest instances g g1 err hcall] at hf
      simpa [filtersOf] using hf
    | ok items =>
      cases happ : appendInstances instances items with
      | error e =>
        rw [zonesLoop_cons_append_err sprintf client cfg zone rest instances items g g1 e
          hcall happ] at hf
        simpa [filtersOf] using hf
      | ok instances1 =>
        rw [zonesLoop_cons_append_ok sprintf client cfg zone rest instances instances1 items g g1
          hcall happ] at hf
        simp only [filtersOf, List.mem_cons] at hf
        rcases hf with hf | hf
        · exact hf
        · exact ih instances1 g1 f hf

theorem filtersOf_findAllInstances (sprintf : String → String) (client : ComputeService γ)
    (cfg : Config) (g : γ) :
    ∀ f ∈ filtersOf (findAllInstances sprintf client cfg g).2.2,
      f = sprintf (String.intercalate " AND " ["labels.environment=" ++ cfg.Environment,
        "labels.role=" ++ cfg.Role, "status != TERMINATED"]) := by
  intro f hf
  rcases hz : client.ZonesList cfg.ProjectID g with ⟨r, g1⟩
  cases r with
  | error err =>
    rw [findAllInstances_result_err sprintf client cfg g g1 err hz] at hf
    simp [filtersOf] at hf
  | ok zones =>
    rw [findAllInstances_calls_ok sprintf client cfg g g1 zones hz] at hf
    simp only [filtersOf] at hf
    exact filtersOf_zonesLoop sprintf client cfg zones [] g1 f hf

theorem goSprintf_percentConfig :
    goSprintf (String.intercalate " AND " ["labels.environment=" ++ percentConfig.Environment,
        "labels.role=" ++ percentConfig.Role, "status != TERMINATED"]) =
      some "labels.environment=100%!A(MISSING)ND labels.role=etcd AND status != TERMINATED" := by
  set_option maxRecDepth 100000 in decide

/-- C25. GCP filter expression: the filter passed to every instance listing is
`fmt.Sprintf` applied to the joined text
"labels.environment=<Environment> AND labels.role=<Role> AND status != TERMINATED"
as a format string.  For an Environment and a Role without a percent sign the
filter is exactly that text; for the Environment "100%" and the Role "etcd"
the filter is
"labels.environment=100%!A(MISSING)ND labels.role=etcd AND status != TERMINATED",
which is not that text. -/
theorem gcp_filter_expression (sprintf : String → String)
    (hs : ∀ format out, goSprintf format = some out → sprintf format = out)
    (client : ComputeService γ) (g : γ) :
    (∀ cfg : Config, '%' ∉ cfg.Environment.data → '%' ∉ cfg.Role.data →
      ∀ f ∈ filtersOf (findAllInstances sprintf client cfg g).2.2,
        f = "labels.environment=" ++ cfg.Environment ++ " AND labels.role=" ++ cfg.Role ++
          " AND status != TERMINATED") ∧
    (∀ f ∈ filtersOf (findAllInstances sprintf client percentConfig g).2.2,
      f = "labels.environment=100%!A(MISSING)ND labels.role=etcd AND status != TERMINATED" ∧
      f ≠ "labels.environment=" ++ percentConfig.Environment ++ " AND labels.role=" ++
          percentConfig.Role ++ " AND status != TERMINATED") := by
  constructor
  · intro cfg he hr f hf
    rw [filtersOf_findAllInstances sprintf client cfg g f hf,
      hs _ _ (goSprintf_of_no_percent _ (filter_text_no_percent cfg he hr)), filter_text]
  · intro f hf
    rw [filtersOf_findAllInstances sprintf client percentConfig g f hf,
      hs _ _ goSprintf_percentConfig]
    exact ⟨rfl, by decide⟩

/-- The fixed compute API with the zones z1, z2 and the configuration with the
Environment "100%": the two instance listings receive the filter
"labels.environment=100%!A(MISSING)ND labels.role=etcd AND status != TERMINATED". -/
theorem gcp_filter_expression_witness :
    filtersOf (findAllInstances sprintfNoOperands (fixedCompute fakeZones fakeListing)
        percentConfig ()).2.2 =
      ["labels.environment=100%!A(MISSING)ND labels.role=etcd AND status != TERMINATED",
        "labels.environment=100%!A(MISSING)ND labels.role=etcd AND status != TERMINATED"] ∧
    ("labels.environment=100%!A(MISSING)ND labels.role=etcd AND status != TERMINATED" =
        "labels.environment=100%!A(MISSING)ND labels.role=etcd AND status != TERMINATED" ∧
      "labels.environment=100%!A(MISSING)ND labels.role=etcd AND status != TERMINATED" ≠
        "labels.environment=" ++ percentConfig.Environment ++ " AND labels.role=" ++
          percentConfig.Role ++ " AND status != TERMINATED") ∧
    filtersOf (findAllInstances sprintfNoOperands (fixedCompute fakeZones fakeListing)
        plainConfig ()).2.2 =
      ["labels.environment=dev AND labels.role=etcd AND status != TERMINATED",
        "labels.environment=dev AND labels.role=etcd AND status != TERMINATED"] :=
  ⟨by set_option maxRecDepth 100000 in decide,
   (gcp_filter_expression sprintfNoOperands
      (fun format out h => by simp [sprintfNoOperands, h])
      (fixedCompute fakeZones fakeListing) ()).2
      "labels.environment=100%!A(MISSING)ND labels.role=etcd AND status != TERMINATED"
      (by set_option maxRecDepth 100000 in decide),
   by set_option maxRecDepth 100000 in decide⟩

end GcpFilter

section Idempotence

variable {σ : Type}

theorem steadyWorld_faithful :
    FaithfulCluster steadyWorld (fun s => s.members) (fun s => s.instances)
      (fun s => s.localInstance) where
  getInstances_out _ := rfl
  getLocalInstance_out _ := rfl
  members_out _ _ := rfl
  getInstances_mem _ := rfl
  getLocalInstance_mem _ := rfl
  members_mem _ := rfl
  addMember_mem u s := by
    cases h : s.addErr <;> simp [steadyWorld, fakeWorld, h]
  removeMember_mem u s := by
    cases h : s.removeErr <;> simp [steadyWorld, fakeWorld, h]
  getInstances_cloud _ := ⟨rfl, rfl⟩
  getLocalInstance_cloud _ := ⟨rfl, rfl⟩
  members_cloud _ := ⟨rfl, rfl⟩
  addMember_cloud u s := by
    cases h : s.addErr <;> simp [steadyWorld, fakeWorld, h]
  removeMember_cloud u s := by
    cases h : s.removeErr <;> simp [steadyWorld, fakeWorld, h]

theorem members_view (w : World σ) (mem : σ → List Member) (inv : σ → List Instance)
    (lcl : σ → Instance) (F : FaithfulCluster w mem inv lcl)
    (hM : ∀ t, (w.Members t).1.2 = none) (t : σ) :
    ∃ t1, w.Members t = ((mem t, none), t1) ∧ mem t1 = mem t ∧ inv t1 = inv t ∧
      lcl t1 = lcl t := by
  refine ⟨(w.Members t).2, ?_, F.members_mem t, (F.members_cloud t).1, (F.members_cloud t).2⟩
  have h1 := F.members_out t (hM t)
  have h2 := hM t
  rcases hm : w.Members t with ⟨⟨ms, e⟩, t1⟩
  rw [hm] at h1 h2
  have h3 : ms = mem t := h1
  have h4 : e = none := h2
  rw [h3, h4]

theorem getInstances_view (w : World σ) (mem : σ → List Member) (inv : σ → List Instance)
    (lcl : σ → Instance) (F : FaithfulCluster w mem inv lcl) (t : σ) :
    ∃ t1, w.GetInstances t = (inv t, t1) ∧ mem t1 = mem t ∧ inv t1 = inv t ∧ lcl t1 = lcl t :=
  ⟨(w.GetInstances t).2, Prod.ext (F.getInstances_out t) rfl, F.getInstances_mem t,
    (F.getInstances_cloud t).1, (F.getInstances_cloud t).2⟩

theorem getLocalInstance_view (w : World σ) (mem : σ → List Member) (inv : σ → List Instance)
    (lcl : σ → Instance) (F : FaithfulCluster w mem inv lcl) (t : σ) :
    ∃ t1, w.GetLocalInstance t = (lcl t, t1) ∧ mem t1 = mem t ∧ inv t1 = inv t ∧
      lcl t1 = lcl t :=
  ⟨(w.GetLocalInstance t).2, Prod.ext (F.getLocalInstance_out t) rfl, F.getLocalInstance_mem t,
    (F.getLocalInstance_cloud t).1, (F.getLocalInstance_cloud t).2⟩

theorem createEtcdConfig_final (w : World σ) (state : clusterState) (avail : List String)
    (s : σ) :
    (createEtcdConfig w state avail).final s = (w.GetLocalInstance (w.GetInstances s).2).2 := by
  simp [Prog.final, createEtcdConfig, constructInitialCluster, Prog.run_bind, Prog.run_pure,
    getInstances_run, getLocalInstance_run]

theorem createEtcdConfig_view (w : World σ) (mem : σ → List Member) (inv : σ → List Instance)
    (lcl : σ → Instance) (F : FaithfulCluster w mem inv lcl) (state : clusterState)
    (avail : List String) (t : σ) :
    mem ((createEtcdConfig w state avail).final t) = mem t ∧
    inv ((createEtcdConfig w state avail).final t) = inv t ∧
    lcl ((createEtcdConfig w state avail).final t) = lcl t := by
  rw [createEtcdConfig_final]
  refine ⟨?_, ?_, ?_⟩
  · rw [F.getLocalInstance_mem, F.getInstances_mem]
  · rw [(F.getLocalInstance_cloud _).1, (F.getInstances_cloud _).1]
  · rw [(F.getLocalInstance_cloud _).2, (F.getInstances_cloud _).2]

theorem createEtcdConfig_result_congr (w : World σ) (mem : σ → List Member)
    (inv : σ → List Instance) (lcl : σ → Instance) (F : FaithfulCluster w mem inv lcl)
    (state : clusterState) (avail : List String) (t t1 : σ) (hinv : inv t = inv t1)
    (hlcl : lcl t = lcl t1) :
    (createEtcdConfig w state avail).result t = (createEtcdConfig w state avail).result t1 := by
  have hg : ∀ s, (w.GetInstances s).1 = inv s := F.getInstances_out
  have hl : ∀ s, (w.GetLocalInstance s).1 = lcl s := F.getLocalInstance_out
  have hc : ∀ s, lcl (w.GetInstances s).2 = lcl s := fun s => (F.getInstances_cloud s).2
  simp only [Prog.result, createEtcdConfig, constructInitialCluster, Prog.run_bind, Prog.run_pure,
    getInstances_run, getLocalInstance_run, hg, hl, hc, hinv, hlcl]

theorem bootstrapNewCluster_view (w : World σ) (mem : σ → List Member) (inv : σ → List Instance)
    (lcl : σ → Instance) (F : FaithfulCluster w mem inv lcl) (t : σ) :
    mem ((bootstrapNewCluster w).final t) = mem t ∧
    inv ((bootstrapNewCluster w).final t) = inv t ∧
    lcl ((bootstrapNewCluster w).final t) = lcl t := by
  rw [bootstrapNewCluster_final]
  refine ⟨?_, ?_, ?_⟩
  · rw [F.getLocalInstance_mem, F.getInstances_mem, F.getInstances_mem]
  · rw [(F.getLocalInstance_cloud _).1, (F.getInstances_cloud _).1, (F.getInstances_cloud _).1]
  · rw [(F.getLocalInstance_cloud _).2, (F.getInstances_cloud _).2, (F.getInstances_cloud _).2]

theorem bootstrapNewCluster_result_congr (w : World σ) (mem : σ → List Member)
    (inv : σ → List Instance) (lcl : σ → Instance) (F : FaithfulCluster w mem inv lcl)
    (t t1 : σ) (hinv : inv t = inv t1) (hlcl : lcl t = lcl t1) :
    (bootstrapNewCluster w).result t = (bootstrapNewCluster w).result t1 := by
  have hg : ∀ s, (w.GetInstances s).1 = inv s := F.getInstances_out
  have hl : ∀ s, (w.GetLocalInstance s).1 = lcl s := F.getLocalInstance_out
  have hc : ∀ s, lcl (w.GetInstances s).2 = lcl s := fun s => (F.getInstances_cloud s).2
  have hi : ∀ s, inv (w.GetInstances s).2 = inv s := fun s => (F.getInstances_cloud s).1
  simp only [Prog.result, bootstrapNewCluster, getInstancePeerURLs, createEtcdConfig,
    constructInitialCluster, Prog.run_bind, Prog.run_pure, getInstances_run,
    getLocalInstance_run, hg, hl, hc, hi, hinv, hlcl]

theorem removeLoop_nil_run (w : World σ) (instanceURLs : List String) (t : σ) :
    (removeLoop w instanceURLs []).run t = ((), t, []) := rfl

theorem removeLoop_cons_contained (w : World σ) (instanceURLs : List String) (u : String)
    (rest : List String) (t : σ) (hc : contains instanceURLs u = true) :
    (removeLoop w instanceURLs (u :: rest)).run t = (removeLoop w instanceURLs rest).run t := by
  simp [removeLoop, hc, Prog.run_bind, Prog.run_pure]

theorem removeLoop_cons_removed (w : World σ) (instanceURLs : List String) (u : String)
    (rest : List String) (t : σ) (hc : contains instanceURLs u = false) :
    (removeLoop w instanceURLs (u :: rest)).run t =
      ((), (removeLoop w instanceURLs rest).final (w.RemoveMember u t).2,
        Event.RemoveMember u (w.RemoveMember u t).1 ::
          (removeLoop w instanceURLs rest).trace (w.RemoveMember u t).2) := by
  simp [removeLoop, hc, Prog.run_bind, Prog.run_pure, removeMember_run, Prog.final, Prog.trace]

theorem removeLoop_noop (w : World σ) (instanceURLs : List String) (memberURLs : List String)
    (t : σ) (h : ∀ u ∈ memberURLs, contains instanceURLs u = true) :
    (removeLoop w instanceURLs memberURLs).run t = ((), t, []) := by
  induction memberURLs with
  | nil => rfl
  | cons u rest ih =>
    rw [removeLoop_cons_contained w instanceURLs u rest t (h u (List.mem_cons_self _ _))]
    exact ih (fun v hv => h v (List.mem_cons_of_mem _ hv))

theorem removeLoop_mem (w : World σ) (mem : σ → List Member) (inv : σ → List Instance)
    (lcl : σ → Instance) (F : FaithfulCluster w mem inv lcl) (instanceURLs : List String)
    (memberURLs : List String) :
    ∀ t : σ,
      (∀ u e, Event.RemoveMember u (some e) ∉ (removeLoop w instanceURLs memberURLs).trace t) →
      ∀ m ∈ mem ((removeLoop w instanceURLs memberURLs).final t),
        m ∈ mem t ∧ (m.PeerURL ∈ memberURLs → contains instanceURLs m.PeerURL = true) := by
  induction memberURLs with
  | nil =>
    intro t _ m hm
    rw [Prog.final_of_run (removeLoop_nil_run w instanceURLs t)] at hm
    exact ⟨hm, fun h => absurd h (List.not_mem_nil _)⟩
  | cons u rest ih =>
    intro t hrm m hm
    cases hc : contains instanceURLs u with
    | true =>
      have hrun := removeLoop_cons_contained w instanceURLs u rest t hc
      have hfin : (removeLoop w instanceURLs (u :: rest)).final t =
          (removeLoop w instanceURLs rest).final t := by
        unfold Prog.final
        rw [hrun]
      have htr : (removeLoop w instanceURLs (u :: rest)).trace t =
          (removeLoop w instanceURLs rest).trace t := by
        unfold Prog.trace
        rw [hrun]
      rw [hfin] at hm
      rw [htr] at hrm
      obtain ⟨h1, h2⟩ := ih t hrm m hm
      refine ⟨h1, fun hin => ?_⟩
      rcases List.mem_cons.mp hin with heq | hin1
      · rw [heq]
        exact hc
      · exact h2 hin1
    | false =>
      have hrun := removeLoop_cons_removed w instanceURLs u rest t hc
      rw [Prog.final_of_run hrun] at hm
      rw [Prog.trace_of_run hrun] at hrm
      have hnone : (w.RemoveMember u t).1 = none := by
        cases he : (w.RemoveMember u t).1 with
        | none => rfl
        | some e =>
          exfalso
          apply hrm u e
          rw [he]
          exact List.mem_cons_self _ _
      have hrm1 : ∀ v e, Event.RemoveMember v (some e) ∉
          (removeLoop w instanceURLs rest).trace (w.RemoveMember u t).2 :=
        fun v e hin => hrm v e (List.mem_cons_of_mem _ hin)
      obtain ⟨h1, h2⟩ := ih (w.RemoveMember u t).2 hrm1 m hm
      have hfil := F.removeMember_mem u t
      rw [if_pos hnone] at hfil
      rw [hfil] at h1
      have h3 := List.mem_filter.mp h1
      have hne : m.PeerURL ≠ u := by
        have := h3.2
        simpa using this
      refine ⟨h3.1, fun hin => ?_⟩
      rcases List.mem_cons.mp hin with heq | hin1
      · exact absurd heq hne
      · exact h2 hin1

end Idempotence

section Rerun

variable {σ : Type}

theorem addLocalInstanceToEtcd_mem_sub (w : World σ) (mem : σ → List Member)
    (inv : σ → List Instance) (lcl : σ → Instance) (F : FaithfulCluster w mem inv lcl)
    (hM : ∀ t, (w.Members t).1.2 = none) (t : σ)
    (hok : (addLocalInstanceToEtcd w).result t = none) :
    ∀ m ∈ mem ((addLocalInstanceToEtcd w).final t),
      m ∈ mem t ∨ m = Member.mk "" (peerURL (lcl t).PrivateIP) := by
  obtain ⟨t1, h1, hm1, _, hl1⟩ := members_view w mem inv lcl F hM t
  obtain ⟨t2, h2, hm2, _, _⟩ := getLocalInstance_view w mem inv lcl F t1
  rw [hl1] at h2
  intro m hm
  cases hc : contains ((mem t).map (fun member => member.PeerURL))
      (peerURL (lcl t).PrivateIP) with
  | true =>
    rw [Prog.final_of_run (addLocalInstanceToEtcd_run_present w t t1 t2 (mem t) (lcl t) h1 h2 hc),
      hm2, hm1] at hm
    exact Or.inl hm
  | false =>
    rcases ha : w.AddMember (peerURL (lcl t).PrivateIP) t2 with ⟨ea, t3⟩
    cases ea with
    | some e =>
      rw [Prog.result_of_run
        (addLocalInstanceToEtcd_run_add_fails w t t1 t2 t3 (mem t) (lcl t) e h1 h2 hc ha)] at hok
      exact Option.noConfusion hok
    | none =>
      rw [Prog.final_of_run
        (addLocalInstanceToEtcd_run_added w t t1 t2 t3 (mem t) (lcl t) h1 h2 hc ha)] at hm
      have hadd := F.addMember_mem (peerURL (lcl t).PrivateIP) t2
      rw [ha] at hadd
      simp only [if_true] at hadd
      rw [hadd, hm2, hm1] at hm
      rcases List.mem_append.mp hm with h | h
      · exact Or.inl h
      · exact Or.inr (List.mem_singleton.mp h)

theorem new_branch_run (w : World σ) (mem : σ → List Member) (inv : σ → List Instance)
    (lcl : σ → Instance) (F : FaithfulCluster w mem inv lcl)
    (hM : ∀ t, (w.Members t).1.2 = none) (t : σ)
    (h : mem t = [] ∨ nodeExistsLoop (peerURL (lcl t).PrivateIP) (mem t) = true) :
    ∃ t1, mem t1 = mem t ∧ inv t1 = inv t ∧ lcl t1 = lcl t ∧
      (GenerateEtcdFlags w).result t = ((bootstrapNewCluster w).result t1, none) ∧
      (GenerateEtcdFlags w).final t = (bootstrapNewCluster w).final t1 ∧
      addCalls ((GenerateEtcdFlags w).trace t) = [] ∧
      removeCalls ((GenerateEtcdFlags w).trace t) = [] := by
  obtain ⟨t1, h1, hm1, hi1, hl1⟩ := members_view w mem inv lcl F hM t
  by_cases hne : mem t = []
  · rw [hne] at h1
    have hrun := GenerateEtcdFlags_run_no_members w t t1 h1
    refine ⟨t1, hm1, hi1, hl1, Prog.result_of_run hrun, Prog.final_of_run hrun, ?_, ?_⟩
    · rw [Prog.trace_of_run hrun, addCalls_cons_members, bootstrapNewCluster_addCalls]
    · rw [Prog.trace_of_run hrun, removeCalls_cons_members, bootstrapNewCluster_removeCalls]
  · have hex : nodeExistsLoop (peerURL (lcl t).PrivateIP) (mem t) = true := by
      rcases h with h | h
      · exact absurd h hne
      · exact h
    obtain ⟨t2, h2, hm2, hi2, hl2⟩ := members_view w mem inv lcl F hM t1
    rw [hm1] at h2
    obtain ⟨t3, h3, hm3, hi3, hl3⟩ := getLocalInstance_view w mem inv lcl F t2
    rw [hl2, hl1] at h3
    have hrun := GenerateEtcdFlags_run_registered w t t1 t2 t3 (mem t) (mem t) (lcl t) h1 hne h2
      h3 hex
    refine ⟨t3, by rw [hm3, hm2, hm1], by rw [hi3, hi2, hi1], by rw [hl3, hl2, hl1],
      Prog.result_of_run hrun, Prog.final_of_run hrun, ?_, ?_⟩
    · rw [Prog.trace_of_run hrun, addCalls_cons_members, addCalls_cons_members,
        addCalls_cons_getLocalInstance, bootstrapNewCluster_addCalls]
    · rw [Prog.trace_of_run hrun, removeCalls_cons_members, removeCalls_cons_members,
        removeCalls_cons_getLocalInstance, bootstrapNewCluster_removeCalls]

theorem stable_bootstrapNewNode (w : World σ) (mem : σ → List Member)
    (inv : σ → List Instance) (lcl : σ → Instance) (F : FaithfulCluster w mem inv lcl)
    (hM : ∀ t, (w.Members t).1.2 = none) (t : σ)
    (hin : contains ((mem t).map (fun member => member.PeerURL))
      (peerURL (lcl t).PrivateIP) = true)
    (hall : ∀ u ∈ (mem t).map (fun member => member.PeerURL),
      contains ((inv t).map (fun i => peerURL i.PrivateIP)) u = true) :
    (bootstrapNewNode w).result t =
      ((createEtcdConfig w existingCluster
        ((mem t).map (fun member => member.PeerURL))).result t, none) ∧
    addCalls ((bootstrapNewNode w).trace t) = [] ∧
    removeCalls ((bootstrapNewNode w).trace t) = [] := by
  obtain ⟨t1, h1, hm1, hi1, hl1⟩ := members_view w mem inv lcl F hM t
  obtain ⟨t2, h2, hm2, hi2, hl2⟩ := getInstances_view w mem inv lcl F t1
  rw [hi1] at h2
  have hrm := removeOldEtcdMembers_run_ok w t t1 t2 (mem t) (inv t) h1 h2
  have hloop := removeLoop_noop w ((inv t).map (fun i => peerURL i.PrivateIP))
    ((mem t).map (fun member => member.PeerURL)) t2 hall
  rw [Prog.final_of_run hloop, Prog.trace_of_run hloop] at hrm
  obtain ⟨t3, h3, hm3, hi3, hl3⟩ := members_view w mem inv lcl F hM t2
  rw [hm2, hm1] at h3
  obtain ⟨t4, h4, hm4, hi4, hl4⟩ := getLocalInstance_view w mem inv lcl F t3
  rw [hl3, hl2, hl1] at h4
  have hadd := addLocalInstanceToEtcd_run_present w t2 t3 t4 (mem t) (lcl t) h3 h4 hin
  have hrec := reconcileMembers_run_add w t t2 t4 none _ _ hrm hadd
  obtain ⟨t5, h5, _, hi5, hl5⟩ := members_view w mem inv lcl F hM t4
  rw [hm4, hm3, hm2, hm1] at h5
  have h6 : w.Members ((reconcileMembers w).final t) = ((mem t, none), t5) := by
    rw [Prog.final_of_run hrec]
    exact h5
  have hrun := bootstrapNewNode_run_ok w t t5 (mem t) (Prog.result_of_run hrec) h6
  have hinv5 : inv t5 = inv t := by rw [hi5, hi4, hi3, hi2, hi1]
  have hlcl5 : lcl t5 = lcl t := by rw [hl5, hl4, hl3, hl2, hl1]
  refine ⟨?_, ?_, ?_⟩
  · rw [Prog.result_of_run hrun,
      createEtcdConfig_result_congr w mem inv lcl F existingCluster _ t5 t hinv5 hlcl5]
  · rw [Prog.trace_of_run hrun, Prog.trace_of_run hrec, createEtcdConfig_trace]
    simp only [addCalls_append, addCalls_cons_members, addCalls_cons_getInstances,
      addCalls_cons_getLocalInstance, addCalls_nil, List.append_nil]
  · rw [Prog.trace_of_run hrun, Prog.trace_of_run hrec, createEtcdConfig_trace]
    simp only [removeCalls_append, removeCalls_cons_members, removeCalls_cons_getInstances,
      removeCalls_cons_getLocalInstance, removeCalls_nil, List.append_nil]

theorem stable_run (w : World σ) (mem : σ → List Member) (inv : σ → List Instance)
    (lcl : σ → Instance) (F : FaithfulCluster w mem inv lcl)
    (hM : ∀ t, (w.Members t).1.2 = none) (t : σ)
    (hin : contains ((mem t).map (fun member => member.PeerURL))
      (peerURL (lcl t).PrivateIP) = true)
    (hall : ∀ u ∈ (mem t).map (fun member => member.PeerURL),
      contains ((inv t).map (fun i => peerURL i.PrivateIP)) u = true)
    (hnn : nodeExistsLoop (peerURL (lcl t).PrivateIP) (mem t) = false) :
    (GenerateEtcdFlags w).result t =
      ((createEtcdConfig w existingCluster
        ((mem t).map (fun member => member.PeerURL))).result t, none) ∧
    addCalls ((GenerateEtcdFlags w).trace t) = [] ∧
    removeCalls ((GenerateEtcdFlags w).trace t) = [] := by
  have hne : mem t ≠ [] := by
    intro h
    rw [h] at hin
    exact Bool.noConfusion hin
  obtain ⟨t1, h1, hm1, hi1, hl1⟩ := members_view w mem inv lcl F hM t
  obtain ⟨t2, h2, hm2, hi2, hl2⟩ := members_view w mem inv lcl F hM t1
  rw [hm1] at h2
  obtain ⟨t3, h3, hm3, hi3, hl3⟩ := getLocalInstance_view w mem inv lcl F t2
  rw [hl2, hl1] at h3
  have hrun := GenerateEtcdFlags_run_joining w t t1 t2 t3 (mem t) (mem t) (lcl t) h1 hne h2 h3 hnn
  have hmem3 : mem t3 = mem t := by rw [hm3, hm2, hm1]
  have hinv3 : inv t3 = inv t := by rw [hi3, hi2, hi1]
  have hlcl3 : lcl t3 = lcl t := by rw [hl3, hl2, hl1]
  obtain ⟨hres, hadd, hrem⟩ := stable_bootstrapNewNode w mem inv lcl F hM t3
    (by rw [hmem3, hlcl3]; exact hin) (by rw [hmem3, hinv3]; exact hall)
  rw [hmem3] at hres
  refine ⟨?_, ?_, ?_⟩
  · rw [Prog.result_of_run hrun, hres,
      createEtcdConfig_result_congr w mem inv lcl F existingCluster _ t3 t hinv3 hlcl3]
  · rw [Prog.trace_of_run hrun, addCalls_cons_members, addCalls_cons_members,
      addCalls_cons_getLocalInstance, hadd]
  · rw [Prog.trace_of_run hrun, removeCalls_cons_members, removeCalls_cons_members,
      removeCalls_cons_getLocalInstance, hrem]

end Rerun

section FirstRun

variable {σ : Type}

theorem bootstrapNewNode_first (w : World σ) (mem : σ → List Member)
    (inv : σ → List Instance) (lcl : σ → Instance) (F : FaithfulCluster w mem inv lcl)
    (hM : ∀ t, (w.Members t).1.2 = none) (t : σ) (hloc : lcl t ∈ inv t)
    (hnn : nodeExistsLoop (peerURL (lcl t).PrivateIP) (mem t) = false)
    (hok : ((bootstrapNewNode w).result t).2 = none)
    (hrm : ∀ u e, Event.RemoveMember u (some e) ∉ (bootstrapNewNode w).trace t) :
    (bootstrapNewNode w).result t =
      ((createEtcdConfig w existingCluster
        ((mem ((bootstrapNewNode w).final t)).map (fun member => member.PeerURL))).result
          ((bootstrapNewNode w).final t), none) ∧
    inv ((bootstrapNewNode w).final t) = inv t ∧
    lcl ((bootstrapNewNode w).final t) = lcl t ∧
    contains ((mem ((bootstrapNewNode w).final t)).map (fun member => member.PeerURL))
      (peerURL (lcl t).PrivateIP) = true ∧
    (∀ u ∈ (mem ((bootstrapNewNode w).final t)).map (fun member => member.PeerURL),
      contains ((inv t).map (fun i => peerURL i.PrivateIP)) u = true) ∧
    nodeExistsLoop (peerURL (lcl t).PrivateIP) (mem ((bootstrapNewNode w).final t)) = false := by
  obtain ⟨t1, h1, hm1, hi1, hl1⟩ := members_view w mem inv lcl F hM t
  obtain ⟨t2, h2, hm2, hi2, hl2⟩ := getInstances_view w mem inv lcl F t1
  rw [hi1] at h2
  have hrmo := removeOldEtcdMembers_run_ok w t t1 t2 (mem t) (inv t) h1 h2
  cases hrec : (reconcileMembers w).result t with
  | some e =>
    rw [Prog.result_of_run (bootstrapNewNode_run_reconcile_err w t e hrec)] at hok
    exact Option.noConfusion hok
  | none =>
    obtain ⟨hadd, hfin⟩ := reconcileMembers_success w t hrec
    rw [Prog.final_of_run hrmo] at hadd hfin
    -- the calls of the removal loop are calls of the run
    have hsubtrace : ∀ ev ∈ (removeLoop w ((inv t).map (fun i => peerURL i.PrivateIP))
        ((mem t).map (fun member => member.PeerURL))).trace t2,
        ev ∈ (bootstrapNewNode w).trace t := by
      intro ev hev
      obtain ⟨tail, htail, _⟩ := bootstrapNewNode_trace w t
      rw [htail, reconcileMembers_trace, Prog.trace_of_run hrmo]
      apply List.mem_append_left
      apply List.mem_append_left
      exact List.mem_cons_of_mem _ (List.mem_cons_of_mem _ hev)
    have hloopmem := removeLoop_mem w mem inv lcl F ((inv t).map (fun i => peerURL i.PrivateIP))
      ((mem t).map (fun member => member.PeerURL)) t2
      (fun u e hin => hrm u e (hsubtrace _ hin))
    have hcloud := removeLoop_cloud w mem inv lcl F ((inv t).map (fun i => peerURL i.PrivateIP))
      ((mem t).map (fun member => member.PeerURL)) t2
    have hinvR : inv ((removeLoop w ((inv t).map (fun i => peerURL i.PrivateIP))
        ((mem t).map (fun member => member.PeerURL))).final t2) = inv t := by
      rw [hcloud.1, hi2, hi1]
    have hlclR : lcl ((removeLoop w ((inv t).map (fun i => peerURL i.PrivateIP))
        ((mem t).map (fun member => member.PeerURL))).final t2) = lcl t := by
      rw [hcloud.2, hl2, hl1]
    have hsub := addLocalInstanceToEtcd_mem_sub w mem inv lcl F hM _ hadd
    obtain ⟨hinvA, hlclA, hmemA⟩ := addLocalInstanceToEtcd_success w mem inv lcl F _ hadd
    rw [← hfin] at hsub hinvA hlclA hmemA
    rw [hinvR] at hinvA
    rw [hlclR] at hlclA hmemA hsub
    -- the final query and the rendering
    obtain ⟨t5, h5, hm5, hi5, hl5⟩ := members_view w mem inv lcl F hM ((reconcileMembers w).final t)
    have hrun := bootstrapNewNode_run_ok w t t5 (mem ((reconcileMembers w).final t)) hrec h5
    obtain ⟨hmf, hif, hlf⟩ := createEtcdConfig_view w mem inv lcl F existingCluster
      ((mem ((reconcileMembers w).final t)).map (fun member => member.PeerURL)) t5
    rw [← Prog.final_of_run hrun] at hmf hif hlf
    have hmemF : mem ((bootstrapNewNode w).final t) = mem ((reconcileMembers w).final t) := by
      rw [hmf, hm5]
    have hinvF : inv ((bootstrapNewNode w).final t) = inv t := by
      rw [hif, hi5, hinvA]
    have hlclF : lcl ((bootstrapNewNode w).final t) = lcl t := by
      rw [hlf, hl5, hlclA]
    have hmemof : ∀ m ∈ mem ((reconcileMembers w).final t),
        m ∈ mem t ∨ m = Member.mk "" (peerURL (lcl t).PrivateIP) := by
      intro m hm
      rcases hsub m hm with h | h
      · have := (hloopmem m h).1
        rw [hm2, hm1] at this
        exact Or.inl this
      · exact Or.inr h
    refine ⟨?_, hinvF, hlclF, ?_, ?_, ?_⟩
    · rw [Prog.result_of_run hrun, hmemF]
      rw [createEtcdConfig_result_congr w mem inv lcl F existingCluster _ t5
        ((bootstrapNewNode w).final t) (by rw [hif]) (by rw [hlf])]
    · rw [hmemF]
      exact (contains_iff _ _).mpr hmemA
    · intro u hu
      rw [hmemF] at hu
      obtain ⟨m, hm, hmu⟩ := List.mem_map.mp hu
      rw [← hmu]
      rcases hsub m hm with h | h
      · exact (hloopmem m h).2 (List.mem_map.mpr ⟨m, by
          have := (hloopmem m h).1
          rw [hm2, hm1] at this
          exact this, rfl⟩)
      · rw [h]
        exact (contains_iff _ _).mpr (List.mem_map.mpr ⟨lcl t, hloc, rfl⟩)
    · rw [hmemF]
      apply (nodeExistsLoop_false_iff _ _).mpr
      intro m hm hcon
      rcases hmemof m hm with h | h
      · exact (nodeExistsLoop_false_iff _ _).mp hnn m h hcon
      · rw [h] at hcon
        exact hcon.2 rfl

theorem joining_first_run (w : World σ) (mem : σ → List Member)
    (inv : σ → List Instance) (lcl : σ → Instance) (F : FaithfulCluster w mem inv lcl)
    (hM : ∀ t, (w.Members t).1.2 = none) (t : σ) (hloc : lcl t ∈ inv t) (hne : mem t ≠ [])
    (hnn : nodeExistsLoop (peerURL (lcl t).PrivateIP) (mem t) = false)
    (hok : ((GenerateEtcdFlags w).result t).2 = none)
    (hrm : ∀ u e, Event.RemoveMember u (some e) ∉ (GenerateEtcdFlags w).trace t) :
    (GenerateEtcdFlags w).result t =
      ((createEtcdConfig w existingCluster
        ((mem ((GenerateEtcdFlags w).final t)).map (fun member => member.PeerURL))).result
          ((GenerateEtcdFlags w).final t), none) ∧
    inv ((GenerateEtcdFlags w).final t) = inv t ∧
    lcl ((GenerateEtcdFlags w).final t) = lcl t ∧
    contains ((mem ((GenerateEtcdFlags w).final t)).map (fun member => member.PeerURL))
      (peerURL (lcl t).PrivateIP) = true ∧
    (∀ u ∈ (mem ((GenerateEtcdFlags w).final t)).map (fun member => member.PeerURL),
      contains ((inv t).map (fun i => peerURL i.PrivateIP)) u = true) ∧
    nodeExistsLoop (peerURL (lcl t).PrivateIP) (mem ((GenerateEtcdFlags w).final t)) = false := by
  obtain ⟨t1, h1, hm1, hi1, hl1⟩ := members_view w mem inv lcl F hM t
  obtain ⟨t2, h2, hm2, hi2, hl2⟩ := members_view w mem inv lcl F hM t1
  rw [hm1] at h2
  obtain ⟨t3, h3, hm3, hi3, hl3⟩ := getLocalInstance_view w mem inv lcl F t2
  rw [hl2, hl1] at h3
  have hrun := GenerateEtcdFlags_run_joining w t t1 t2 t3 (mem t) (mem t) (lcl t) h1 hne h2 h3 hnn
  have hmem3 : mem t3 = mem t := by rw [hm3, hm2, hm1]
  have hinv3 : inv t3 = inv t := by rw [hi3, hi2, hi1]
  have hlcl3 : lcl t3 = lcl t := by rw [hl3, hl2, hl1]
  rw [Prog.result_of_run hrun] at hok
  rw [Prog.trace_of_run hrun] at hrm
  have hfirst := bootstrapNewNode_first w mem inv lcl F hM t3 (by rw [hlcl3, hinv3]; exact hloc)
    (by rw [hlcl3, hmem3]; exact hnn) hok
    (fun u e hin => hrm u e (List.mem_cons_of_mem _ (List.mem_cons_of_mem _
      (List.mem_cons_of_mem _ hin))))
  rw [hlcl3, hinv3] at hfirst
  rw [Prog.result_of_run hrun, Prog.final_of_run hrun]
  exact hfirst

/-- C21. Re-run idempotence: against a faithful in-memory cluster whose
`Members` query returns the current list, with the local instance in the
inventory, if a run returns a nil error and none of its `RemoveMember` calls
fails, then the run started in the state it leaves (the same inventory and
local instance, the membership left by the first run) issues no `AddMember`
and no `RemoveMember` call and returns the same text, with a nil error. -/
theorem rerun_idempotent (w : World σ) (mem : σ → List Member) (inv : σ → List Instance)
    (lcl : σ → Instance) (F : FaithfulCluster w mem inv lcl)
    (hM : ∀ t, (w.Members t).1.2 = none) (s : σ) (hloc : lcl s ∈ inv s)
    (hok : ((GenerateEtcdFlags w).result s).2 = none)
    (hrm : ∀ u e, Event.RemoveMember u (some e) ∉ (GenerateEtcdFlags w).trace s) :
    inv ((GenerateEtcdFlags w).final s) = inv s ∧
    lcl ((GenerateEtcdFlags w).final s) = lcl s ∧
    addCalls ((GenerateEtcdFlags w).trace ((GenerateEtcdFlags w).final s)) = [] ∧
    removeCalls ((GenerateEtcdFlags w).trace ((GenerateEtcdFlags w).final s)) = [] ∧
    (GenerateEtcdFlags w).result ((GenerateEtcdFlags w).final s) =
      (GenerateEtcdFlags w).result s := by
  by_cases hnew : mem s = [] ∨ nodeExistsLoop (peerURL (lcl s).PrivateIP) (mem s) = true
  · obtain ⟨s1, hm1, hi1, hl1, hres, hfin, _, _⟩ := new_branch_run w mem inv lcl F hM s hnew
    obtain ⟨hmf, hif, hlf⟩ := bootstrapNewCluster_view w mem inv lcl F s1
    rw [← hfin] at hmf hif hlf
    have hmemF : mem ((GenerateEtcdFlags w).final s) = mem s := by rw [hmf, hm1]
    have hinvF : inv ((GenerateEtcdFlags w).final s) = inv s := by rw [hif, hi1]
    have hlclF : lcl ((GenerateEtcdFlags w).final s) = lcl s := by rw [hlf, hl1]
    obtain ⟨f1, _, hi2, hl2, hres2, _, hadd2, hrem2⟩ :=
      new_branch_run w mem inv lcl F hM ((GenerateEtcdFlags w).final s)
        (by rw [hmemF, hlclF]; exact hnew)
    refine ⟨hinvF, hlclF, hadd2, hrem2, ?_⟩
    rw [hres2, hres,
      bootstrapNewCluster_result_congr w mem inv lcl F f1 s1 (by rw [hi2, hinvF, hi1])
        (by rw [hl2, hlclF, hl1])]
  · have hne : mem s ≠ [] := fun h => hnew (Or.inl h)
    have hnn : nodeExistsLoop (peerURL (lcl s).PrivateIP) (mem s) = false := by
      cases hex : nodeExistsLoop (peerURL (lcl s).PrivateIP) (mem s) with
      | true => exact absurd (Or.inr hex) hnew
      | false => rfl
    obtain ⟨hres, hinvF, hlclF, hin, hall, hnnF⟩ :=
      joining_first_run w mem inv lcl F hM s hloc hne hnn hok hrm
    obtain ⟨hres2, hadd2, hrem2⟩ := stable_run w mem inv lcl F hM ((GenerateEtcdFlags w).final s)
      (by rw [hlclF]; exact hin) (by rw [hinvF]; exact hall) (by rw [hlclF]; exact hnnF)
    exact ⟨hinvF, hlclF, hadd2, hrem2, by rw [hres2, hres]⟩

theorem steady_join_trace :
    (GenerateEtcdFlags steadyWorld).trace joinState =
      [Event.Members staleMembers none, Event.Members staleMembers none,
        Event.GetLocalInstance { InstanceID := "e2", PrivateIP := "10.50.199.1" },
        Event.Members staleMembers none, Event.GetInstances testInstances,
        Event.RemoveMember "http://10.50.65.2:2380" none,
        Event.RemoveMember "http://10.50.44.44:2380" none,
        Event.Members [{ Name := "e1", PeerURL := "http://10.50.99.1:2380" }] none,
        Event.GetLocalInstance { InstanceID := "e2", PrivateIP := "10.50.199.1" },
        Event.AddMember "http://10.50.199.1:2380" none,
        Event.Members [{ Name := "e1", PeerURL := "http://10.50.99.1:2380" },
          { Name := "", PeerURL := "http://10.50.199.1:2380" }] none,
        Event.GetInstances testInstances,
        Event.GetLocalInstance { InstanceID := "e2", PrivateIP := "10.50.199.1" }] := by
  set_option maxRecDepth 100000 in decide

/-- The join case of the tests on the in-memory cluster: the first run removes
ea and eb and adds the local peer URL; the second run, started in the state
left by the first, issues no `AddMember` and no `RemoveMember` call and returns
the same text. -/
theorem rerun_idempotent_witness :
    ((GenerateEtcdFlags steadyWorld).final joinState).instances = joinState.instances ∧
    ((GenerateEtcdFlags steadyWorld).final joinState).localInstance = joinState.localInstance ∧
    addCalls ((GenerateEtcdFlags steadyWorld).trace
      ((GenerateEtcdFlags steadyWorld).final joinState)) = [] ∧
    removeCalls ((GenerateEtcdFlags steadyWorld).trace
      ((GenerateEtcdFlags steadyWorld).final joinState)) = [] ∧
    (GenerateEtcdFlags steadyWorld).result ((GenerateEtcdFlags steadyWorld).final joinState) =
      (GenerateEtcdFlags steadyWorld).result joinState :=
  rerun_idempotent steadyWorld (fun s => s.members) (fun s => s.instances)
    (fun s => s.localInstance) steadyWorld_faithful (fun _ => rfl) joinState
    (by decide) (by set_option maxRecDepth 100000 in decide)
    (by
      intro u e h
      rw [steady_join_trace] at h
      simp at h)

end FirstRun

end Bootstrap
